import Mathlib

/-!
ChibiOS low level drivers: STM32 I2C (`os/hal/platforms/STM32/i2c_lld.c`),
LPC214x serial (`os/io/platforms/LPC214x/serial_lld.c`) and Kinetis K20x
serial (`os/hal/ports/KINETIS/K20x/serial_lld.c`).

Shallow embedding of the three low level drivers.  Machine integers are
natural numbers; every store into a 16 bit register or a `uint16_t` local is
reduced modulo `2^16`, and likewise for 8 and 32 bits.  The debug checks
(`chDbgCheck`, `chDbgAssert`) are modelled as enabled: a failed check halts the
system, and the run records the machine state reached at the halt.
-/

namespace ChibiOS

/-! ## Constants of the peripheral header -/

/-- Peripheral enable bit of `I2C_CR1`. -/
def I2C_CR1_PE : Nat := 0x0001
/-- Stop generation bit of `I2C_CR1`. -/
def I2C_CR1_STOP : Nat := 0x0200
/-- Peripheral clock frequency field `FREQ[5:0]` of `I2C_CR2`. -/
def I2C_CR2_FREQ : Nat := 0x003F
/-- Clock control field `CCR[11:0]` of `I2C_CCR`. -/
def I2C_CCR_CCR : Nat := 0x0FFF
/-- Fast mode duty cycle bit of `I2C_CCR`. -/
def I2C_CCR_DUTY : Nat := 0x4000
/-- Master mode selection bit (F/S) of `I2C_CCR`. -/
def I2C_CCR_FS : Nat := 0x8000

/-- Bus error bit of `I2C_SR1`. -/
def I2C_SR1_BERR : Nat := 0x0100
/-- Arbitration lost bit of `I2C_SR1`. -/
def I2C_SR1_ARLO : Nat := 0x0200
/-- Acknowledge failure bit of `I2C_SR1`. -/
def I2C_SR1_AF : Nat := 0x0400
/-- Overrun/underrun bit of `I2C_SR1`. -/
def I2C_SR1_OVR : Nat := 0x0800
/-- PEC error bit of `I2C_SR1`. -/
def I2C_SR1_PECERR : Nat := 0x1000
/-- Timeout bit of `I2C_SR1`. -/
def I2C_SR1_TIMEOUT : Nat := 0x4000
/-- SMBus alert bit of `I2C_SR1`. -/
def I2C_SR1_SMBALERT : Nat := 0x8000

/-- Modelled from the spec: the portable error flags `I2CD_*` are declared in
the high level header `i2c.h`, which is not part of the sources at hand.  They
are the distinct one-bit masks of the error flag set, `I2CD_NO_ERROR` being the
empty mask. -/
def I2CD_NO_ERROR : Nat := 0x00
/-- Modelled from the spec: bus error flag of the error flag set (`i2c.h`). -/
def I2CD_BUS_ERROR : Nat := 0x01
/-- Modelled from the spec: arbitration lost flag of the error flag set (`i2c.h`). -/
def I2CD_ARBITRATION_LOST : Nat := 0x02
/-- Modelled from the spec: acknowledge failure flag of the error flag set (`i2c.h`). -/
def I2CD_ACK_FAILURE : Nat := 0x04
/-- Modelled from the spec: overrun flag of the error flag set (`i2c.h`). -/
def I2CD_OVERRUN : Nat := 0x08
/-- Modelled from the spec: PEC error flag of the error flag set (`i2c.h`). -/
def I2CD_PEC_ERROR : Nat := 0x10
/-- Modelled from the spec: SMBus timeout flag of the error flag set (`i2c.h`). -/
def I2CD_TIMEOUT : Nat := 0x20
/-- Modelled from the spec: SMBus alert flag of the error flag set (`i2c.h`). -/
def I2CD_SMB_ALERT : Nat := 0x40

/-! ## Machine integers -/

/-- The cast `(uint16_t)v` of a non-negative value, also the effect of storing
it into a 16 bit register. -/
def u16 (v : Nat) : Nat := v % 65536

/-- The C operator `~m` on a 16 bit constant promoted to a 32 bit `int`, as a
bit pattern. -/
def cnot (m : Nat) : Nat := 0xFFFFFFFF ^^^ m

/-! ## Data model -/

/-- Duty cycle policy `i2cdutycycle_t`. -/
inductive i2cdutycycle_t where
  | STD_DUTY_CYCLE
  | FAST_DUTY_CYCLE_2
  | FAST_DUTY_CYCLE_16_9
  deriving DecidableEq, Repr

/-- Driver life cycle state `i2cstate_t`. -/
inductive i2cstate_t where
  | I2C_UNINIT
  | I2C_STOP
  | I2C_READY
  | I2C_ACTIVE
  deriving DecidableEq, Repr

/-- The fields of `I2CConfig` read by the low level driver; `clock_speed` is an
`int32_t`. -/
structure I2CConfig where
  clock_speed : Int
  duty_cycle : i2cdutycycle_t
  deriving DecidableEq, Repr

/-- The registers of `I2C_TypeDef` touched by the driver, each 16 bits wide. -/
structure I2C_TypeDef where
  CR1 : Nat
  CR2 : Nat
  CCR : Nat
  TRISE : Nat
  SR1 : Nat
  deriving DecidableEq, Repr

/-- Names of the registers of `I2C_TypeDef`. -/
inductive Reg where
  | CR1
  | CR2
  | CCR
  | TRISE
  | SR1
  deriving DecidableEq, Repr

/-- Observable actions of the driver, in program order.  A register write
records the content of `CR1` at the moment of the write. -/
inductive Event where
  | write (r : Reg) (v : Nat) (cr1 : Nat)
  | pollCR1 (v : Nat)
  | addFlags (mask : Nat)
  | isrErrCode
  deriving DecidableEq, Repr

/-- The driver object `I2CDriver` together with the register block `id_i2c`
points to.  `errors` is the accumulated error flag set; `log` is a ghost field
listing the actions performed so far. -/
structure I2CDriver where
  id_state : i2cstate_t
  id_config : I2CConfig
  id_i2c : I2C_TypeDef
  errors : Nat
  log : List Event
  deriving DecidableEq, Repr

/-- Compile time configuration: the APB1 clock `STM32_PCLK1` in Hz, whether
`STM32F4XX` is defined, and `I2C_SUPPORTS_CALLBACKS`. -/
structure HalConf where
  STM32_PCLK1 : Nat
  STM32F4XX : Bool
  I2C_SUPPORTS_CALLBACKS : Bool
  deriving DecidableEq, Repr

/-- The debug checks of `i2c_lld_set_clock`, in source order. -/
inductive DbgFail where
  | check_args
  | check_freq
  | assert1
  | assert2
  | assert3
  deriving DecidableEq, Repr

/-- How a call ended: it returned, or a debug check failed and halted. -/
inductive Outcome where
  | returned
  | halted (f : DbgFail)
  deriving DecidableEq, Repr

/-- The result of a call: the machine state reached and how the call ended. -/
structure Run where
  drv : I2CDriver
  out : Outcome
  deriving DecidableEq, Repr

/-- Register content after storing `v` into register `r`. -/
def I2C_TypeDef.store (regs : I2C_TypeDef) (r : Reg) (v : Nat) : I2C_TypeDef :=
  match r with
  | .CR1 => { regs with CR1 := u16 v }
  | .CR2 => { regs with CR2 := u16 v }
  | .CCR => { regs with CCR := u16 v }
  | .TRISE => { regs with TRISE := u16 v }
  | .SR1 => { regs with SR1 := u16 v }

/-- A store `i2cp->id_i2c->r = v`, appended to the log. -/
def wr (r : Reg) (v : Nat) (d : I2CDriver) : I2CDriver :=
  { d with id_i2c := d.id_i2c.store r v,
           log := d.log ++ [Event.write r (u16 v) d.id_i2c.CR1] }

/-! ## `i2c_lld_set_clock` -/

/-- Upper bound of the `freq` range check: 42 with `STM32F4XX`, else 36. -/
def maxFreq (hc : HalConf) : Nat := if hc.STM32F4XX then 42 else 36

/-- Lines 325-329 of `i2c_lld_set_clock`: assertion #3, the write of `CCR` and
the restore of the saved PE bit. -/
def set_clock_finish (regCCR clock_div pe_bit_saved : Nat) (d : I2CDriver) : Run :=
  if ¬ (clock_div ≤ I2C_CCR_CCR) then ⟨d, .halted .assert3⟩ else
  let d := wr .CCR regCCR d
  let d := wr .CR1 (d.id_i2c.CR1 ||| pe_bit_saved) d
  ⟨d, .returned⟩

/-- The function `i2c_lld_set_clock`.  After the argument check `clock_speed`
is positive, so the `int32_t` arithmetic on it is arithmetic on
`clock_speed.toNat`. -/
def i2c_lld_set_clock (hc : HalConf) (d : I2CDriver) : Run :=
  let clock_speed := d.id_config.clock_speed
  let duty := d.id_config.duty_cycle
  if ¬ (clock_speed > 0 ∧ clock_speed ≤ 4000000) then ⟨d, .halted .check_args⟩ else
  let cs := clock_speed.toNat
  -- CR2 configuration
  let regCR2 := d.id_i2c.CR2
  let regCR2 := u16 (regCR2 &&& u16 (cnot I2C_CR2_FREQ))
  let freq := u16 (hc.STM32_PCLK1 / 1000000)
  if ¬ (freq ≥ 2 ∧ freq ≤ maxFreq hc) then ⟨d, .halted .check_freq⟩ else
  let regCR2 := u16 (regCR2 ||| freq)
  let d := wr .CR2 regCR2 d
  -- CCR configuration
  let pe_bit_saved := u16 (d.id_i2c.CR1 &&& I2C_CR1_PE)
  let d := wr .CR1 (d.id_i2c.CR1 &&& u16 (cnot I2C_CR1_PE)) d
  let regCCR := 0
  let clock_div := I2C_CCR_CCR
  if clock_speed ≤ 100000 then
    if ¬ (duty = .STD_DUTY_CYCLE) then ⟨d, .halted .assert1⟩ else
    let clock_div := u16 (hc.STM32_PCLK1 / (cs * 2))
    let clock_div := if clock_div < 0x04 then 0x04 else clock_div
    let regCCR := u16 (regCCR ||| (clock_div &&& I2C_CCR_CCR))
    let d := wr .TRISE (freq + 1) d
    set_clock_finish regCCR clock_div pe_bit_saved d
  else if clock_speed ≤ 400000 then
    if ¬ (duty = .FAST_DUTY_CYCLE_2 ∨ duty = .FAST_DUTY_CYCLE_16_9) then
      ⟨d, .halted .assert2⟩ else
    let cr :=
      if duty = .FAST_DUTY_CYCLE_2 then
        (u16 (hc.STM32_PCLK1 / (cs * 3)), regCCR)
      else if duty = .FAST_DUTY_CYCLE_16_9 then
        (u16 (hc.STM32_PCLK1 / (cs * 25)), u16 (regCCR ||| I2C_CCR_DUTY))
      else (clock_div, regCCR)
    let clock_div := cr.1
    let regCCR := cr.2
    let clock_div := if clock_div < 0x01 then 0x01 else clock_div
    let regCCR := u16 (regCCR ||| (I2C_CCR_FS ||| (clock_div &&& I2C_CCR_CCR)))
    let d := wr .TRISE (freq * 300 / 1000 + 1) d
    set_clock_finish regCCR clock_div pe_bit_saved d
  else
    set_clock_finish regCCR clock_div pe_bit_saved d

/-- A stopped driver object with the given configuration and register
contents, no pending error flag and an empty log. -/
def mkDriver (cfg : I2CConfig) (regs : I2C_TypeDef) : I2CDriver :=
  { id_state := .I2C_STOP, id_config := cfg, id_i2c := regs, errors := 0, log := [] }

/-- The register block after reset: every register zero. -/
def resetRegs : I2C_TypeDef := { CR1 := 0, CR2 := 0, CCR := 0, TRISE := 0, SR1 := 0 }

/-- A board configuration with `STM32_PCLK1` = 36 MHz (STM32F1). -/
def hc36 : HalConf :=
  { STM32_PCLK1 := 36000000, STM32F4XX := false, I2C_SUPPORTS_CALLBACKS := false }

/-! ## `i2c_serve_error_interrupt` -/

/-- One clause of the error handler: when `bit` is set in `SR1` it is cleared
with `reg->SR1 &= ~bit` and `flag` is or-ed into the local `flags`. -/
def serve_flag (bit flag : Nat) (s : I2CDriver × Nat) : I2CDriver × Nat :=
  if s.1.id_i2c.SR1 &&& bit ≠ 0 then
    (wr .SR1 (s.1.id_i2c.SR1 &&& cnot bit) s.1, s.2 ||| flag)
  else s

/-- The value a read of `CR1` returns while a stop request is in progress.
The STOP bit is driven by the hardware: it stays as written while the stop
condition is pending and reads as zero once the hardware has cleared it.  The
other bits are those last written. -/
def readCR1 (pending : Bool) (d : I2CDriver) : Nat :=
  if pending then d.id_i2c.CR1 else u16 (d.id_i2c.CR1 &&& cnot I2C_CR1_STOP)

/-- The loop `while (i2cp->id_i2c->CR1 & I2C_CR1_STOP) ;`.  `stopPending k`
tells whether the hardware still holds the STOP bit at the `k`-th poll.  The
result is `none` when `fuel` polls were not enough for the loop to exit. -/
def wait_stop (stopPending : Nat → Bool) : Nat → Nat → I2CDriver → Option I2CDriver
  | 0, _, _ => none
  | fuel + 1, k, d =>
    let v := readCR1 (stopPending k) d
    let d := { d with id_i2c := { d.id_i2c with CR1 := v },
                      log := d.log ++ [Event.pollCR1 v] }
    if v &&& I2C_CR1_STOP ≠ 0 then wait_stop stopPending fuel (k + 1) d else some d

/-- Modelled from the spec: `i2cAddFlagsI` belongs to the high level driver
(`i2c.h`), which is not part of the sources at hand.  It ors the mask into the
error flag set of the channel and raises one event notification. -/
def i2cAddFlagsI (mask : Nat) (d : I2CDriver) : I2CDriver :=
  { d with errors := d.errors ||| mask, log := d.log ++ [Event.addFlags mask] }

/-- Modelled from the spec: the macro `_i2c_isr_err_code`, used with
`I2C_SUPPORTS_CALLBACKS`, belongs to the high level header `i2c.h`, which is
not part of the sources at hand.  It invokes the error callback; the channel
stays in the state it is in, as the spec says of runtime link errors. -/
def _i2c_isr_err_code (d : I2CDriver) : I2CDriver :=
  { d with log := d.log ++ [Event.isrErrCode] }

/-- Lines 106-112 of `i2c_serve_error_interrupt`: the acknowledge failure
clause with its bus stop sequence. -/
def serve_ack_failure (stopPending : Nat → Bool) (fuel : Nat) (s : I2CDriver × Nat) :
    Option (I2CDriver × Nat) :=
  if s.1.id_i2c.SR1 &&& I2C_SR1_AF ≠ 0 then
    let d := wr .SR1 (s.1.id_i2c.SR1 &&& cnot I2C_SR1_AF) s.1
    let d := wr .CR1 (d.id_i2c.CR1 ||| I2C_CR1_STOP) d
    (wait_stop stopPending fuel 0 d).map (fun d => (d, s.2 ||| I2CD_ACK_FAILURE))
  else some s

/-- Lines 113-137 of `i2c_serve_error_interrupt`: the remaining clauses and
the notification. -/
def serve_error_rest (hc : HalConf) (s : I2CDriver × Nat) : I2CDriver :=
  let s := serve_flag I2C_SR1_OVR I2CD_OVERRUN s
  let s := serve_flag I2C_SR1_PECERR I2CD_PEC_ERROR s
  let s := serve_flag I2C_SR1_TIMEOUT I2CD_TIMEOUT s
  let s := serve_flag I2C_SR1_SMBALERT I2CD_SMB_ALERT s
  let flags := s.2
  if flags ≠ I2CD_NO_ERROR then
    let d := i2cAddFlagsI flags s.1
    if hc.I2C_SUPPORTS_CALLBACKS then _i2c_isr_err_code d else d
  else s.1

/-- The function `i2c_serve_error_interrupt`. -/
def i2c_serve_error_interrupt (hc : HalConf) (stopPending : Nat → Bool) (fuel : Nat)
    (d : I2CDriver) : Option I2CDriver :=
  let s : I2CDriver × Nat := (d, I2CD_NO_ERROR)
  let s := serve_flag I2C_SR1_BERR I2CD_BUS_ERROR s
  let s := serve_flag I2C_SR1_ARLO I2CD_ARBITRATION_LOST s
  (serve_ack_failure stopPending fuel s).map (serve_error_rest hc)

/-- The driver after lines 279-296 of `i2c_lld_set_clock`: `CR2` carries the
new FREQ field and PE is cleared in `CR1`. -/
def set_clock_prologue (hc : HalConf) (d : I2CDriver) : I2CDriver :=
  let d1 := wr .CR2 (u16 (u16 (d.id_i2c.CR2 &&& u16 (cnot I2C_CR2_FREQ)) |||
    u16 (hc.STM32_PCLK1 / 1000000))) d
  wr .CR1 (d1.id_i2c.CR1 &&& u16 (cnot I2C_CR1_PE)) d1

/-- The driver after lines 328-329 of `i2c_lld_set_clock`, entered in state `p`
from a call entered in state `d`: `CCR` is written and the PE bit saved from
`d` is or-ed back into `CR1`. -/
def set_clock_epilogue (d p : I2CDriver) (regCCR : Nat) : I2CDriver :=
  let p1 := wr .CCR regCCR p
  wr .CR1 (p1.id_i2c.CR1 ||| u16 (d.id_i2c.CR1 &&& I2C_CR1_PE)) p1

/-- The divider the specification prescribes for the standard band: the exact
quotient `pclk1 / (2 * speed)` rounded to the nearest integer, with floor 4. -/
def spec_std_divider (pclk1 speed : Nat) : Int :=
  max 4 (round ((pclk1 : ℚ) / (2 * (speed : ℚ))))

/-- The divider the specification prescribes for the fast band: the exact
quotient `pclk1 / (k * speed)` rounded to the nearest integer, with floor 1;
`k` is 3 for duty 2:1 and 25 for duty 16:9. -/
def spec_fast_divider (k pclk1 speed : Nat) : Int :=
  max 1 (round ((pclk1 : ℚ) / ((k : ℚ) * (speed : ℚ))))

/-! ## Specification of the error handler -/

/-- The masks passed to `i2cAddFlagsI`, in call order, read off a log. -/
def addFlagsCalls (log : List Event) : List Nat :=
  log.filterMap (fun e => match e with
    | .addFlags m => some m
    | _ => none)

/-- The `SR1` bits the error handler recognises. -/
def I2C_SR1_ERRORS : Nat :=
  I2C_SR1_BERR ||| I2C_SR1_ARLO ||| I2C_SR1_AF ||| I2C_SR1_OVR ||| I2C_SR1_PECERR |||
    I2C_SR1_TIMEOUT ||| I2C_SR1_SMBALERT

/-- The image of the recognised `SR1` bits in the error flag set: each bit
contributes its portable flag. -/
def error_flags_of_sr1 (sr1 : Nat) : Nat :=
  (if sr1 &&& I2C_SR1_BERR ≠ 0 then I2CD_BUS_ERROR else 0) |||
  (if sr1 &&& I2C_SR1_ARLO ≠ 0 then I2CD_ARBITRATION_LOST else 0) |||
  (if sr1 &&& I2C_SR1_AF ≠ 0 then I2CD_ACK_FAILURE else 0) |||
  (if sr1 &&& I2C_SR1_OVR ≠ 0 then I2CD_OVERRUN else 0) |||
  (if sr1 &&& I2C_SR1_PECERR ≠ 0 then I2CD_PEC_ERROR else 0) |||
  (if sr1 &&& I2C_SR1_TIMEOUT ≠ 0 then I2CD_TIMEOUT else 0) |||
  (if sr1 &&& I2C_SR1_SMBALERT ≠ 0 then I2CD_SMB_ALERT else 0)

/-- The invariant of the error handler between two clauses, for a call entered
in state `d`: `SR1` is the entry value masked with `m`, the local `flags` is
`f`, and neither the error flag set, the driver state nor the list of
`i2cAddFlagsI` calls has changed yet. -/
def ServeInv (d : I2CDriver) (s : I2CDriver × Nat) (m f : Nat) : Prop :=
  s.1.id_i2c.SR1 = d.id_i2c.SR1 &&& m ∧ s.2 = f ∧ s.1.errors = d.errors ∧
    s.1.id_state = d.id_state ∧ addFlagsCalls s.1.log = addFlagsCalls d.log

/-- A hardware behaviour of the STOP bit: the stop condition is pending during
the first `n` polls and the bit reads as zero from then on. -/
def stopAfter (n : Nat) : Nat → Bool := fun k => decide (k < n)

/-- A ready driver whose `SR1` shows a bus error and an acknowledge failure
next to the unrelated bits 0 and 13. -/
def errDriver : I2CDriver :=
  { id_state := .I2C_READY, id_config := ⟨100000, .STD_DUTY_CYCLE⟩,
    id_i2c := { CR1 := 1, CR2 := 36, CCR := 180, TRISE := 37, SR1 := 0x2501 },
    errors := 0, log := [] }

/-- The number of polls of `CR1` made by the bus stop wait, read off a log. -/
def pollCount (log : List Event) : Nat :=
  (log.filter (fun e => match e with
    | .pollCR1 _ => true
    | _ => false)).length

/-- A hardware behaviour of the STOP bit in which the bit is never cleared. -/
def stopNever : Nat → Bool := fun _ => true

/-! ## LPC214x serial driver (`os/io/platforms/LPC214x/serial_lld.c`)

The UART is modelled with its receive FIFO: `LSR_RBR_FULL` reads as set exactly
while the FIFO holds a byte, and a read of `UART_RBR` removes the byte at the
head.  `UART_THR` is the same register as `UART_RBR`, written instead of read,
so a read of `UART_THR` is a read of `UART_RBR`.  No byte arrives while the
interrupt is served.  Bytes are values of `Fin 256`. -/

/-- Interrupt source field of `UART_IIR`. -/
def IIR_SRC_MASK : Nat := 0x0F
/-- No interrupt pending. -/
def IIR_SRC_NONE : Nat := 0x01
/-- Transmit holding register empty. -/
def IIR_SRC_TX : Nat := 0x02
/-- Receive data available. -/
def IIR_SRC_RX : Nat := 0x04
/-- Receive line status. -/
def IIR_SRC_ERROR : Nat := 0x06
/-- Character time-out. -/
def IIR_SRC_TIMEOUT : Nat := 0x0C
/-- Transmit interrupt enable bit of `UART_IER`. -/
def IER_THRE : Nat := 0x02
/-- Receiver data ready bit of `UART_LSR`. -/
def LSR_RBR_FULL : Nat := 0x01
/-- Overrun error bit of `UART_LSR`. -/
def LSR_OVERRUN : Nat := 0x02
/-- Parity error bit of `UART_LSR`. -/
def LSR_PARITY : Nat := 0x04
/-- Framing error bit of `UART_LSR`. -/
def LSR_FRAMING : Nat := 0x08
/-- Break interrupt bit of `UART_LSR`. -/
def LSR_BREAK : Nat := 0x10

/-- Modelled from the spec: the serial driver flags `SD_*` are declared in
`serial.h`, which is not part of the sources at hand.  They are distinct
one-bit masks of the error flag set. -/
def SD_PARITY_ERROR : Nat := 0x01
/-- Modelled from the spec: framing error flag (`serial.h`). -/
def SD_FRAMING_ERROR : Nat := 0x02
/-- Modelled from the spec: overrun flag (`serial.h`). -/
def SD_OVERRUN_ERROR : Nat := 0x04
/-- Modelled from the spec: break detected flag (`serial.h`). -/
def SD_BREAK_DETECTED : Nat := 0x08

/-- Modelled from the spec: queue result codes of `chqueues.h`, which is not
part of the sources at hand; the failure codes are negative. -/
def Q_OK : Int := 0
/-- Modelled from the spec: result of a get on an empty queue (`chqueues.h`). -/
def Q_EMPTY : Int := -3
/-- Modelled from the spec: result of a put on a full queue (`chqueues.h`). -/
def Q_FULL : Int := -4

/-- The store of a value into a 32 bit register. -/
def u32 (v : Nat) : Nat := v % 4294967296

/-- Observable actions of the serial interrupt handler, in program order. -/
inductive SdEvent where
  | readIIR (v : Nat)
  | readRBR (b : Fin 256)
  | readTHR
  | writeTHR (b : Nat)
  | writeIER (v : Nat)
  | addFlags (mask : Nat)
  | ievent
  | oevent
  deriving DecidableEq, Repr

/-- The UART block `u` and the driver object `sdp` handed to `serve_interrupt`.
`lsr` holds the bits of `UART_LSR` other than `LSR_RBR_FULL`, `rxfifo` the
hardware receive FIFO, `thr` the values written to `UART_THR` so far; `iqueue`
(of capacity `iqsize`) and `oqueue` are the queues of the driver, `sd_flags`
its flag set, and `log` a ghost list of the actions performed so far. -/
structure SerialPort where
  UART_IER : Nat
  lsr : Nat
  rxfifo : List (Fin 256)
  thr : List Nat
  iqueue : List (Fin 256)
  iqsize : Nat
  oqueue : List (Fin 256)
  sd_flags : Nat
  log : List SdEvent
  deriving DecidableEq, Repr

/-- Appends an action to the log. -/
def SerialPort.logged (e : SdEvent) (s : SerialPort) : SerialPort :=
  { s with log := s.log ++ [e] }

/-- The value a read of `UART_LSR` returns. -/
def UART_LSR (s : SerialPort) : Nat :=
  if s.rxfifo.isEmpty then s.lsr &&& cnot LSR_RBR_FULL else s.lsr ||| LSR_RBR_FULL

/-- A read of `UART_RBR`: the byte at the head of the receive FIFO, which the
read removes; an empty FIFO reads as zero. -/
def UART_RBR (s : SerialPort) : Fin 256 × SerialPort :=
  match s.rxfifo with
  | [] => (0, s.logged (.readRBR 0))
  | b :: t => (b, { s with rxfifo := t, log := s.log ++ [.readRBR b] })

/-- Modelled from the spec: `chIQPutI` belongs to `chqueues.c`, which is not part
of the sources at hand.  It appends the byte to the input queue, or returns
`Q_FULL` and leaves a full queue as it is. -/
def chIQPutI (b : Fin 256) (s : SerialPort) : Int × SerialPort :=
  if s.iqueue.length < s.iqsize then (Q_OK, { s with iqueue := s.iqueue ++ [b] })
  else (Q_FULL, s)

/-- Modelled from the spec: `chOQGetI` belongs to `chqueues.c`, which is not part
of the sources at hand.  It removes and returns the byte at the head of the
output queue, or returns `Q_EMPTY`. -/
def chOQGetI (s : SerialPort) : Int × SerialPort :=
  match s.oqueue with
  | [] => (Q_EMPTY, s)
  | b :: t => ((b.val : Int), { s with oqueue := t })

/-- Modelled from the spec: `sdAddFlagsI` belongs to `serial.c`, which is not part
of the sources at hand.  It ors the mask into the flag set of the driver and
signals the status event. -/
def sdAddFlagsI (mask : Nat) (s : SerialPort) : SerialPort :=
  { s with sd_flags := s.sd_flags ||| mask, log := s.log ++ [.addFlags mask] }

/-- Modelled from the spec: `sdRequestDataI` belongs to `serial.c`, which is not
part of the sources at hand.  It gets a byte from the output queue and
broadcasts the output-empty event when there is none. -/
def sdRequestDataI (s : SerialPort) : Int × SerialPort :=
  let r := chOQGetI s
  if r.1 < Q_OK then (r.1, r.2.logged .oevent) else r

/-- The function `set_error`. -/
def set_error (err : Nat) (s : SerialPort) : SerialPort :=
  let sts := 0
  let sts := if err &&& LSR_OVERRUN ≠ 0 then sts ||| SD_OVERRUN_ERROR else sts
  let sts := if err &&& LSR_PARITY ≠ 0 then sts ||| SD_PARITY_ERROR else sts
  let sts := if err &&& LSR_FRAMING ≠ 0 then sts ||| SD_FRAMING_ERROR else sts
  let sts := if err &&& LSR_BREAK ≠ 0 then sts ||| SD_BREAK_DETECTED else sts
  sdAddFlagsI sts s

/-- Lines 133-136 of `serve_interrupt`: the body of the receive loop. -/
def rx_put (s : SerialPort) : SerialPort :=
  let r := UART_RBR s
  let p := chIQPutI r.1 r.2
  if p.1 < Q_OK then sdAddFlagsI SD_OVERRUN_ERROR p.2 else p.2

/-- The loop `while (u->UART_LSR & LSR_RBR_FULL)` of `serve_interrupt`, run for
at most the given number of iterations. -/
def rx_loop : Nat → SerialPort → SerialPort
  | 0, s => s
  | n + 1, s => if UART_LSR s &&& LSR_RBR_FULL ≠ 0 then rx_loop n (rx_put s) else s

/-- Lines 130-141 of `serve_interrupt`: the receive service.  Every iteration
of the loop removes a byte from the receive FIFO, so as many iterations as
the FIFO holds bytes reach the exit of the loop. -/
def rx_service (s : SerialPort) : SerialPort :=
  (rx_loop s.rxfifo.length s).logged .ievent

/-- The `do ... while (--i)` loop of the transmit service, entered with the
counter at `i`. -/
def tx_preload : Nat → SerialPort → SerialPort
  | 0, s => s
  | i + 1, s =>
    let r := chOQGetI s
    if r.1 < Q_OK then
      { r.2 with UART_IER := u32 (r.2.UART_IER &&& cnot IER_THRE),
                 log := r.2.log ++ [.writeIER (u32 (r.2.UART_IER &&& cnot IER_THRE)), .oevent] }
    else
      tx_preload i { r.2 with thr := r.2.thr ++ [r.1.toNat],
                              log := r.2.log ++ [.writeTHR r.1.toNat] }

/-- Lines 143-168 of `serve_interrupt`: the transmit service, for the value `p`
of `UART_FIFO_PRELOAD`. -/
def tx_service (p : Nat) (s : SerialPort) : SerialPort :=
  if p > 0 then tx_preload p s
  else
    let r := sdRequestDataI s
    if r.1 < Q_OK then
      { r.2 with UART_IER := u32 (r.2.UART_IER &&& cnot IER_THRE),
                 log := r.2.log ++ [.writeIER (u32 (r.2.UART_IER &&& cnot IER_THRE))] }
    else
      { r.2 with thr := r.2.thr ++ [r.1.toNat], log := r.2.log ++ [.writeTHR r.1.toNat] }

/-- Lines 170-171 of `serve_interrupt`: the `default` clause, a read of
`UART_THR` and a read of `UART_RBR` whose values are thrown away.  On the
LPC214x `UART_THR` and `UART_RBR` are the one register at offset 0 (the 16550
layout, in which `uart_init` reaches `UART_DLL` at the same place through
`LCR_DLAB`): a write goes to the transmit holding register and every read
comes from the receive buffer.  So the read of `UART_THR` takes the byte at
the head of the receive FIFO and the read of `UART_RBR` takes the next one. -/
def default_clear (s : SerialPort) : SerialPort :=
  (UART_RBR (UART_RBR (s.logged .readTHR)).2).2

/-- The `switch` of `serve_interrupt` for a source other than `IIR_SRC_NONE`.
The transmit clause has no `break` and runs into the `default` clause. -/
def serve_cause (p src : Nat) (s : SerialPort) : SerialPort :=
  if src = IIR_SRC_ERROR then set_error (UART_LSR s) s
  else if src = IIR_SRC_TIMEOUT ∨ src = IIR_SRC_RX then rx_service s
  else if src = IIR_SRC_TX then default_clear (tx_service p s)
  else default_clear s

/-- The function `serve_interrupt` of the LPC214x driver, for the value `p` of
`UART_FIFO_PRELOAD`.  The list holds the values that successive reads of
`UART_IIR` return; the result tells whether the function has returned or is
still in its loop when the list is used up. -/
def serve_interrupt (p : Nat) : List Nat → SerialPort → SerialPort × Bool
  | [], s => (s, false)
  | v :: rest, s =>
    if v &&& IIR_SRC_MASK = IIR_SRC_NONE then (s.logged (.readIIR v), true)
    else serve_interrupt p rest (serve_cause p (v &&& IIR_SRC_MASK) (s.logged (.readIIR v)))

/-- A serial port with the given receive FIFO, input queue capacity, input and
output queue contents, all interrupt sources enabled, an idle transmitter, no
flag and an empty log. -/
def mkPort (h : List (Fin 256)) (cap : Nat) (q o : List (Fin 256)) : SerialPort :=
  { UART_IER := 0x07, lsr := 0x60, rxfifo := h, thr := [], iqueue := q, iqsize := cap,
    oqueue := o, sd_flags := 0, log := [] }

/-- The actions of the receive loop on a FIFO holding `h` when the input queue
has room for `room` more bytes: every byte is read, and every byte read
after the room is used up is followed by `sdAddFlagsI(sdp, SD_OVERRUN_ERROR)`. -/
def rx_log : Nat → List (Fin 256) → List SdEvent
  | _, [] => []
  | 0, b :: t => .readRBR b :: .addFlags SD_OVERRUN_ERROR :: rx_log 0 t
  | k + 1, b :: t => .readRBR b :: rx_log k t

/-- The bytes read from `UART_RBR`, read off a log. -/
def rbrReads (log : List SdEvent) : List (Fin 256) :=
  log.filterMap (fun e => match e with
    | .readRBR b => some b
    | _ => none)

/-- The masks passed to `sdAddFlagsI`, in call order, read off a log. -/
def sdFlagCalls (log : List SdEvent) : List Nat :=
  log.filterMap (fun e => match e with
    | .addFlags m => some m
    | _ => none)

/-- The values written to `UART_THR`, in order, read off a log. -/
def thrWrites (log : List SdEvent) : List Nat :=
  log.filterMap (fun e => match e with
    | .writeTHR b => some b
    | _ => none)

/-- One iteration of the loop of `serve_interrupt` for a read of `UART_IIR` whose
source is not `IIR_SRC_NONE`: the read, then the clause of the switch. -/
def serve_step (p : Nat) (s : SerialPort) (v : Nat) : SerialPort :=
  serve_cause p (v &&& IIR_SRC_MASK) (s.logged (.readIIR v))

/-- The received bytes are accounted for between the states `s` and `r`: the
bytes `c` read from `UART_RBR` in between are those that left the head of the
receive FIFO, the first of them, as many as the input queue had room for, were
appended to the queue in order, and if there were more the flag set carries
`SD_OVERRUN_ERROR`. -/
def Accounted (s r : SerialPort) : Prop :=
  ∃ c ext, s.rxfifo = c ++ r.rxfifo ∧ r.log = s.log ++ ext ∧ rbrReads ext = c ∧
    r.iqsize = s.iqsize ∧
    r.iqueue = s.iqueue ++ c.take (s.iqsize - s.iqueue.length) ∧
    (s.iqsize - s.iqueue.length < c.length → r.sd_flags &&& SD_OVERRUN_ERROR ≠ 0) ∧
    (s.sd_flags &&& SD_OVERRUN_ERROR ≠ 0 → r.sd_flags &&& SD_OVERRUN_ERROR ≠ 0)

/-! ## `i2c_lld_start` of the STM32 I2C driver

The driver object is `I2CD2`, the only one `i2c_lld_init` sets up (the source
stops with `#error` when `STM32_I2C_USE_I2C1` is set).  The DMA streams, the
clock gate of the peripheral and the two interrupt vectors are kept next to the
driver in `I2CSystem`. -/

/-- Software reset bit of `I2C_CR1`. -/
def I2C_CR1_SWRST : Nat := 0x8000
/-- SMBus mode bit of `I2C_CR1`. -/
def I2C_CR1_SMBUS : Nat := 0x0002
/-- SMBus type bit of `I2C_CR1`. -/
def I2C_CR1_SMBTYPE : Nat := 0x0008

/-- Direct mode error interrupt enable bit of the DMA stream `CR`. -/
def STM32_DMA_CR_DMEIE : Nat := 0x00000002
/-- Transfer error interrupt enable bit of the DMA stream `CR`. -/
def STM32_DMA_CR_TEIE : Nat := 0x00000004
/-- Peripheral size field of the DMA stream `CR`, byte. -/
def STM32_DMA_CR_PSIZE_BYTE : Nat := 0
/-- Memory size field of the DMA stream `CR`, byte. -/
def STM32_DMA_CR_MSIZE_BYTE : Nat := 0
/-- Channel selection field `CHSEL[2:0]` of the DMA stream `CR`. -/
def STM32_DMA_CR_CHSEL (n : Nat) : Nat := n <<< 25
/-- Priority level field `PL[1:0]` of the DMA stream `CR`. -/
def STM32_DMA_CR_PL (n : Nat) : Nat := n <<< 16

/-- Operation mode `i2copmode_t`. -/
inductive i2copmode_t where
  | OPMODE_I2C
  | OPMODE_SMBUS_DEVICE
  | OPMODE_SMBUS_HOST
  deriving DecidableEq, Repr

/-- The two DMA streams of the driver object. -/
inductive DmaStream where
  | dmarx
  | dmatx
  deriving DecidableEq, Repr

/-- Who holds a DMA stream: nobody, this driver, or some other driver. -/
inductive StreamOwner where
  | free
  | driver
  | other
  deriving DecidableEq, Repr

/-- What the peripheral address register of a DMA stream points to. -/
inductive DmaTarget where
  | unset
  | I2C_DR
  deriving DecidableEq, Repr

/-- The two interrupt vectors of I2C2. -/
inductive IRQn where
  | I2C2_EV_IRQn
  | I2C2_ER_IRQn
  deriving DecidableEq, Repr

/-- Actions on the hardware around the I2C register block, in program order.
`dmaAllocate st taken` is a call of `dmaStreamAllocate` and what it returned. -/
inductive SysEvent where
  | dmaAllocate (st : DmaStream) (taken : Bool)
  | dmaSetPeripheral (st : DmaStream)
  | rccEnableI2C2
  | rccDisableI2C2
  | nvicEnable (v : IRQn)
  | nvicDisable (v : IRQn)
  deriving DecidableEq, Repr

/-- The driver `I2CD2` with the rest of what `i2c_lld_start` works on: the field
`op_mode` of `id_config`, the field `dmamode` of the driver object, the owner
and the peripheral address of the streams `dmarx` and `dmatx`, the clock gate
of I2C2, the enable state of its two vectors, and the ghost log `syslog`. -/
structure I2CSystem where
  drv : I2CDriver
  op_mode : i2copmode_t
  dmamode : Nat
  rx_owner : StreamOwner
  tx_owner : StreamOwner
  rx_par : DmaTarget
  tx_par : DmaTarget
  clock_on : Bool
  ev_vector : Bool
  er_vector : Bool
  syslog : List SysEvent
  deriving DecidableEq, Repr

/-- The debug checks met in `i2c_lld_start`, in source order: assertion #3 (the
stream `dmarx` is already allocated), assertion #4 (the stream `dmatx` is
already allocated), and those of `i2c_lld_set_clock`. -/
inductive StartFail where
  | assert3
  | assert4
  | set_clock (f : DbgFail)
  deriving DecidableEq, Repr

/-- How a call of `i2c_lld_start` ended. -/
inductive StartOutcome where
  | returned
  | halted (f : StartFail)
  deriving DecidableEq, Repr

/-- The result of a call of `i2c_lld_start`. -/
structure StartRun where
  sys : I2CSystem
  out : StartOutcome
  deriving DecidableEq, Repr

/-- Modelled from the spec: `dmaStreamAllocate` belongs to the DMA helper
driver (`stm32_dma.c`), which is not part of the sources at hand.  Acquisition
is exclusive: the call returns `TRUE` and changes nothing when the stream is
already owned, else it gives the stream to the caller and returns `FALSE`. -/
def dmaStreamAllocate (st : DmaStream) (y : I2CSystem) : Bool × I2CSystem :=
  match st with
  | .dmarx =>
    if y.rx_owner = .free then
      (false, { y with rx_owner := .driver, syslog := y.syslog ++ [.dmaAllocate .dmarx false] })
    else (true, { y with syslog := y.syslog ++ [.dmaAllocate .dmarx true] })
  | .dmatx =>
    if y.tx_owner = .free then
      (false, { y with tx_owner := .driver, syslog := y.syslog ++ [.dmaAllocate .dmatx false] })
    else (true, { y with syslog := y.syslog ++ [.dmaAllocate .dmatx true] })

/-- Modelled from the spec: `dmaStreamSetPeripheral` belongs to the DMA helper
driver (`stm32_dma.h`), which is not part of the sources at hand.  It stores
the address into the peripheral address register of the stream; the address
passed by `i2c_lld_start` is that of `DR`. -/
def dmaStreamSetPeripheral (st : DmaStream) (y : I2CSystem) : I2CSystem :=
  match st with
  | .dmarx => { y with rx_par := .I2C_DR, syslog := y.syslog ++ [.dmaSetPeripheral .dmarx] }
  | .dmatx => { y with tx_par := .I2C_DR, syslog := y.syslog ++ [.dmaSetPeripheral .dmatx] }

/-- Modelled from the spec: `rccEnableI2C2` belongs to the RCC helper header,
which is not part of the sources at hand.  It opens the clock gate of I2C2. -/
def rccEnableI2C2 (y : I2CSystem) : I2CSystem :=
  { y with clock_on := true, syslog := y.syslog ++ [.rccEnableI2C2] }

/-- Modelled from the spec: `NVICEnableVector` belongs to the port layer,
which is not part of the sources at hand.  It enables the vector. -/
def NVICEnableVector (v : IRQn) (y : I2CSystem) : I2CSystem :=
  match v with
  | .I2C2_EV_IRQn => { y with ev_vector := true, syslog := y.syslog ++ [.nvicEnable v] }
  | .I2C2_ER_IRQn => { y with er_vector := true, syslog := y.syslog ++ [.nvicEnable v] }

/-- The function `i2c_lld_set_opmode`; `regCR1` is a `uint16_t`. -/
def i2c_lld_set_opmode (opmode : i2copmode_t) (d : I2CDriver) : I2CDriver :=
  let regCR1 := d.id_i2c.CR1
  let regCR1 :=
    match opmode with
    | .OPMODE_I2C => regCR1 &&& u16 (cnot (I2C_CR1_SMBUS ||| I2C_CR1_SMBTYPE))
    | .OPMODE_SMBUS_DEVICE => (regCR1 ||| I2C_CR1_SMBUS) &&& u16 (cnot I2C_CR1_SMBTYPE)
    | .OPMODE_SMBUS_HOST => regCR1 ||| (I2C_CR1_SMBUS ||| I2C_CR1_SMBTYPE)
  wr .CR1 regCR1 d

/-- Lines 200-235 of `i2c_lld_start`: what is done only in state `I2C_STOP`.
The result carries the assertion that failed, if one did; `prio` is
`STM32_I2C_I2C2_DMA_PRIORITY`. -/
def start_acquire (prio : Nat) (y : I2CSystem) : I2CSystem × Option StartFail :=
  if y.drv.id_state = .I2C_STOP then
    let r := dmaStreamAllocate .dmarx y
    if r.1 then (r.2, some .assert3) else
    let r := dmaStreamAllocate .dmatx r.2
    if r.1 then (r.2, some .assert4) else
    let y := rccEnableI2C2 r.2
    let y := NVICEnableVector .I2C2_EV_IRQn y
    let y := NVICEnableVector .I2C2_ER_IRQn y
    ({ y with dmamode := y.dmamode ||| (STM32_DMA_CR_CHSEL 7 ||| STM32_DMA_CR_PL prio) }, none)
  else (y, none)

/-- Lines 237-246 of `i2c_lld_start`: what is done in every state. -/
def start_configure (hc : HalConf) (y : I2CSystem) : StartRun :=
  let y := { y with dmamode := y.dmamode ||| (STM32_DMA_CR_PSIZE_BYTE ||| STM32_DMA_CR_MSIZE_BYTE) }
  let y := dmaStreamSetPeripheral .dmarx y
  let y := dmaStreamSetPeripheral .dmatx y
  let d := wr .CR1 I2C_CR1_SWRST y.drv
  let d := wr .CR1 0 d
  let r := i2c_lld_set_clock hc d
  match r.out with
  | .halted f => ⟨{ y with drv := r.drv }, .halted (.set_clock f)⟩
  | .returned =>
    let d := i2c_lld_set_opmode y.op_mode r.drv
    let d := wr .CR1 (d.id_i2c.CR1 ||| 1) d
    ⟨{ y with drv := d }, .returned⟩

/-- The function `i2c_lld_start`. -/
def i2c_lld_start (hc : HalConf) (prio : Nat) (y : I2CSystem) : StartRun :=
  let y := { y with dmamode := STM32_DMA_CR_DMEIE ||| STM32_DMA_CR_TEIE }
  let r := start_acquire prio y
  match r.2 with
  | some f => ⟨r.1, .halted f⟩
  | none => start_configure hc r.1

/-- The stopped driver `I2CD2` after `i2c_lld_init`, configured for 100 kHz,
with the given owners of its two DMA streams. -/
def stoppedSys (rx tx : StreamOwner) : I2CSystem :=
  { drv := mkDriver ⟨100000, .STD_DUTY_CYCLE⟩ resetRegs, op_mode := .OPMODE_I2C, dmamode := 0,
    rx_owner := rx, tx_owner := tx, rx_par := .unset, tx_par := .unset,
    clock_on := false, ev_vector := false, er_vector := false, syslog := [] }

/-- The state `i2cStart` leaves behind: `i2c_lld_start` has run on the stopped
driver and the state is `I2C_READY`. -/
def startedSys : I2CSystem :=
  let y := (i2c_lld_start hc36 2 (stoppedSys .free .free)).sys
  { y with drv := { y.drv with id_state := .I2C_READY } }

/-- The register writes in a log of the driver, in order. -/
def regWrites (log : List Event) : List (Reg × Nat) :=
  log.filterMap (fun e => match e with
    | .write r v _ => some (r, v)
    | _ => none)

/-! ## `i2c_lld_stop` of the STM32 I2C driver -/

/-- Modelled from the spec: `NVICDisableVector` belongs to the port layer,
which is not part of the sources at hand.  It disables the vector. -/
def NVICDisableVector (v : IRQn) (y : I2CSystem) : I2CSystem :=
  match v with
  | .I2C2_EV_IRQn => { y with ev_vector := false, syslog := y.syslog ++ [.nvicDisable v] }
  | .I2C2_ER_IRQn => { y with er_vector := false, syslog := y.syslog ++ [.nvicDisable v] }

/-- Modelled from the spec: `rccDisableI2C2` belongs to the RCC helper header,
which is not part of the sources at hand.  It closes the clock gate of I2C2. -/
def rccDisableI2C2 (y : I2CSystem) : I2CSystem :=
  { y with clock_on := false, syslog := y.syslog ++ [.rccDisableI2C2] }

/-- The function `i2c_lld_stop`, for the driver object `I2CD2`. -/
def i2c_lld_stop (y : I2CSystem) : I2CSystem :=
  let y :=
    if y.drv.id_state = .I2C_READY then
      let y := NVICDisableVector .I2C2_EV_IRQn y
      let y := NVICDisableVector .I2C2_ER_IRQn y
      rccDisableI2C2 y
    else y
  { y with drv := { y.drv with id_state := .I2C_STOP } }

/-- The calls of the DMA helper driver in a log, in order. -/
def dmaCalls (log : List SysEvent) : List SysEvent :=
  log.filter (fun e => match e with
    | .dmaAllocate _ _ => true
    | .dmaSetPeripheral _ => true
    | _ => false)

/-- A driver configured for 1 MHz, a speed the argument check of
`i2c_lld_set_clock` accepts, with `CCR` = 180 and `TRISE` = 37 left by an
earlier setup. -/
def highSpeedDriver : I2CDriver :=
  { id_state := .I2C_READY, id_config := ⟨1000000, .FAST_DUTY_CYCLE_2⟩,
    id_i2c := { CR1 := 1, CR2 := 36, CCR := 180, TRISE := 37, SR1 := 0 },
    errors := 0, log := [] }

/-! ## Kinetis K20x serial driver (`os/hal/ports/KINETIS/K20x/serial_lld.c`)

The registers of the UART are 8 bits wide; every store is reduced modulo
`2^8`.  The local `divisor` is a `uint32_t`. -/

/-- The cast `(uint8_t)v`, also the effect of storing into an 8 bit register. -/
def u8 (v : Nat) : Nat := v % 256

/-- Receiver enable bit of `UARTx_C2`. -/
def UARTx_C2_RE : Nat := 0x04
/-- Transmitter enable bit of `UARTx_C2`. -/
def UARTx_C2_TE : Nat := 0x08
/-- Receiver interrupt enable bit of `UARTx_C2`. -/
def UARTx_C2_RIE : Nat := 0x20
/-- Overrun error interrupt enable bit of `UARTx_C3`. -/
def UARTx_C3_ORIE : Nat := 0x08
/-- Noise error interrupt enable bit of `UARTx_C3`. -/
def UARTx_C3_NEIE : Nat := 0x04
/-- Framing error interrupt enable bit of `UARTx_C3`. -/
def UARTx_C3_FEIE : Nat := 0x02
/-- Parity error interrupt enable bit of `UARTx_C3`. -/
def UARTx_C3_PEIE : Nat := 0x01
/-- Mask of the field `SBR[12:8]` of `UARTx_BDH`. -/
def UARTx_BDH_SBR_MASK : Nat := 0x1F
/-- Mask of the field `BRFA[4:0]` of `UARTx_C4`. -/
def UARTx_C4_BRFA_MASK : Nat := 0x1F

/-- Modelled from the spec: the macro `UARTx_BDH_SBR` belongs to the register
header of the K20x, which is not part of the sources at hand.  It places the
low five bits of its argument in the field `SBR[12:8]`, which starts at bit 0. -/
def UARTx_BDH_SBR (x : Nat) : Nat := u8 x &&& UARTx_BDH_SBR_MASK

/-- Modelled from the spec: the macro `UARTx_C4_BRFA` belongs to the register
header of the K20x, which is not part of the sources at hand.  It places the
low five bits of its argument in the field `BRFA[4:0]`, which starts at bit 0. -/
def UARTx_C4_BRFA (x : Nat) : Nat := u8 x &&& UARTx_C4_BRFA_MASK

/-- The registers of `UART_TypeDef` written by `configure_uart`. -/
structure UART_TypeDef where
  BDH : Nat
  BDL : Nat
  C1 : Nat
  C2 : Nat
  C3 : Nat
  C4 : Nat
  deriving DecidableEq, Repr

/-- The function `configure_uart`, for the value `sysclk` of
`KINETIS_SYSCLK_FREQUENCY` and the field `sc_speed` of the configuration.  The
quotient is computed in 32 bit unsigned arithmetic; a zero `sc_speed` divides
by zero and gives no result. -/
def configure_uart (sysclk sc_speed : Nat) (uart : UART_TypeDef) : Option UART_TypeDef :=
  if sc_speed = 0 then none else
  let divisor := u32 (sysclk * 2 + 1) / sc_speed
  let uart := { uart with C2 := u8 (uart.C2 &&& cnot (UARTx_C2_RE ||| UARTx_C2_TE)) }
  let uart := { uart with C1 := 0 }
  let uart := { uart with
    BDH := u8 (UARTx_BDH_SBR (divisor >>> 13) ||| (uart.BDH &&& cnot UARTx_BDH_SBR_MASK)) }
  let uart := { uart with BDL := u8 (divisor >>> 5) }
  let uart := { uart with
    C4 := u8 (UARTx_C4_BRFA divisor ||| (uart.C4 &&& cnot UARTx_C4_BRFA_MASK)) }
  let uart := { uart with C2 := u8 (uart.C2 ||| (UARTx_C2_RE ||| UARTx_C2_RIE ||| UARTx_C2_TE)) }
  some { uart with
    C3 := UARTx_C3_ORIE ||| UARTx_C3_NEIE ||| UARTx_C3_FEIE ||| UARTx_C3_PEIE }

/-- The 13 bit baud rate divisor the UART works with: `SBR[12:8]` is the field
of `BDH`, `SBR[7:0]` is `BDL`. -/
def SBR_value (uart : UART_TypeDef) : Nat :=
  (uart.BDH &&& UARTx_BDH_SBR_MASK) * 256 + uart.BDL

/-- The 5 bit baud rate fine adjust, the field `BRFA` of `C4`. -/
def BRFA_value (uart : UART_TypeDef) : Nat := uart.C4 &&& UARTx_C4_BRFA_MASK

/-- A UART after reset, with the bits outside the divisor fields of `BDH` and
`C4` set. -/
def uartSample : UART_TypeDef :=
  { BDH := 0xC0, BDL := 0x04, C1 := 0x55, C2 := 0x0C, C3 := 0, C4 := 0xE0 }


/-! ## Machine integer lemmas -/

theorem u16_of_lt {v : Nat} (h : v < 65536) : u16 v = v := Nat.mod_eq_of_lt h

theorem u16_lt (v : Nat) : u16 v < 65536 := Nat.mod_lt _ (by decide)

theorem u16_idem (v : Nat) : u16 (u16 v) = u16 v := u16_of_lt (u16_lt v)

theorem and_ccr_of_le {v : Nat} (h : v ≤ I2C_CCR_CCR) : v &&& I2C_CCR_CCR = v := by
  have e : I2C_CCR_CCR = 2 ^ 12 - 1 := by decide
  rw [e] at h
  rw [e, Nat.and_pow_two_sub_one_eq_mod]
  exact Nat.mod_eq_of_lt (by omega)

theorem and_mask_zero_of_le {v m : Nat} (h : v ≤ I2C_CCR_CCR) (hm : I2C_CCR_CCR &&& m = 0) :
    v &&& m = 0 := by
  rw [← and_ccr_of_le h, Nat.and_assoc, hm, Nat.and_zero]

theorem or_and_right (a b m : Nat) : (a ||| b) &&& m = (a &&& m) ||| (b &&& m) := by
  rw [Nat.and_comm, Nat.and_or_distrib_left, Nat.and_comm m a, Nat.and_comm m b]

/-- The value of `regCCR` built in standard mode. -/
theorem regCCR_std {cd : Nat} (h : cd ≤ I2C_CCR_CCR) :
    u16 (u16 (0 ||| (cd &&& I2C_CCR_CCR))) = cd := by
  have h4 : cd < 65536 := by unfold I2C_CCR_CCR at h; omega
  rw [u16_idem, Nat.zero_or, and_ccr_of_le h, u16_of_lt h4]

/-- The value of `regCCR` built in fast mode with duty 2:1. -/
theorem regCCR_fast2 {cd : Nat} (h : cd ≤ I2C_CCR_CCR) :
    u16 (u16 (0 ||| (I2C_CCR_FS ||| (cd &&& I2C_CCR_CCR)))) = I2C_CCR_FS ||| cd := by
  have h4 : cd < 2 ^ 16 := by unfold I2C_CCR_CCR at h; omega
  have h5 : I2C_CCR_FS ||| cd < 2 ^ 16 := Nat.or_lt_two_pow (by decide) h4
  rw [u16_idem, Nat.zero_or, and_ccr_of_le h, u16_of_lt h5]

/-- The value of `regCCR` built in fast mode with duty 16:9. -/
theorem regCCR_fast169 {cd : Nat} (h : cd ≤ I2C_CCR_CCR) :
    u16 (u16 (u16 (0 ||| I2C_CCR_DUTY) ||| (I2C_CCR_FS ||| (cd &&& I2C_CCR_CCR))))
      = I2C_CCR_DUTY ||| (I2C_CCR_FS ||| cd) := by
  have h4 : cd < 2 ^ 16 := by unfold I2C_CCR_CCR at h; omega
  have h5 : I2C_CCR_FS ||| cd < 2 ^ 16 := Nat.or_lt_two_pow (by decide) h4
  have h6 : I2C_CCR_DUTY ||| (I2C_CCR_FS ||| cd) < 2 ^ 16 := Nat.or_lt_two_pow (by decide) h5
  have h7 : u16 (0 ||| I2C_CCR_DUTY) = I2C_CCR_DUTY := by decide
  rw [u16_idem, h7, and_ccr_of_le h, u16_of_lt h6]

theorem fs_or_field {cd : Nat} (h : cd ≤ I2C_CCR_CCR) :
    (I2C_CCR_FS ||| cd) &&& I2C_CCR_CCR = cd := by
  rw [or_and_right, and_ccr_of_le h, (by decide : I2C_CCR_FS &&& I2C_CCR_CCR = 0), Nat.zero_or]

theorem fs_or_fs {cd : Nat} (h : cd ≤ I2C_CCR_CCR) :
    (I2C_CCR_FS ||| cd) &&& I2C_CCR_FS = I2C_CCR_FS := by
  rw [or_and_right, and_mask_zero_of_le h (by decide), Nat.and_self, Nat.or_zero]

theorem fs_or_duty {cd : Nat} (h : cd ≤ I2C_CCR_CCR) :
    (I2C_CCR_FS ||| cd) &&& I2C_CCR_DUTY = 0 := by
  rw [or_and_right, and_mask_zero_of_le h (by decide),
    (by decide : I2C_CCR_FS &&& I2C_CCR_DUTY = 0), Nat.or_zero]

theorem duty_or_field {cd : Nat} (h : cd ≤ I2C_CCR_CCR) :
    (I2C_CCR_DUTY ||| (I2C_CCR_FS ||| cd)) &&& I2C_CCR_CCR = cd := by
  rw [or_and_right, fs_or_field h, (by decide : I2C_CCR_DUTY &&& I2C_CCR_CCR = 0), Nat.zero_or]

theorem duty_or_fs {cd : Nat} (h : cd ≤ I2C_CCR_CCR) :
    (I2C_CCR_DUTY ||| (I2C_CCR_FS ||| cd)) &&& I2C_CCR_FS = I2C_CCR_FS := by
  rw [or_and_right, fs_or_fs h, (by decide : I2C_CCR_DUTY &&& I2C_CCR_FS = 0), Nat.zero_or]

theorem duty_or_duty {cd : Nat} (h : cd ≤ I2C_CCR_CCR) :
    (I2C_CCR_DUTY ||| (I2C_CCR_FS ||| cd)) &&& I2C_CCR_DUTY = I2C_CCR_DUTY := by
  rw [or_and_right, fs_or_duty h, Nat.and_self, Nat.or_zero]

/-- Clearing PE and or-ing the saved PE bit back gives the original `CR1`. -/
theorem cr1_restore {cr1 : Nat} (h : cr1 < 65536) :
    u16 (u16 (cr1 &&& u16 (cnot I2C_CR1_PE)) ||| u16 (cr1 &&& I2C_CR1_PE)) = cr1 := by
  have e1 : u16 (cnot I2C_CR1_PE) = 0xFFFE := by decide
  have e2 : I2C_CR1_PE = 1 := rfl
  have a1 : cr1 &&& 0xFFFE < 65536 := lt_of_le_of_lt Nat.and_le_left h
  have a2 : cr1 &&& 1 < 65536 := lt_of_le_of_lt Nat.and_le_left h
  rw [e1, e2, u16_of_lt a1, u16_of_lt a2, ← Nat.and_or_distrib_left,
    (by decide : (0xFFFE ||| 1 : Nat) = 2 ^ 16 - 1), Nat.and_pow_two_sub_one_eq_mod,
    Nat.mod_eq_of_lt (show cr1 < 2 ^ 16 from h)]
  exact u16_of_lt h

/-- After `CR1 &= (uint16_t)~I2C_CR1_PE` the PE bit is clear. -/
theorem cr1_pe_cleared (cr1 : Nat) : u16 (cr1 &&& u16 (cnot I2C_CR1_PE)) &&& I2C_CR1_PE = 0 := by
  have e1 : u16 (cnot I2C_CR1_PE) = 0xFFFE := by decide
  have a1 : cr1 &&& 0xFFFE < 65536 := lt_of_le_of_lt Nat.and_le_right (by decide)
  rw [e1, u16_of_lt a1, Nat.and_assoc, (by decide : 0xFFFE &&& I2C_CR1_PE = 0), Nat.and_zero]


/-! ## Paths of `i2c_lld_set_clock` -/

/-- The divider the standard mode branch computes from the truncated quotient. -/
theorem std_div_eq (q : Nat) : (if u16 q < 4 then 4 else u16 q) = max 4 (u16 q) := by
  split_ifs <;> omega

/-- The divider the fast mode branch computes from the truncated quotient. -/
theorem fast_div_eq (q : Nat) : (if u16 q < 1 then 1 else u16 q) = max 1 (u16 q) := by
  split_ifs <;> omega

/-- A returned call in the standard band: the duty was standard, the divider
fits the field, `CCR` holds the divider and `TRISE` holds `freq + 1`. -/
theorem set_clock_returned_std (hc : HalConf) (d : I2CDriver)
    (h1 : d.id_config.clock_speed ≤ 100000)
    (hret : (i2c_lld_set_clock hc d).out = .returned) :
    d.id_config.duty_cycle = .STD_DUTY_CYCLE ∧
    max 4 (u16 (hc.STM32_PCLK1 / (d.id_config.clock_speed.toNat * 2))) ≤ I2C_CCR_CCR ∧
    (i2c_lld_set_clock hc d).drv.id_i2c.CCR
      = max 4 (u16 (hc.STM32_PCLK1 / (d.id_config.clock_speed.toNat * 2))) ∧
    (i2c_lld_set_clock hc d).drv.id_i2c.TRISE = u16 (u16 (hc.STM32_PCLK1 / 1000000) + 1) := by
  rw [i2c_lld_set_clock] at hret ⊢
  simp only [set_clock_finish, std_div_eq] at hret ⊢
  split_ifs at hret ⊢ with a b c e
  · simp only [wr, I2C_TypeDef.store]
    exact ⟨c, e, regCCR_std e, trivial⟩

/-- A returned call in the fast band: the duty was one of the two fast
policies, the divider fits the field, `CCR` holds F/S, the divider and, for
16:9, DUTY, and `TRISE` holds `freq * 300 / 1000 + 1`. -/
theorem set_clock_returned_fast (hc : HalConf) (d : I2CDriver)
    (h1 : 100000 < d.id_config.clock_speed) (h2 : d.id_config.clock_speed ≤ 400000)
    (hret : (i2c_lld_set_clock hc d).out = .returned) :
    ((d.id_config.duty_cycle = .FAST_DUTY_CYCLE_2 ∧
        max 1 (u16 (hc.STM32_PCLK1 / (d.id_config.clock_speed.toNat * 3))) ≤ I2C_CCR_CCR ∧
        (i2c_lld_set_clock hc d).drv.id_i2c.CCR = I2C_CCR_FS |||
          max 1 (u16 (hc.STM32_PCLK1 / (d.id_config.clock_speed.toNat * 3)))) ∨
      (d.id_config.duty_cycle = .FAST_DUTY_CYCLE_16_9 ∧
        max 1 (u16 (hc.STM32_PCLK1 / (d.id_config.clock_speed.toNat * 25))) ≤ I2C_CCR_CCR ∧
        (i2c_lld_set_clock hc d).drv.id_i2c.CCR = I2C_CCR_DUTY ||| (I2C_CCR_FS |||
          max 1 (u16 (hc.STM32_PCLK1 / (d.id_config.clock_speed.toNat * 25)))))) ∧
    (i2c_lld_set_clock hc d).drv.id_i2c.TRISE
      = u16 (u16 (hc.STM32_PCLK1 / 1000000) * 300 / 1000 + 1) := by
  have h3 : ¬ d.id_config.clock_speed ≤ 100000 := not_le.mpr h1
  rw [i2c_lld_set_clock] at hret ⊢
  simp only [set_clock_finish, h3, h2, if_true, if_false] at hret ⊢
  cases hduty : d.id_config.duty_cycle <;>
    simp only [hduty, reduceCtorEq, or_self, or_true, true_or, or_false, false_or,
      not_true_eq_false, not_false_eq_true, if_true, if_false, fast_div_eq] at hret ⊢
  · split_ifs at hret
  · split_ifs at hret ⊢ with a b c
    simp only [wr, I2C_TypeDef.store]
    exact ⟨Or.inl ⟨trivial, c, regCCR_fast2 c⟩, trivial⟩
  · split_ifs at hret ⊢ with a b c
    simp only [wr, I2C_TypeDef.store]
    exact ⟨Or.inr ⟨trivial, c, regCCR_fast169 c⟩, trivial⟩

/-- A returned call above the fast band: `CCR` holds 0 and `TRISE` is not
written. -/
theorem set_clock_returned_high (hc : HalConf) (d : I2CDriver)
    (h1 : 400000 < d.id_config.clock_speed)
    (hret : (i2c_lld_set_clock hc d).out = .returned) :
    (i2c_lld_set_clock hc d).drv.id_i2c.CCR = 0 ∧
    (i2c_lld_set_clock hc d).drv.id_i2c.TRISE = d.id_i2c.TRISE := by
  have h3 : ¬ d.id_config.clock_speed ≤ 100000 := by omega
  have h4 : ¬ d.id_config.clock_speed ≤ 400000 := by omega
  rw [i2c_lld_set_clock] at hret ⊢
  simp only [set_clock_finish, h3, h4, if_true, if_false] at hret ⊢
  split_ifs at hret ⊢ with a b c
  simp only [wr, I2C_TypeDef.store]
  exact ⟨by decide, trivial⟩

/-- A call in the standard band returns when the arguments and the clock pass
their checks, the duty is standard and the divider fits the field. -/
theorem set_clock_std_returns (hc : HalConf) (d : I2CDriver)
    (h0 : 0 < d.id_config.clock_speed) (h1 : d.id_config.clock_speed ≤ 100000)
    (hf : 2 ≤ u16 (hc.STM32_PCLK1 / 1000000) ∧ u16 (hc.STM32_PCLK1 / 1000000) ≤ maxFreq hc)
    (hd : d.id_config.duty_cycle = .STD_DUTY_CYCLE)
    (h3 : max 4 (u16 (hc.STM32_PCLK1 / (d.id_config.clock_speed.toNat * 2))) ≤ I2C_CCR_CCR) :
    (i2c_lld_set_clock hc d).out = .returned := by
  have ha : d.id_config.clock_speed > 0 ∧ d.id_config.clock_speed ≤ 4000000 :=
    ⟨h0, by omega⟩
  have hf2 : u16 (hc.STM32_PCLK1 / 1000000) ≥ 2 ∧ u16 (hc.STM32_PCLK1 / 1000000) ≤ maxFreq hc :=
    hf
  rw [i2c_lld_set_clock]
  simp only [set_clock_finish, std_div_eq, ha, hf2, hd, h1, h3, not_true_eq_false, if_true,
    if_false, and_self]

/-- The paths through `i2c_lld_set_clock`. -/
theorem set_clock_cases (hc : HalConf) (d : I2CDriver) :
    ((i2c_lld_set_clock hc d).out = .halted .check_args ∧ (i2c_lld_set_clock hc d).drv = d) ∨
    ((i2c_lld_set_clock hc d).out = .halted .check_freq ∧ (i2c_lld_set_clock hc d).drv = d) ∨
    ((i2c_lld_set_clock hc d).out = .halted .assert1 ∧
      (i2c_lld_set_clock hc d).drv = set_clock_prologue hc d) ∨
    ((i2c_lld_set_clock hc d).out = .halted .assert2 ∧
      (i2c_lld_set_clock hc d).drv = set_clock_prologue hc d) ∨
    (∃ t, (i2c_lld_set_clock hc d).out = .halted .assert3 ∧
      (i2c_lld_set_clock hc d).drv = wr .TRISE t (set_clock_prologue hc d)) ∨
    (∃ t c, (i2c_lld_set_clock hc d).out = .returned ∧
      (i2c_lld_set_clock hc d).drv
        = set_clock_epilogue d (wr .TRISE t (set_clock_prologue hc d)) c) ∨
    ((i2c_lld_set_clock hc d).out = .returned ∧
      (i2c_lld_set_clock hc d).drv = set_clock_epilogue d (set_clock_prologue hc d) 0) := by
  by_cases ha : d.id_config.clock_speed > 0 ∧ d.id_config.clock_speed ≤ 4000000
  swap
  · have e : i2c_lld_set_clock hc d = ⟨d, .halted .check_args⟩ := by
      rw [i2c_lld_set_clock]; simp only [ha, not_false_eq_true, if_true]
    rw [e]; exact Or.inl ⟨rfl, rfl⟩
  by_cases hf : u16 (hc.STM32_PCLK1 / 1000000) ≥ 2 ∧ u16 (hc.STM32_PCLK1 / 1000000) ≤ maxFreq hc
  swap
  · have e : i2c_lld_set_clock hc d = ⟨d, .halted .check_freq⟩ := by
      rw [i2c_lld_set_clock]
      simp only [ha, hf, and_self, not_true_eq_false, not_false_eq_true, if_true, if_false]
    rw [e]; exact Or.inr (Or.inl ⟨rfl, rfl⟩)
  by_cases h1 : d.id_config.clock_speed ≤ 100000
  · by_cases hd : d.id_config.duty_cycle = .STD_DUTY_CYCLE
    swap
    · have e : i2c_lld_set_clock hc d = ⟨set_clock_prologue hc d, .halted .assert1⟩ := by
        rw [i2c_lld_set_clock]
        simp only [ha, hf, h1, hd, and_self, not_true_eq_false, not_false_eq_true, if_true, if_false,
          set_clock_prologue]
      rw [e]; exact Or.inr (Or.inr (Or.inl ⟨rfl, rfl⟩))
    by_cases h3 : max 4 (u16 (hc.STM32_PCLK1 / (d.id_config.clock_speed.toNat * 2)))
        ≤ I2C_CCR_CCR
    · have e : i2c_lld_set_clock hc d =
          ⟨set_clock_epilogue d (wr .TRISE (u16 (hc.STM32_PCLK1 / 1000000) + 1)
            (set_clock_prologue hc d))
            (u16 (0 ||| (max 4 (u16 (hc.STM32_PCLK1 / (d.id_config.clock_speed.toNat * 2)))
              &&& I2C_CCR_CCR))), .returned⟩ := by
        rw [i2c_lld_set_clock]
        simp only [ha, hf, h1, hd, h3, and_self, not_true_eq_false, not_false_eq_true, if_true, if_false,
          set_clock_prologue, set_clock_epilogue, set_clock_finish, std_div_eq]
        rfl
      rw [e]; exact Or.inr (Or.inr (Or.inr (Or.inr (Or.inr (Or.inl ⟨_, _, rfl, rfl⟩)))))
    · have e : i2c_lld_set_clock hc d =
          ⟨wr .TRISE (u16 (hc.STM32_PCLK1 / 1000000) + 1) (set_clock_prologue hc d),
            .halted .assert3⟩ := by
        rw [i2c_lld_set_clock]
        simp only [ha, hf, h1, hd, h3, and_self, not_true_eq_false, not_false_eq_true, if_true, if_false,
          set_clock_prologue, set_clock_finish, std_div_eq]
      rw [e]; exact Or.inr (Or.inr (Or.inr (Or.inr (Or.inl ⟨_, rfl, rfl⟩))))
  by_cases h2 : d.id_config.clock_speed ≤ 400000
  · cases hduty : d.id_config.duty_cycle
    · have e : i2c_lld_set_clock hc d = ⟨set_clock_prologue hc d, .halted .assert2⟩ := by
        rw [i2c_lld_set_clock]
        simp only [ha, hf, h1, h2, hduty, reduceCtorEq, or_self, and_self, not_true_eq_false,
          not_false_eq_true, if_true, if_false, set_clock_prologue]
      rw [e]; exact Or.inr (Or.inr (Or.inr (Or.inl ⟨rfl, rfl⟩)))
    · by_cases h3 : max 1 (u16 (hc.STM32_PCLK1 / (d.id_config.clock_speed.toNat * 3)))
          ≤ I2C_CCR_CCR
      · have e : i2c_lld_set_clock hc d =
            ⟨set_clock_epilogue d (wr .TRISE (u16 (hc.STM32_PCLK1 / 1000000) * 300 / 1000 + 1)
              (set_clock_prologue hc d))
              (u16 (0 ||| (I2C_CCR_FS |||
                (max 1 (u16 (hc.STM32_PCLK1 / (d.id_config.clock_speed.toNat * 3)))
                  &&& I2C_CCR_CCR)))), .returned⟩ := by
          rw [i2c_lld_set_clock]
          simp only [ha, hf, h1, h2, hduty, h3, reduceCtorEq, or_false, true_or,
            and_self, not_true_eq_false, not_false_eq_true, if_true, if_false,
            set_clock_prologue, set_clock_epilogue, set_clock_finish, fast_div_eq]
          rfl
        rw [e]; exact Or.inr (Or.inr (Or.inr (Or.inr (Or.inr (Or.inl ⟨_, _, rfl, rfl⟩)))))
      · have e : i2c_lld_set_clock hc d =
            ⟨wr .TRISE (u16 (hc.STM32_PCLK1 / 1000000) * 300 / 1000 + 1)
              (set_clock_prologue hc d), .halted .assert3⟩ := by
          rw [i2c_lld_set_clock]
          simp only [ha, hf, h1, h2, hduty, h3, reduceCtorEq, or_false, true_or,
            and_self, not_true_eq_false, not_false_eq_true, if_true, if_false,
            set_clock_prologue, set_clock_finish, fast_div_eq]
        rw [e]; exact Or.inr (Or.inr (Or.inr (Or.inr (Or.inl ⟨_, rfl, rfl⟩))))
    · by_cases h3 : max 1 (u16 (hc.STM32_PCLK1 / (d.id_config.clock_speed.toNat * 25)))
          ≤ I2C_CCR_CCR
      · have e : i2c_lld_set_clock hc d =
            ⟨set_clock_epilogue d (wr .TRISE (u16 (hc.STM32_PCLK1 / 1000000) * 300 / 1000 + 1)
              (set_clock_prologue hc d))
              (u16 (u16 (0 ||| I2C_CCR_DUTY) ||| (I2C_CCR_FS |||
                (max 1 (u16 (hc.STM32_PCLK1 / (d.id_config.clock_speed.toNat * 25)))
                  &&& I2C_CCR_CCR)))), .returned⟩ := by
          rw [i2c_lld_set_clock]
          simp only [ha, hf, h1, h2, hduty, h3, reduceCtorEq, or_true, false_or,
            and_self, not_true_eq_false, not_false_eq_true, if_true, if_false,
            set_clock_prologue, set_clock_epilogue, set_clock_finish, fast_div_eq]
          rfl
        rw [e]; exact Or.inr (Or.inr (Or.inr (Or.inr (Or.inr (Or.inl ⟨_, _, rfl, rfl⟩)))))
      · have e : i2c_lld_set_clock hc d =
            ⟨wr .TRISE (u16 (hc.STM32_PCLK1 / 1000000) * 300 / 1000 + 1)
              (set_clock_prologue hc d), .halted .assert3⟩ := by
          rw [i2c_lld_set_clock]
          simp only [ha, hf, h1, h2, hduty, h3, reduceCtorEq, or_true, false_or,
            and_self, not_true_eq_false, not_false_eq_true, if_true, if_false,
            set_clock_prologue, set_clock_finish, fast_div_eq]
        rw [e]; exact Or.inr (Or.inr (Or.inr (Or.inr (Or.inl ⟨_, rfl, rfl⟩))))
  · have h3 : I2C_CCR_CCR ≤ I2C_CCR_CCR := le_refl _
    have e : i2c_lld_set_clock hc d =
        ⟨set_clock_epilogue d (set_clock_prologue hc d) 0, .returned⟩ := by
      rw [i2c_lld_set_clock]
      simp only [ha, hf, h1, h2, h3, and_self, not_true_eq_false, not_false_eq_true, if_true, if_false,
        set_clock_prologue, set_clock_epilogue, set_clock_finish]
      rfl
    rw [e]; exact Or.inr (Or.inr (Or.inr (Or.inr (Or.inr (Or.inr ⟨rfl, rfl⟩)))))


/-! ## Claims on `i2c_lld_set_clock` -/

/-- C1: with `clock_speed` = 100000, standard duty and `STM32_PCLK1` = 36 MHz the
call returns without a failed check; `CCR` holds 180, its divider field is 180
(the plain quotient 36000000 / (2 * 100000), not the floor 4) with F/S and DUTY
clear, and `TRISE` holds 37. -/
theorem c1_scenario_A (d : I2CDriver) (f4 cb : Bool) :
    (i2c_lld_set_clock ⟨36000000, f4, cb⟩
        { d with id_config := ⟨100000, .STD_DUTY_CYCLE⟩ }).out = .returned ∧
    (i2c_lld_set_clock ⟨36000000, f4, cb⟩
        { d with id_config := ⟨100000, .STD_DUTY_CYCLE⟩ }).drv.id_i2c.CCR = 180 ∧
    (i2c_lld_set_clock ⟨36000000, f4, cb⟩
        { d with id_config := ⟨100000, .STD_DUTY_CYCLE⟩ }).drv.id_i2c.CCR &&& I2C_CCR_CCR
      = 36000000 / (2 * 100000) ∧
    (i2c_lld_set_clock ⟨36000000, f4, cb⟩
        { d with id_config := ⟨100000, .STD_DUTY_CYCLE⟩ }).drv.id_i2c.CCR &&& I2C_CCR_FS = 0 ∧
    (i2c_lld_set_clock ⟨36000000, f4, cb⟩
        { d with id_config := ⟨100000, .STD_DUTY_CYCLE⟩ }).drv.id_i2c.CCR &&& I2C_CCR_DUTY = 0 ∧
    (i2c_lld_set_clock ⟨36000000, f4, cb⟩
        { d with id_config := ⟨100000, .STD_DUTY_CYCLE⟩ }).drv.id_i2c.TRISE = 37 := by
  have hf : u16 (36000000 / 1000000) = 36 := by decide
  have hq : max 4 (u16 (36000000 / (Int.toNat 100000 * 2))) = 180 := by decide
  have hm : 36 ≤ maxFreq ⟨36000000, f4, cb⟩ := by cases f4 <;> simp [maxFreq]
  have h1 : ({ d with id_config := ⟨100000, .STD_DUTY_CYCLE⟩ } : I2CDriver).id_config.clock_speed
      ≤ 100000 := le_refl _
  have hret := set_clock_std_returns ⟨36000000, f4, cb⟩
    { d with id_config := ⟨100000, .STD_DUTY_CYCLE⟩ } (by show (0 : Int) < 100000; decide) h1
    (by show 2 ≤ u16 (36000000 / 1000000) ∧ u16 (36000000 / 1000000) ≤ _
        rw [hf]; exact ⟨by decide, hm⟩)
    rfl (by show max 4 (u16 (36000000 / (Int.toNat 100000 * 2))) ≤ _; rw [hq]; decide)
  obtain ⟨-, -, hccr, htrise⟩ := set_clock_returned_std _ _ h1 hret
  have h180 : (i2c_lld_set_clock ⟨36000000, f4, cb⟩
      { d with id_config := ⟨100000, .STD_DUTY_CYCLE⟩ }).drv.id_i2c.CCR = 180 := by
    rw [hccr]; exact hq
  refine ⟨hret, h180, ?_, ?_, ?_, ?_⟩
  · rw [h180]; decide
  · rw [h180]; decide
  · rw [h180]; decide
  · rw [htrise]; show u16 (u16 (36000000 / 1000000) + 1) = 37; decide

/-- C2, as stated, fails: at `STM32_PCLK1` = 36 MHz, `clock_speed` = 99000 and
standard duty the call returns with divider 181, the truncated quotient, while
the quotient 181.8 rounded to the nearest integer is 182. -/
theorem c2_counterexample :
    (i2c_lld_set_clock hc36 (mkDriver ⟨99000, .STD_DUTY_CYCLE⟩ resetRegs)).out = .returned ∧
    (i2c_lld_set_clock hc36 (mkDriver ⟨99000, .STD_DUTY_CYCLE⟩ resetRegs)).drv.id_i2c.CCR
      &&& I2C_CCR_CCR = 181 ∧
    spec_std_divider hc36.STM32_PCLK1 99000 = 182 := by
  refine ⟨by decide, by decide, ?_⟩
  have hr : round ((36000000 : ℚ) / (2 * 99000)) = 182 := by
    rw [round_eq, Int.floor_eq_iff]; norm_num
  show max 4 (round (((36000000 : Nat) : ℚ) / (2 * ((99000 : Nat) : ℚ)))) = 182
  push_cast
  rw [hr]; rfl

/-- C2, amended: a returned call in the standard band (`clock_speed` at most
100000) whose quotient `STM32_PCLK1 / (2 * clock_speed)` fits 16 bits leaves in
the divider field of `CCR` the truncated quotient, with floor 4. -/
theorem c2_std_divider_truncates (hc : HalConf) (d : I2CDriver)
    (h1 : d.id_config.clock_speed ≤ 100000)
    (hq : hc.STM32_PCLK1 / (2 * d.id_config.clock_speed.toNat) < 65536)
    (hret : (i2c_lld_set_clock hc d).out = .returned) :
    (i2c_lld_set_clock hc d).drv.id_i2c.CCR &&& I2C_CCR_CCR
      = max 4 (hc.STM32_PCLK1 / (2 * d.id_config.clock_speed.toNat)) := by
  obtain ⟨-, hle, hccr, -⟩ := set_clock_returned_std hc d h1 hret
  rw [Nat.mul_comm] at hq ⊢
  rw [u16_of_lt hq] at hle hccr
  rw [hccr, and_ccr_of_le hle]

/-- Witness of C2, amended: `STM32_PCLK1` = 36 MHz, `clock_speed` = 99000. -/
theorem c2_std_divider_truncates_witness :
    (i2c_lld_set_clock hc36 (mkDriver ⟨99000, .STD_DUTY_CYCLE⟩ resetRegs)).drv.id_i2c.CCR
      &&& I2C_CCR_CCR = max 4 (36000000 / (2 * 99000)) :=
  c2_std_divider_truncates hc36 (mkDriver ⟨99000, .STD_DUTY_CYCLE⟩ resetRegs)
    (by decide) (by decide) (by decide)


/-- C3, as stated, fails: at `STM32_PCLK1` = 36 MHz, `clock_speed` = 400000 and
duty 16:9 the call returns with divider 3, the truncated quotient, while the
quotient 3.6 rounded to the nearest integer is 4. -/
theorem c3_counterexample :
    (i2c_lld_set_clock hc36 (mkDriver ⟨400000, .FAST_DUTY_CYCLE_16_9⟩ resetRegs)).out
      = .returned ∧
    (i2c_lld_set_clock hc36 (mkDriver ⟨400000, .FAST_DUTY_CYCLE_16_9⟩ resetRegs)).drv.id_i2c.CCR
      &&& I2C_CCR_CCR = 3 ∧
    spec_fast_divider 25 hc36.STM32_PCLK1 400000 = 4 := by
  refine ⟨by decide, by decide, ?_⟩
  have hr : round ((36000000 : ℚ) / (25 * 400000)) = 4 := by
    rw [round_eq, Int.floor_eq_iff]; norm_num
  show max 1 (round (((36000000 : Nat) : ℚ) / (((25 : Nat) : ℚ) * ((400000 : Nat) : ℚ)))) = 4
  push_cast
  rw [hr]; rfl

/-- In the fast band, with the peripheral clock in the accepted range, the
quotient fits 16 bits. -/
theorem fast_quotient_lt (hc : HalConf) (cs k : Nat) (hk : 3 ≤ k)
    (hf : hc.STM32_PCLK1 / 1000000 ≤ maxFreq hc) (h1 : 100000 < cs) :
    hc.STM32_PCLK1 / (cs * k) < 65536 := by
  have hm : maxFreq hc ≤ 42 := by unfold maxFreq; split_ifs <;> omega
  have hp : hc.STM32_PCLK1 < 43000000 := by omega
  have h3 : 300003 ≤ cs * k := by
    calc 300003 ≤ 100001 * 3 := by decide
      _ ≤ cs * k := Nat.mul_le_mul h1 hk
  apply Nat.div_lt_of_lt_mul
  calc hc.STM32_PCLK1 < 300003 * 65536 := by omega
    _ ≤ cs * k * 65536 := Nat.mul_le_mul_right _ h3

/-- C3, amended: with the peripheral clock in the accepted range, a returned call
in the fast band (`clock_speed` above 100000 and at most 400000) leaves in the
divider field of `CCR` the truncated quotient `STM32_PCLK1 / (3 * clock_speed)`
for duty 2:1 and `STM32_PCLK1 / (25 * clock_speed)` for duty 16:9, with floor 1. -/
theorem c3_fast_divider_truncates (hc : HalConf) (d : I2CDriver)
    (hf : 2 ≤ hc.STM32_PCLK1 / 1000000 ∧ hc.STM32_PCLK1 / 1000000 ≤ maxFreq hc)
    (h1 : 100000 < d.id_config.clock_speed) (h2 : d.id_config.clock_speed ≤ 400000)
    (hret : (i2c_lld_set_clock hc d).out = .returned) :
    (d.id_config.duty_cycle = .FAST_DUTY_CYCLE_2 →
      (i2c_lld_set_clock hc d).drv.id_i2c.CCR &&& I2C_CCR_CCR
        = max 1 (hc.STM32_PCLK1 / (3 * d.id_config.clock_speed.toNat))) ∧
    (d.id_config.duty_cycle = .FAST_DUTY_CYCLE_16_9 →
      (i2c_lld_set_clock hc d).drv.id_i2c.CCR &&& I2C_CCR_CCR
        = max 1 (hc.STM32_PCLK1 / (25 * d.id_config.clock_speed.toNat))) := by
  have hcs : 100000 < d.id_config.clock_speed.toNat := by omega
  have q3 := fast_quotient_lt hc _ 3 (by decide) hf.2 hcs
  have q25 := fast_quotient_lt hc _ 25 (by decide) hf.2 hcs
  obtain ⟨hcase, -⟩ := set_clock_returned_fast hc d h1 h2 hret
  rw [Nat.mul_comm 3, Nat.mul_comm 25]
  rw [u16_of_lt q3, u16_of_lt q25] at hcase
  rcases hcase with ⟨hd, hle, hccr⟩ | ⟨hd, hle, hccr⟩
  · refine ⟨fun _ => ?_, fun h => ?_⟩
    · rw [hccr, fs_or_field hle]
    · rw [hd] at h; cases h
  · refine ⟨fun h => ?_, fun _ => ?_⟩
    · rw [hd] at h; cases h
    · rw [hccr, duty_or_field hle]

/-- Witness of C3, amended: `STM32_PCLK1` = 36 MHz, `clock_speed` = 400000,
duty 16:9. -/
theorem c3_fast_divider_truncates_witness :
    (i2c_lld_set_clock hc36 (mkDriver ⟨400000, .FAST_DUTY_CYCLE_16_9⟩ resetRegs)).drv.id_i2c.CCR
      &&& I2C_CCR_CCR = max 1 (36000000 / (25 * 400000)) :=
  (c3_fast_divider_truncates hc36 (mkDriver ⟨400000, .FAST_DUTY_CYCLE_16_9⟩ resetRegs)
    (by decide) (by decide) (by decide) (by decide)).2 rfl


/-- The divider the specification prescribes in scenario B: the quotient
36000000 / (25 * 400000) = 3.6 rounded to the nearest integer. -/
theorem spec_divider_scenario_B : spec_fast_divider 25 hc36.STM32_PCLK1 400000 = 4 := by
  have hr : round ((36000000 : ℚ) / (25 * 400000)) = 4 := by
    rw [round_eq, Int.floor_eq_iff]; norm_num
  show max 1 (round (((36000000 : Nat) : ℚ) / (((25 : Nat) : ℚ) * ((400000 : Nat) : ℚ)))) = 4
  push_cast
  rw [hr]; rfl

/-- C4, as stated, fails in its last clause: at `STM32_PCLK1` = 36 MHz,
`clock_speed` = 400000 and duty 16:9 the call returns with F/S and DUTY set, as
claimed, but the divider field holds 3, the quotient 36000000 / (25 * 400000)
truncated, where the 25x formula of the specification, which rounds to the
nearest integer, gives 4. -/
theorem c4_counterexample :
    (i2c_lld_set_clock hc36 (mkDriver ⟨400000, .FAST_DUTY_CYCLE_16_9⟩ resetRegs)).out
      = .returned ∧
    (i2c_lld_set_clock hc36 (mkDriver ⟨400000, .FAST_DUTY_CYCLE_16_9⟩ resetRegs)).drv.id_i2c.CCR
      &&& I2C_CCR_FS ≠ 0 ∧
    (i2c_lld_set_clock hc36 (mkDriver ⟨400000, .FAST_DUTY_CYCLE_16_9⟩ resetRegs)).drv.id_i2c.CCR
      &&& I2C_CCR_DUTY ≠ 0 ∧
    (i2c_lld_set_clock hc36 (mkDriver ⟨400000, .FAST_DUTY_CYCLE_16_9⟩ resetRegs)).drv.id_i2c.CCR
      &&& I2C_CCR_CCR = 3 ∧
    spec_fast_divider 25 hc36.STM32_PCLK1 400000 = 4 ∧
    (((i2c_lld_set_clock hc36
        (mkDriver ⟨400000, .FAST_DUTY_CYCLE_16_9⟩ resetRegs)).drv.id_i2c.CCR
      &&& I2C_CCR_CCR : Nat) : Int) ≠ spec_fast_divider 25 hc36.STM32_PCLK1 400000 := by
  have h3 : (i2c_lld_set_clock hc36
      (mkDriver ⟨400000, .FAST_DUTY_CYCLE_16_9⟩ resetRegs)).drv.id_i2c.CCR &&& I2C_CCR_CCR = 3 := by
    decide
  refine ⟨by decide, by decide, by decide, h3, spec_divider_scenario_B, ?_⟩
  rw [h3, spec_divider_scenario_B]
  decide

/-- C4, amended: on every returned call the F/S bit of `CCR` is set exactly in the
fast band (`clock_speed` above 100000 and at most 400000) and the DUTY bit
exactly in the fast band with duty 16:9, where the divider field holds the
quotient `STM32_PCLK1 / (25 * clock_speed)` truncated by the integer division
(as a 16 bit value, with floor 1), not rounded to the nearest integer. -/
theorem c4_mode_bits (hc : HalConf) (d : I2CDriver)
    (hret : (i2c_lld_set_clock hc d).out = .returned) :
    ((i2c_lld_set_clock hc d).drv.id_i2c.CCR &&& I2C_CCR_FS ≠ 0 ↔
      (100000 < d.id_config.clock_speed ∧ d.id_config.clock_speed ≤ 400000)) ∧
    ((i2c_lld_set_clock hc d).drv.id_i2c.CCR &&& I2C_CCR_DUTY ≠ 0 ↔
      (100000 < d.id_config.clock_speed ∧ d.id_config.clock_speed ≤ 400000 ∧
        d.id_config.duty_cycle = .FAST_DUTY_CYCLE_16_9)) ∧
    (100000 < d.id_config.clock_speed → d.id_config.clock_speed ≤ 400000 →
      d.id_config.duty_cycle = .FAST_DUTY_CYCLE_16_9 →
      (i2c_lld_set_clock hc d).drv.id_i2c.CCR &&& I2C_CCR_CCR
        = max 1 (u16 (hc.STM32_PCLK1 / (d.id_config.clock_speed.toNat * 25)))) := by
  have hfs : I2C_CCR_FS ≠ 0 := by decide
  have hdu : I2C_CCR_DUTY ≠ 0 := by decide
  by_cases h1 : d.id_config.clock_speed ≤ 100000
  · obtain ⟨-, hle, hccr, -⟩ := set_clock_returned_std hc d h1 hret
    rw [hccr, and_mask_zero_of_le hle (by decide), and_mask_zero_of_le hle (by decide)]
    refine ⟨⟨fun h => absurd rfl h, fun h => ?_⟩, ⟨fun h => absurd rfl h, fun h => ?_⟩,
      fun h => ?_⟩ <;> omega
  · by_cases h2 : d.id_config.clock_speed ≤ 400000
    · have h1b : 100000 < d.id_config.clock_speed := by omega
      obtain ⟨hcase, -⟩ := set_clock_returned_fast hc d h1b h2 hret
      rcases hcase with ⟨hd, hle, hccr⟩ | ⟨hd, hle, hccr⟩
      · rw [hccr, fs_or_fs hle, fs_or_duty hle, hd]
        exact ⟨⟨fun _ => ⟨h1b, h2⟩, fun _ => hfs⟩,
          ⟨fun h => absurd rfl h, fun h => by cases h.2.2⟩, fun _ _ h => by cases h⟩
      · rw [hccr, duty_or_fs hle, duty_or_duty hle, duty_or_field hle]
        exact ⟨⟨fun _ => ⟨h1b, h2⟩, fun _ => hfs⟩,
          ⟨fun _ => ⟨h1b, h2, hd⟩, fun _ => hdu⟩, fun _ _ _ => rfl⟩
    · obtain ⟨hccr, -⟩ := set_clock_returned_high hc d (by omega) hret
      rw [hccr, Nat.zero_and, Nat.zero_and]
      refine ⟨⟨fun h => absurd rfl h, fun h => ?_⟩, ⟨fun h => absurd rfl h, fun h => ?_⟩,
        fun h => ?_⟩ <;> omega

/-- Witness of C4, amended (scenario B): `STM32_PCLK1` = 36 MHz, `clock_speed` =
400000, duty 16:9; the call returns, F/S and DUTY are set and the divider field
holds the truncated quotient 36000000 / (25 * 400000) = 3. -/
theorem c4_mode_bits_witness :
    (i2c_lld_set_clock hc36 (mkDriver ⟨400000, .FAST_DUTY_CYCLE_16_9⟩ resetRegs)).out
      = .returned ∧
    (i2c_lld_set_clock hc36 (mkDriver ⟨400000, .FAST_DUTY_CYCLE_16_9⟩ resetRegs)).drv.id_i2c.CCR
      &&& I2C_CCR_FS ≠ 0 ∧
    (i2c_lld_set_clock hc36 (mkDriver ⟨400000, .FAST_DUTY_CYCLE_16_9⟩ resetRegs)).drv.id_i2c.CCR
      &&& I2C_CCR_DUTY ≠ 0 ∧
    (i2c_lld_set_clock hc36 (mkDriver ⟨400000, .FAST_DUTY_CYCLE_16_9⟩ resetRegs)).drv.id_i2c.CCR
      &&& I2C_CCR_CCR = 36000000 / (25 * 400000) :=
  have h := c4_mode_bits hc36 (mkDriver ⟨400000, .FAST_DUTY_CYCLE_16_9⟩ resetRegs) (by decide)
  ⟨by decide, h.1.mpr (by decide), h.2.1.mpr (by decide),
    (h.2.2 (by decide) (by decide) rfl).trans (by decide)⟩


/-- C6, the code at the failing input: at `STM32_PCLK1` = 36 MHz, `clock_speed` = 274
and standard duty the divider of the formula is 65693, above the 12 bit field,
yet the cast to `uint16_t` leaves 157, assertion #3 passes, the call returns
and `CCR` is written with 157. -/
theorem c6_overflow_undetected :
    hc36.STM32_PCLK1 / (2 * 274) = 65693 ∧ I2C_CCR_CCR < 65693 ∧
    (i2c_lld_set_clock hc36 (mkDriver ⟨274, .STD_DUTY_CYCLE⟩ resetRegs)).out = .returned ∧
    (i2c_lld_set_clock hc36 (mkDriver ⟨274, .STD_DUTY_CYCLE⟩ resetRegs)).drv.id_i2c.CCR = 157 ∧
    Event.write .CCR 157 0 ∈
      (i2c_lld_set_clock hc36 (mkDriver ⟨274, .STD_DUTY_CYCLE⟩ resetRegs)).drv.log := by
  decide

/-- C7, as stated, fails: at `STM32_PCLK1` = 36 MHz with `CR1` = 1 and the other
registers zero, `clock_speed` = 100000 and duty 2:1 fail at assertion #1 with
`CR2` already rewritten to 36 and PE cleared in `CR1`; `clock_speed` = 1000 and
standard duty fail at assertion #3 with `TRISE` already rewritten to 37. -/
theorem c7_counterexample :
    (i2c_lld_set_clock hc36
      (mkDriver ⟨100000, .FAST_DUTY_CYCLE_2⟩ { resetRegs with CR1 := 1 })).out
      = .halted .assert1 ∧
    (i2c_lld_set_clock hc36
      (mkDriver ⟨100000, .FAST_DUTY_CYCLE_2⟩ { resetRegs with CR1 := 1 })).drv.id_i2c.CR2
      = 36 ∧
    (i2c_lld_set_clock hc36
      (mkDriver ⟨100000, .FAST_DUTY_CYCLE_2⟩ { resetRegs with CR1 := 1 })).drv.id_i2c.CR1
      = 0 ∧
    (mkDriver ⟨100000, .FAST_DUTY_CYCLE_2⟩ { resetRegs with CR1 := 1 }).id_i2c.CR2 = 0 ∧
    (mkDriver ⟨100000, .FAST_DUTY_CYCLE_2⟩ { resetRegs with CR1 := 1 }).id_i2c.CR1 = 1 ∧
    (i2c_lld_set_clock hc36 (mkDriver ⟨1000, .STD_DUTY_CYCLE⟩ resetRegs)).out
      = .halted .assert3 ∧
    (i2c_lld_set_clock hc36 (mkDriver ⟨1000, .STD_DUTY_CYCLE⟩ resetRegs)).drv.id_i2c.TRISE
      = 37 ∧
    (mkDriver ⟨1000, .STD_DUTY_CYCLE⟩ resetRegs).id_i2c.TRISE = 0 := by
  decide

/-- C7, amended: whenever `i2c_lld_set_clock` fails, `CCR` holds the value it had
before the call; when the failed check is the argument check or the clock
range check the whole driver, with `CR1`, `CR2`, `CCR` and `TRISE`, is as before
the call; when it is a duty assertion (#1 or #2) `TRISE` is as before too. -/
theorem c7_failure_frame (hc : HalConf) (d : I2CDriver) (f : DbgFail)
    (hfail : (i2c_lld_set_clock hc d).out = .halted f) :
    (i2c_lld_set_clock hc d).drv.id_i2c.CCR = d.id_i2c.CCR ∧
    ((f = .check_args ∨ f = .check_freq) → (i2c_lld_set_clock hc d).drv = d) ∧
    ((f = .assert1 ∨ f = .assert2) →
      (i2c_lld_set_clock hc d).drv.id_i2c.TRISE = d.id_i2c.TRISE) := by
  rcases set_clock_cases hc d with ⟨ho, hd⟩ | ⟨ho, hd⟩ | ⟨ho, hd⟩ | ⟨ho, hd⟩ | ⟨t, ho, hd⟩ |
    ⟨t, c, ho, hd⟩ | ⟨ho, hd⟩ <;> rw [ho] at hfail <;> cases hfail <;> rw [hd]
  · exact ⟨rfl, fun _ => rfl, fun _ => rfl⟩
  · exact ⟨rfl, fun _ => rfl, fun _ => rfl⟩
  · refine ⟨rfl, fun h => ?_, fun _ => rfl⟩
    rcases h with h | h <;> cases h
  · refine ⟨rfl, fun h => ?_, fun _ => rfl⟩
    rcases h with h | h <;> cases h
  · refine ⟨rfl, fun h => ?_, fun h => ?_⟩
    · rcases h with h | h <;> cases h
    · rcases h with h | h <;> cases h

/-- Witness of C7, amended: the failing call with `clock_speed` = 100000 and duty
2:1 leaves `CCR` and `TRISE` as they were. -/
theorem c7_failure_frame_witness :
    (i2c_lld_set_clock hc36
      (mkDriver ⟨100000, .FAST_DUTY_CYCLE_2⟩ { resetRegs with CCR := 5, TRISE := 9 })).out
      = .halted .assert1 ∧
    (i2c_lld_set_clock hc36
      (mkDriver ⟨100000, .FAST_DUTY_CYCLE_2⟩
        { resetRegs with CCR := 5, TRISE := 9 })).drv.id_i2c.CCR = 5 ∧
    (i2c_lld_set_clock hc36
      (mkDriver ⟨100000, .FAST_DUTY_CYCLE_2⟩
        { resetRegs with CCR := 5, TRISE := 9 })).drv.id_i2c.TRISE = 9 :=
  have h := c7_failure_frame hc36
    (mkDriver ⟨100000, .FAST_DUTY_CYCLE_2⟩ { resetRegs with CCR := 5, TRISE := 9 })
    .assert1 (by decide)
  ⟨by decide, h.1, h.2.2 (Or.inl rfl)⟩

/-- C8: every write of `TRISE` or `CCR` made by `i2c_lld_set_clock` finds the PE bit
of `CR1` clear, and a call that returns leaves `CR1` as it was on entry, in
every band and for every duty, after having written `CCR`. -/
theorem c8_pe_discipline (hc : HalConf) (d : I2CDriver) (hcr1 : d.id_i2c.CR1 < 65536) :
    (∀ r v c, Event.write r v c ∈ (i2c_lld_set_clock hc d).drv.log.drop d.log.length →
      (r = .TRISE ∨ r = .CCR) → c &&& I2C_CR1_PE = 0) ∧
    ((i2c_lld_set_clock hc d).out = .returned →
      (i2c_lld_set_clock hc d).drv.id_i2c.CR1 = d.id_i2c.CR1 ∧
      ∃ v c, Event.write .CCR v c ∈ (i2c_lld_set_clock hc d).drv.log.drop d.log.length) := by
  have hpe := cr1_pe_cleared d.id_i2c.CR1
  have hres := cr1_restore hcr1
  rcases set_clock_cases hc d with ⟨ho, hd⟩ | ⟨ho, hd⟩ | ⟨ho, hd⟩ | ⟨ho, hd⟩ | ⟨t, ho, hd⟩ |
    ⟨t, c, ho, hd⟩ | ⟨ho, hd⟩ <;> rw [ho, hd] <;>
    simp only [set_clock_prologue, set_clock_epilogue, wr, I2C_TypeDef.store,
      List.append_assoc, List.drop_left, List.singleton_append, List.cons_append,
      List.nil_append, List.drop_length,
      List.mem_cons, List.mem_singleton, List.not_mem_nil, Event.write.injEq,
      reduceCtorEq, false_implies, implies_true, true_and, and_true, false_and, or_false,
      false_or, true_implies, hres]
  · rintro r v c (⟨rfl, -, rfl⟩ | ⟨rfl, -, rfl⟩) hr <;> rcases hr with hr | hr <;> cases hr
  · rintro r v c (⟨rfl, -, rfl⟩ | ⟨rfl, -, rfl⟩) hr <;> rcases hr with hr | hr <;> cases hr
  · rintro r v c (⟨rfl, -, rfl⟩ | ⟨rfl, -, rfl⟩ | ⟨rfl, -, rfl⟩) hr
    · rcases hr with hr | hr <;> cases hr
    · rcases hr with hr | hr <;> cases hr
    · exact hpe
  · refine ⟨?_, _, _, rfl, rfl⟩
    rintro r v c (⟨rfl, -, rfl⟩ | ⟨rfl, -, rfl⟩ | ⟨rfl, -, rfl⟩ | ⟨rfl, -, rfl⟩ | ⟨rfl, -, rfl⟩) hr
    · rcases hr with hr | hr <;> cases hr
    · rcases hr with hr | hr <;> cases hr
    · exact hpe
    · exact hpe
    · rcases hr with hr | hr <;> cases hr
  · refine ⟨?_, _, _, rfl, rfl⟩
    rintro r v c (⟨rfl, -, rfl⟩ | ⟨rfl, -, rfl⟩ | ⟨rfl, -, rfl⟩ | ⟨rfl, -, rfl⟩) hr
    · rcases hr with hr | hr <;> cases hr
    · rcases hr with hr | hr <;> cases hr
    · exact hpe
    · rcases hr with hr | hr <;> cases hr

/-- Witness of C8: a call entered with PE set (`CR1` = 1) at `STM32_PCLK1` = 36 MHz,
`clock_speed` = 100000, standard duty. -/
theorem c8_pe_discipline_witness :
    (i2c_lld_set_clock hc36
      (mkDriver ⟨100000, .STD_DUTY_CYCLE⟩ { resetRegs with CR1 := 1 })).out = .returned ∧
    (i2c_lld_set_clock hc36
      (mkDriver ⟨100000, .STD_DUTY_CYCLE⟩ { resetRegs with CR1 := 1 })).drv.id_i2c.CR1 = 1 ∧
    ∀ r v c, Event.write r v c ∈ (i2c_lld_set_clock hc36
        (mkDriver ⟨100000, .STD_DUTY_CYCLE⟩ { resetRegs with CR1 := 1 })).drv.log.drop 0 →
      (r = .TRISE ∨ r = .CCR) → c &&& I2C_CR1_PE = 0 :=
  have h := c8_pe_discipline hc36
    (mkDriver ⟨100000, .STD_DUTY_CYCLE⟩ { resetRegs with CR1 := 1 }) (by decide)
  ⟨by decide, (h.2 (by decide)).1, h.1⟩

/-! ## Claims on `i2c_serve_error_interrupt` -/

theorem or_eq_zero_iff (a b : Nat) : a ||| b = 0 ↔ a = 0 ∧ b = 0 := by
  constructor
  · intro h
    have ha : a &&& (a ||| b) = a := by
      apply Nat.eq_of_testBit_eq; intro i
      simp only [Nat.testBit_and, Nat.testBit_or]
      cases a.testBit i <;> cases b.testBit i <;> rfl
    have hb : b &&& (a ||| b) = b := by
      apply Nat.eq_of_testBit_eq; intro i
      simp only [Nat.testBit_and, Nat.testBit_or]
      cases a.testBit i <;> cases b.testBit i <;> rfl
    rw [h, Nat.and_zero] at ha hb
    exact ⟨ha.symm, hb.symm⟩
  · rintro ⟨rfl, rfl⟩; rfl

/-- Clearing a bit of a 16 bit value with `x &= ~bit`: `k` is the 16 bit
complement of `bit`. -/
theorem clear_bit_set {x bit k : Nat} (hx : x < 65536) (hk : 0xFFFF &&& cnot bit = k) :
    u16 (x &&& cnot bit) = x &&& k := by
  have h1 : x &&& 0xFFFF = x := by
    rw [(by decide : (0xFFFF : Nat) = 2 ^ 16 - 1), Nat.and_pow_two_sub_one_eq_mod]
    exact Nat.mod_eq_of_lt hx
  have h2 : x &&& cnot bit = x &&& k := by
    rw [← hk, ← Nat.and_assoc, h1]
  rw [h2]
  exact u16_of_lt (lt_of_le_of_lt Nat.and_le_left hx)

/-- A 16 bit value whose bit `bit` is clear is unchanged by masking with the
complement `k` of `bit`. -/
theorem clear_bit_unset {x bit k : Nat} (hx : x < 65536) (hk : k ||| bit = 0xFFFF)
    (h0 : x &&& bit = 0) : x = x &&& k := by
  have h1 : x &&& 0xFFFF = x := by
    rw [(by decide : (0xFFFF : Nat) = 2 ^ 16 - 1), Nat.and_pow_two_sub_one_eq_mod]
    exact Nat.mod_eq_of_lt hx
  calc x = x &&& (k ||| bit) := by rw [hk, h1]
    _ = x &&& k := by rw [Nat.and_or_distrib_left, h0, Nat.or_zero]


theorem addFlagsCalls_write (l : List Event) (r : Reg) (v c : Nat) :
    addFlagsCalls (l ++ [Event.write r v c]) = addFlagsCalls l := by
  simp [addFlagsCalls]

theorem addFlagsCalls_poll (l : List Event) (v : Nat) :
    addFlagsCalls (l ++ [Event.pollCR1 v]) = addFlagsCalls l := by
  simp [addFlagsCalls]

theorem addFlagsCalls_addFlags (l : List Event) (m : Nat) :
    addFlagsCalls (l ++ [Event.addFlags m]) = addFlagsCalls l ++ [m] := by
  simp [addFlagsCalls]

theorem addFlagsCalls_isrErrCode (l : List Event) :
    addFlagsCalls (l ++ [Event.isrErrCode]) = addFlagsCalls l := by
  simp [addFlagsCalls]

/-- One clause of the handler carries the invariant from mask `m` to mask
`m &&& k`, `k` being the 16 bit complement of the clause's bit. -/
theorem serve_flag_inv {d : I2CDriver} {s : I2CDriver × Nat} {m f : Nat} (bit flag k : Nat)
    (hm : m < 65536) (hmb : m &&& bit = bit)
    (hk1 : 0xFFFF &&& cnot bit = k) (hk2 : k ||| bit = 0xFFFF)
    (h : ServeInv d s m f) :
    ServeInv d (serve_flag bit flag s) (m &&& k)
      (f ||| (if d.id_i2c.SR1 &&& bit ≠ 0 then flag else 0)) := by
  obtain ⟨h1, h2, h3, h4, h5⟩ := h
  have hx : s.1.id_i2c.SR1 < 65536 := by
    rw [h1]; exact lt_of_le_of_lt Nat.and_le_right hm
  have hc : s.1.id_i2c.SR1 &&& bit = d.id_i2c.SR1 &&& bit := by
    rw [h1, Nat.and_assoc, hmb]
  unfold serve_flag
  by_cases hb : d.id_i2c.SR1 &&& bit = 0
  · have hb2 : s.1.id_i2c.SR1 &&& bit = 0 := hc.trans hb
    simp only [hb, hb2, ne_eq, not_true_eq_false, if_false, Nat.or_zero]
    refine ⟨?_, h2, h3, h4, h5⟩
    rw [← Nat.and_assoc, ← h1]
    exact clear_bit_unset hx hk2 hb2
  · have hb2 : ¬ s.1.id_i2c.SR1 &&& bit = 0 := fun e => hb (hc.symm.trans e)
    simp only [hb, hb2, ne_eq, not_false_eq_true, if_true]
    refine ⟨?_, ?_, h3, h4, ?_⟩
    · show u16 (s.1.id_i2c.SR1 &&& cnot bit) = d.id_i2c.SR1 &&& (m &&& k)
      rw [clear_bit_set hx hk1, h1, Nat.and_assoc]
    · show s.2 ||| flag = f ||| flag
      rw [h2]
    · show addFlagsCalls (s.1.log ++ [_]) = _
      rw [addFlagsCalls_write, h5]

/-- The bus stop wait changes neither `SR1`, the error flag set, the driver
state nor the list of `i2cAddFlagsI` calls. -/
theorem wait_stop_frame (sp : Nat → Bool) :
    ∀ (fuel k : Nat) (d d' : I2CDriver), wait_stop sp fuel k d = some d' →
      d'.id_i2c.SR1 = d.id_i2c.SR1 ∧ d'.errors = d.errors ∧ d'.id_state = d.id_state ∧
        addFlagsCalls d'.log = addFlagsCalls d.log := by
  intro fuel
  induction fuel with
  | zero => intro k d d' h; simp [wait_stop] at h
  | succ n ih =>
    intro k d d' h
    rw [wait_stop] at h
    simp only at h
    split_ifs at h with hc
    · obtain ⟨a, b, c, e⟩ := ih _ _ _ h
      exact ⟨a, b, c, e.trans (addFlagsCalls_poll _ _)⟩
    · cases h
      exact ⟨rfl, rfl, rfl, addFlagsCalls_poll _ _⟩

/-- After a read of `CR1` with the stop no longer pending the STOP bit reads
as zero. -/
theorem readCR1_idle (d : I2CDriver) : readCR1 false d &&& I2C_CR1_STOP = 0 := by
  have e1 : 0xFFFF &&& cnot I2C_CR1_STOP = 0xFDFF := by decide
  have hlt : u16 (d.id_i2c.CR1 &&& cnot I2C_CR1_STOP) =
      (d.id_i2c.CR1 &&& cnot I2C_CR1_STOP) &&& 0xFFFF := by
    rw [(by decide : (0xFFFF : Nat) = 2 ^ 16 - 1), Nat.and_pow_two_sub_one_eq_mod]; rfl
  show u16 (d.id_i2c.CR1 &&& cnot I2C_CR1_STOP) &&& I2C_CR1_STOP = 0
  rw [hlt, Nat.and_assoc, Nat.and_assoc,
    (by decide : cnot I2C_CR1_STOP &&& (0xFFFF &&& I2C_CR1_STOP) = 0), Nat.and_zero]

/-- The bus stop wait ends once the hardware has cleared the STOP bit: if the
stop is no longer pending at some poll, enough fuel gives a result. -/
theorem wait_stop_terminates (sp : Nat → Bool) :
    ∀ (n k : Nat) (d : I2CDriver), sp (k + n) = false →
      ∃ d', wait_stop sp (n + 1) k d = some d' := by
  intro n
  induction n with
  | zero =>
    intro k d h
    rw [Nat.add_zero] at h
    rw [wait_stop]
    simp only [h, readCR1_idle, ne_eq, not_true_eq_false, if_false]
    exact ⟨_, rfl⟩
  | succ n ih =>
    intro k d h
    rw [wait_stop]
    simp only
    split_ifs with hc
    · exact ih (k + 1) _ (by rw [← h]; congr 1; omega)
    · exact ⟨_, rfl⟩


/-- The acknowledge failure clause carries the invariant like any other clause,
whenever its bus stop wait ends. -/
theorem serve_ack_failure_inv {d : I2CDriver} {s s' : I2CDriver × Nat} {m f : Nat}
    (sp : Nat → Bool) (fuel : Nat)
    (hm : m < 65536) (hmb : m &&& I2C_SR1_AF = I2C_SR1_AF) (h : ServeInv d s m f)
    (hs : serve_ack_failure sp fuel s = some s') :
    ServeInv d s' (m &&& 0xFBFF)
      (f ||| (if d.id_i2c.SR1 &&& I2C_SR1_AF ≠ 0 then I2CD_ACK_FAILURE else 0)) := by
  have hinv := serve_flag_inv I2C_SR1_AF I2CD_ACK_FAILURE 0xFBFF hm hmb
    (by decide : 0xFFFF &&& cnot I2C_SR1_AF = 0xFBFF) (by decide) h
  have hc : s.1.id_i2c.SR1 &&& I2C_SR1_AF = d.id_i2c.SR1 &&& I2C_SR1_AF := by
    rw [h.1, Nat.and_assoc, hmb]
  unfold serve_ack_failure at hs
  unfold serve_flag at hinv
  by_cases hb : d.id_i2c.SR1 &&& I2C_SR1_AF = 0
  · have hb2 : s.1.id_i2c.SR1 &&& I2C_SR1_AF = 0 := hc.trans hb
    simp only [hb2, ne_eq, not_true_eq_false, if_false, Option.some.injEq] at hs hinv
    rw [← hs]
    exact hinv
  · have hb2 : ¬ s.1.id_i2c.SR1 &&& I2C_SR1_AF = 0 := fun e => hb (hc.symm.trans e)
    simp only [hb2, ne_eq, not_false_eq_true, if_true, Option.map_eq_some'] at hs hinv
    obtain ⟨d', hw, rfl⟩ := hs
    obtain ⟨a, b, c, e⟩ := wait_stop_frame _ _ _ _ _ hw
    obtain ⟨i1, i2, i3, i4, i5⟩ := hinv
    refine ⟨a.trans i1, i2, b.trans i3, c.trans i4, ?_⟩
    rw [e]
    exact (addFlagsCalls_write _ _ _ _).trans i5

/-- Some flag is reported exactly when some recognised bit of `SR1` is set. -/
theorem error_flags_ne_zero_iff (sr1 : Nat) :
    error_flags_of_sr1 sr1 ≠ 0 ↔ sr1 &&& I2C_SR1_ERRORS ≠ 0 := by
  have f1 : I2CD_BUS_ERROR ≠ 0 := by decide
  have f2 : I2CD_ARBITRATION_LOST ≠ 0 := by decide
  have f3 : I2CD_ACK_FAILURE ≠ 0 := by decide
  have f4 : I2CD_OVERRUN ≠ 0 := by decide
  have f5 : I2CD_PEC_ERROR ≠ 0 := by decide
  have f6 : I2CD_TIMEOUT ≠ 0 := by decide
  have f7 : I2CD_SMB_ALERT ≠ 0 := by decide
  rw [not_iff_not]
  simp only [error_flags_of_sr1, I2C_SR1_ERRORS, Nat.and_or_distrib_left, or_eq_zero_iff,
    ite_eq_right_iff, ne_eq, f1, f2, f3, f4, f5, f6, f7, imp_false, not_not]

/-- What a finished call of the error handler has done to the driver. -/
theorem serve_error_spec (hc : HalConf) (sp : Nat → Bool) (fuel : Nat) (d d' : I2CDriver)
    (hsr : d.id_i2c.SR1 < 65536)
    (h : i2c_serve_error_interrupt hc sp fuel d = some d') :
    d'.id_i2c.SR1 = d.id_i2c.SR1 &&& 0x20FF ∧
    d'.errors = d.errors ||| error_flags_of_sr1 d.id_i2c.SR1 ∧
    d'.id_state = d.id_state ∧
    addFlagsCalls d'.log = addFlagsCalls d.log ++
      (if error_flags_of_sr1 d.id_i2c.SR1 ≠ 0 then [error_flags_of_sr1 d.id_i2c.SR1] else []) := by
  have h0 : ServeInv d (d, I2CD_NO_ERROR) 0xFFFF I2CD_NO_ERROR := by
    refine ⟨?_, rfl, rfl, rfl, rfl⟩
    show d.id_i2c.SR1 = d.id_i2c.SR1 &&& 0xFFFF
    rw [(by decide : (0xFFFF : Nat) = 2 ^ 16 - 1), Nat.and_pow_two_sub_one_eq_mod]
    exact (Nat.mod_eq_of_lt hsr).symm
  have h1 := serve_flag_inv I2C_SR1_BERR I2CD_BUS_ERROR 0xFEFF
    (by decide) (by decide) (by decide) (by decide) h0
  have h2 := serve_flag_inv I2C_SR1_ARLO I2CD_ARBITRATION_LOST 0xFDFF
    (by decide) (by decide) (by decide) (by decide) h1
  unfold i2c_serve_error_interrupt at h
  simp only [Option.map_eq_some'] at h
  obtain ⟨s3, hs3, rfl⟩ := h
  have h3 := serve_ack_failure_inv sp fuel (by decide) (by decide) h2 hs3
  have h4 := serve_flag_inv I2C_SR1_OVR I2CD_OVERRUN 0xF7FF
    (by decide) (by decide) (by decide) (by decide) h3
  have h5 := serve_flag_inv I2C_SR1_PECERR I2CD_PEC_ERROR 0xEFFF
    (by decide) (by decide) (by decide) (by decide) h4
  have h6 := serve_flag_inv I2C_SR1_TIMEOUT I2CD_TIMEOUT 0xBFFF
    (by decide) (by decide) (by decide) (by decide) h5
  have h7 := serve_flag_inv I2C_SR1_SMBALERT I2CD_SMB_ALERT 0x7FFF
    (by decide) (by decide) (by decide) (by decide) h6
  rw [(by decide : (0xFFFF &&& 0xFEFF &&& 0xFDFF &&& 0xFBFF &&& 0xF7FF &&& 0xEFFF &&& 0xBFFF
    &&& 0x7FFF : Nat) = 0x20FF)] at h7
  have hF : (I2CD_NO_ERROR |||
      (if d.id_i2c.SR1 &&& I2C_SR1_BERR ≠ 0 then I2CD_BUS_ERROR else 0) |||
      (if d.id_i2c.SR1 &&& I2C_SR1_ARLO ≠ 0 then I2CD_ARBITRATION_LOST else 0) |||
      (if d.id_i2c.SR1 &&& I2C_SR1_AF ≠ 0 then I2CD_ACK_FAILURE else 0) |||
      (if d.id_i2c.SR1 &&& I2C_SR1_OVR ≠ 0 then I2CD_OVERRUN else 0) |||
      (if d.id_i2c.SR1 &&& I2C_SR1_PECERR ≠ 0 then I2CD_PEC_ERROR else 0) |||
      (if d.id_i2c.SR1 &&& I2C_SR1_TIMEOUT ≠ 0 then I2CD_TIMEOUT else 0) |||
      (if d.id_i2c.SR1 &&& I2C_SR1_SMBALERT ≠ 0 then I2CD_SMB_ALERT else 0))
      = error_flags_of_sr1 d.id_i2c.SR1 := by
    unfold error_flags_of_sr1 I2CD_NO_ERROR
    rw [Nat.zero_or]
  rw [hF] at h7
  obtain ⟨i1, i2, i3, i4, i5⟩ := h7
  unfold serve_error_rest
  simp only [i2, I2CD_NO_ERROR]
  by_cases hz : error_flags_of_sr1 d.id_i2c.SR1 = 0
  · simp only [hz, ne_eq, not_true_eq_false, if_false, Nat.or_zero, List.append_nil]
    exact ⟨i1, i3, i4, i5⟩
  · simp only [hz, ne_eq, not_false_eq_true, if_true]
    cases hc.I2C_SUPPORTS_CALLBACKS
    · simp only [Bool.false_eq_true, if_false]
      refine ⟨i1, ?_, i4, ?_⟩
      · show _ ||| _ = _; rw [i3]
      · show addFlagsCalls (_ ++ [Event.addFlags _]) = _
        rw [addFlagsCalls_addFlags, i5]
    · simp only [if_true]
      refine ⟨i1, ?_, i4, ?_⟩
      · show _ ||| _ = _; rw [i3]
      · show addFlagsCalls ((_ ++ [Event.addFlags _]) ++ [Event.isrErrCode]) = _
        rw [addFlagsCalls_isrErrCode, addFlagsCalls_addFlags, i5]


/-- The acknowledge failure clause tests the bit as it was on entry. -/
theorem serve_ack_failure_cond (d : I2CDriver) (hsr : d.id_i2c.SR1 < 65536) :
    (serve_flag I2C_SR1_ARLO I2CD_ARBITRATION_LOST
      (serve_flag I2C_SR1_BERR I2CD_BUS_ERROR (d, I2CD_NO_ERROR))).1.id_i2c.SR1 &&& I2C_SR1_AF
      = d.id_i2c.SR1 &&& I2C_SR1_AF := by
  have h0 : ServeInv d (d, I2CD_NO_ERROR) 0xFFFF I2CD_NO_ERROR := by
    refine ⟨?_, rfl, rfl, rfl, rfl⟩
    show d.id_i2c.SR1 = d.id_i2c.SR1 &&& 0xFFFF
    rw [(by decide : (0xFFFF : Nat) = 2 ^ 16 - 1), Nat.and_pow_two_sub_one_eq_mod]
    exact (Nat.mod_eq_of_lt hsr).symm
  have h1 := serve_flag_inv I2C_SR1_BERR I2CD_BUS_ERROR 0xFEFF
    (by decide) (by decide) (by decide) (by decide) h0
  have h2 := serve_flag_inv I2C_SR1_ARLO I2CD_ARBITRATION_LOST 0xFDFF
    (by decide) (by decide) (by decide) (by decide) h1
  rw [h2.1, Nat.and_assoc, (by decide : 0xFFFF &&& 0xFEFF &&& 0xFDFF &&& I2C_SR1_AF = I2C_SR1_AF)]

/-- The error handler returns: without an acknowledge failure for every
hardware behaviour, with one as soon as the hardware clears the STOP bit. -/
theorem serve_error_returns (hc : HalConf) (sp : Nat → Bool) (d : I2CDriver)
    (hsr : d.id_i2c.SR1 < 65536)
    (hsp : d.id_i2c.SR1 &&& I2C_SR1_AF ≠ 0 → ∃ n, sp n = false) :
    ∃ fuel d', i2c_serve_error_interrupt hc sp fuel d = some d' := by
  have hcond := serve_ack_failure_cond d hsr
  by_cases hd : d.id_i2c.SR1 &&& I2C_SR1_AF = 0
  · refine ⟨0, ?_⟩
    unfold i2c_serve_error_interrupt serve_ack_failure
    simp only [hcond, hd, ne_eq, not_true_eq_false, if_false, Option.map_some']
    exact ⟨_, rfl⟩
  · obtain ⟨n, hn⟩ := hsp hd
    refine ⟨n + 1, ?_⟩
    unfold i2c_serve_error_interrupt serve_ack_failure
    simp only [hcond, hd, ne_eq, not_false_eq_true, if_true]
    obtain ⟨d', hw⟩ := wait_stop_terminates sp n 0 _ (by rw [Nat.zero_add]; exact hn)
    rw [hw]
    exact ⟨_, rfl⟩

/-- C9: for every 16 bit `SR1` on entry the error handler returns (given that the
hardware clears the STOP bit when the acknowledge failure clause waits for it),
and it has then or-ed into the error flag set of the driver exactly the image
of the recognised `SR1` bits, with a single `i2cAddFlagsI` call carrying that
image when some recognised bit was set and with no call otherwise. -/
theorem c9_error_flags (hc : HalConf) (sp : Nat → Bool) (d : I2CDriver)
    (hsr : d.id_i2c.SR1 < 65536)
    (hsp : d.id_i2c.SR1 &&& I2C_SR1_AF ≠ 0 → ∃ n, sp n = false) :
    (∃ fuel d', i2c_serve_error_interrupt hc sp fuel d = some d') ∧
    ∀ fuel d', i2c_serve_error_interrupt hc sp fuel d = some d' →
      d'.errors = d.errors ||| error_flags_of_sr1 d.id_i2c.SR1 ∧
      addFlagsCalls d'.log = addFlagsCalls d.log ++
        (if d.id_i2c.SR1 &&& I2C_SR1_ERRORS ≠ 0 then [error_flags_of_sr1 d.id_i2c.SR1]
          else []) := by
  refine ⟨serve_error_returns hc sp d hsr hsp, fun fuel d' h => ?_⟩
  obtain ⟨-, he, -, hl⟩ := serve_error_spec hc sp fuel d d' hsr h
  refine ⟨he, ?_⟩
  rw [hl]
  by_cases hz : error_flags_of_sr1 d.id_i2c.SR1 = 0
  · have hz2 : d.id_i2c.SR1 &&& I2C_SR1_ERRORS = 0 :=
      not_not.mp (fun e => (error_flags_ne_zero_iff _).mpr e hz)
    simp only [hz, hz2, ne_eq, not_true_eq_false, if_false]
  · have hz2 : d.id_i2c.SR1 &&& I2C_SR1_ERRORS ≠ 0 := (error_flags_ne_zero_iff _).mp hz
    simp only [hz, hz2, ne_eq, not_false_eq_true, if_true]

/-- Witness of C9: `SR1` = 0x2501 (bus error and acknowledge failure set), the
hardware clearing STOP at the fourth poll: the handler returns with the error
flag set 0x05 and the single call `i2cAddFlagsI(0x05)`. -/
theorem c9_error_flags_witness :
    (∃ fuel d', i2c_serve_error_interrupt hc36 (stopAfter 3) fuel errDriver = some d') ∧
    ∀ fuel d', i2c_serve_error_interrupt hc36 (stopAfter 3) fuel errDriver = some d' →
      d'.errors = 0x05 ∧ addFlagsCalls d'.log = [0x05] :=
  have h := c9_error_flags hc36 (stopAfter 3) errDriver (by decide) (fun _ => ⟨3, by decide⟩)
  ⟨h.1, fun fuel d' e => ⟨(h.2 fuel d' e).1.trans (by decide),
    (h.2 fuel d' e).2.trans (by decide)⟩⟩

/-- C10: for every 16 bit `SR1` on entry the error handler returns (given that the
hardware clears the STOP bit when the acknowledge failure clause waits for it),
and then every recognised error bit is clear in `SR1`, every other bit of `SR1`
is as on entry, and the driver state `id_state` is unchanged. -/
theorem c10_sr1_cleared (hc : HalConf) (sp : Nat → Bool) (d : I2CDriver)
    (hsr : d.id_i2c.SR1 < 65536)
    (hsp : d.id_i2c.SR1 &&& I2C_SR1_AF ≠ 0 → ∃ n, sp n = false) :
    (∃ fuel d', i2c_serve_error_interrupt hc sp fuel d = some d') ∧
    ∀ fuel d', i2c_serve_error_interrupt hc sp fuel d = some d' →
      d'.id_i2c.SR1 &&& I2C_SR1_BERR = 0 ∧ d'.id_i2c.SR1 &&& I2C_SR1_ARLO = 0 ∧
      d'.id_i2c.SR1 &&& I2C_SR1_AF = 0 ∧ d'.id_i2c.SR1 &&& I2C_SR1_OVR = 0 ∧
      d'.id_i2c.SR1 &&& I2C_SR1_PECERR = 0 ∧ d'.id_i2c.SR1 &&& I2C_SR1_TIMEOUT = 0 ∧
      d'.id_i2c.SR1 &&& I2C_SR1_SMBALERT = 0 ∧
      (∀ m, m &&& I2C_SR1_ERRORS = 0 → d'.id_i2c.SR1 &&& m = d.id_i2c.SR1 &&& m) ∧
      d'.id_state = d.id_state := by
  refine ⟨serve_error_returns hc sp d hsr hsp, fun fuel d' h => ?_⟩
  obtain ⟨hs, -, hst, -⟩ := serve_error_spec hc sp fuel d d' hsr h
  have hclr : ∀ b, 0x20FF &&& b = 0 → d'.id_i2c.SR1 &&& b = 0 := by
    intro b hb
    rw [hs, Nat.and_assoc, hb, Nat.and_zero]
  refine ⟨hclr _ (by decide), hclr _ (by decide), hclr _ (by decide), hclr _ (by decide),
    hclr _ (by decide), hclr _ (by decide), hclr _ (by decide), fun m hm => ?_, hst⟩
  have h16 : d.id_i2c.SR1 &&& 0xFFFF = d.id_i2c.SR1 := by
    rw [(by decide : (0xFFFF : Nat) = 2 ^ 16 - 1), Nat.and_pow_two_sub_one_eq_mod]
    exact Nat.mod_eq_of_lt hsr
  have hsplit : (0xFFFF : Nat) = 0x20FF ||| I2C_SR1_ERRORS := by decide
  have hm2 : I2C_SR1_ERRORS &&& m = 0 := by rw [Nat.and_comm]; exact hm
  calc d'.id_i2c.SR1 &&& m = d.id_i2c.SR1 &&& (0x20FF &&& m) := by rw [hs, Nat.and_assoc]
    _ = d.id_i2c.SR1 &&& ((0x20FF ||| I2C_SR1_ERRORS) &&& m) := by
        rw [or_and_right, hm2, Nat.or_zero]
    _ = d.id_i2c.SR1 &&& m := by rw [← hsplit, ← Nat.and_assoc, h16]

/-- Witness of C10: `SR1` = 0x2501 on entry, the hardware clearing STOP at the
fourth poll: the handler returns with `SR1` = 0x2001 and the driver still
ready. -/
theorem c10_sr1_cleared_witness :
    (∃ fuel d', i2c_serve_error_interrupt hc36 (stopAfter 3) fuel errDriver = some d') ∧
    ∀ fuel d', i2c_serve_error_interrupt hc36 (stopAfter 3) fuel errDriver = some d' →
      d'.id_i2c.SR1 &&& I2C_SR1_ERRORS = 0 ∧ d'.id_i2c.SR1 &&& 0x20FF = 0x2001 ∧
      d'.id_state = .I2C_READY :=
  have h := c10_sr1_cleared hc36 (stopAfter 3) errDriver (by decide) (fun _ => ⟨3, by decide⟩)
  ⟨h.1, fun fuel d' e =>
    ⟨by
      obtain ⟨a1, a2, a3, a4, a5, a6, a7, -, -⟩ := h.2 fuel d' e
      simp only [I2C_SR1_ERRORS, Nat.and_or_distrib_left, a1, a2, a3, a4, a5, a6, a7,
        Nat.or_zero],
     ((h.2 fuel d' e).2.2.2.2.2.2.2.1 0x20FF (by decide)).trans (by decide),
     (h.2 fuel d' e).2.2.2.2.2.2.2.2⟩⟩

/-! ## The bus stop sequence of `i2c_serve_error_interrupt` -/

/-- One clause of the handler appends register writes only and leaves `CR1`
alone. -/
theorem serve_flag_log (bit flag : Nat) (s : I2CDriver × Nat) :
    ∃ ext, (serve_flag bit flag s).1.log = s.1.log ++ ext ∧ addFlagsCalls ext = [] ∧
      pollCount ext = 0 ∧
      (serve_flag bit flag s).1.id_i2c.CR1 = s.1.id_i2c.CR1 := by
  unfold serve_flag
  split_ifs
  · exact ⟨[_], rfl, rfl, rfl, rfl⟩
  · exact ⟨[], (List.append_nil _).symm, rfl, rfl, rfl⟩

/-- A finished bus stop wait has appended polls of `CR1` only: all but the
last read the STOP bit set, the last read it clear and is what `CR1` holds. -/
theorem wait_stop_log (sp : Nat → Bool) :
    ∀ (fuel k : Nat) (d d' : I2CDriver), wait_stop sp fuel k d = some d' →
      ∃ polls vlast, d'.log = d.log ++ polls ++ [Event.pollCR1 vlast] ∧
        (∀ e ∈ polls, ∃ w, e = Event.pollCR1 w ∧ w &&& I2C_CR1_STOP ≠ 0) ∧
        vlast &&& I2C_CR1_STOP = 0 ∧ d'.id_i2c.CR1 = vlast := by
  intro fuel
  induction fuel with
  | zero => intro k d d' h; simp [wait_stop] at h
  | succ n ih =>
    intro k d d' h
    rw [wait_stop] at h
    simp only at h
    split_ifs at h with hc
    · obtain ⟨polls, vlast, hl, hp, hv, hcr⟩ := ih _ _ _ h
      refine ⟨Event.pollCR1 (readCR1 (sp k) d) :: polls, vlast, ?_, ?_, hv, hcr⟩
      · rw [hl]; simp only [List.append_assoc, List.singleton_append, List.cons_append,
          List.nil_append]
      · intro e he
        rcases List.mem_cons.mp he with rfl | he
        · exact ⟨_, rfl, hc⟩
        · exact hp e he
    · cases h
      exact ⟨[], _, by simp only [List.append_nil], fun e he => absurd he (List.not_mem_nil e),
        not_not.mp hc, rfl⟩

/-- The clauses after the acknowledge failure clause and the notification append
to the log and leave `CR1` alone. -/
theorem serve_error_rest_log (hc : HalConf) (s : I2CDriver × Nat) :
    ∃ post, (serve_error_rest hc s).log = s.1.log ++ post ∧ pollCount post = 0 ∧
      (serve_error_rest hc s).id_i2c.CR1 = s.1.id_i2c.CR1 := by
  obtain ⟨e1, l1, -, p1, c1⟩ := serve_flag_log I2C_SR1_OVR I2CD_OVERRUN s
  obtain ⟨e2, l2, -, p2, c2⟩ := serve_flag_log I2C_SR1_PECERR I2CD_PEC_ERROR
    (serve_flag I2C_SR1_OVR I2CD_OVERRUN s)
  obtain ⟨e3, l3, -, p3, c3⟩ := serve_flag_log I2C_SR1_TIMEOUT I2CD_TIMEOUT
    (serve_flag I2C_SR1_PECERR I2CD_PEC_ERROR (serve_flag I2C_SR1_OVR I2CD_OVERRUN s))
  obtain ⟨e4, l4, -, p4, c4⟩ := serve_flag_log I2C_SR1_SMBALERT I2CD_SMB_ALERT
    (serve_flag I2C_SR1_TIMEOUT I2CD_TIMEOUT
      (serve_flag I2C_SR1_PECERR I2CD_PEC_ERROR (serve_flag I2C_SR1_OVR I2CD_OVERRUN s)))
  have hl := l4.trans (by rw [l3, l2, l1])
  have hcr := c4.trans (c3.trans (c2.trans c1))
  have hp : pollCount (e1 ++ e2 ++ e3 ++ e4) = 0 := by
    simp only [pollCount, List.filter_append, List.length_append] at p1 p2 p3 p4 ⊢
    omega
  unfold serve_error_rest
  simp only
  generalize serve_flag I2C_SR1_SMBALERT I2CD_SMB_ALERT
    (serve_flag I2C_SR1_TIMEOUT I2CD_TIMEOUT
      (serve_flag I2C_SR1_PECERR I2CD_PEC_ERROR (serve_flag I2C_SR1_OVR I2CD_OVERRUN s))) = s4
    at hl hcr ⊢
  split_ifs
  · refine ⟨e1 ++ e2 ++ e3 ++ e4 ++ [Event.addFlags s4.2] ++ [Event.isrErrCode], ?_, ?_, hcr⟩
    · show (s4.1.log ++ [Event.addFlags s4.2]) ++ [Event.isrErrCode] = _
      rw [hl]; simp only [List.append_assoc]
    · simp only [pollCount, List.filter_append, List.length_append] at hp ⊢
      rw [hp]; rfl
  · refine ⟨e1 ++ e2 ++ e3 ++ e4 ++ [Event.addFlags s4.2], ?_, ?_, hcr⟩
    · show (s4.1.log ++ [Event.addFlags s4.2]) = _
      rw [hl]; simp only [List.append_assoc]
    · simp only [pollCount, List.filter_append, List.length_append] at hp ⊢
      rw [hp]; rfl
  · exact ⟨e1 ++ e2 ++ e3 ++ e4, by rw [hl]; simp only [List.append_assoc], hp, hcr⟩

theorem addFlagsCalls_append (a b : List Event) :
    addFlagsCalls (a ++ b) = addFlagsCalls a ++ addFlagsCalls b := by
  simp only [addFlagsCalls, List.filterMap_append]

theorem addFlagsCalls_polls (l : List Event)
    (h : ∀ e ∈ l, ∃ w, e = Event.pollCR1 w ∧ w &&& I2C_CR1_STOP ≠ 0) :
    addFlagsCalls l = [] := by
  induction l with
  | nil => rfl
  | cons a t ih =>
    obtain ⟨w, rfl, -⟩ := h _ (List.mem_cons_self _ _)
    have := ih (fun e he => h e (List.mem_cons_of_mem _ he))
    simpa [addFlagsCalls] using this

/-- The write `CR1 |= I2C_CR1_STOP` stores a value with the STOP bit set. -/
theorem stop_bit_written (x : Nat) : u16 (x ||| I2C_CR1_STOP) &&& I2C_CR1_STOP ≠ 0 := by
  have h1 : u16 (x ||| I2C_CR1_STOP) = (x ||| I2C_CR1_STOP) &&& 0xFFFF := by
    rw [(by decide : (0xFFFF : Nat) = 2 ^ 16 - 1), Nat.and_pow_two_sub_one_eq_mod]; rfl
  rw [h1, Nat.and_assoc, (by decide : 0xFFFF &&& I2C_CR1_STOP = I2C_CR1_STOP), or_and_right,
    Nat.and_self]
  intro h
  exact absurd ((or_eq_zero_iff _ _).mp h).2 (by decide)

/-- With an acknowledge failure on entry a finished call of the handler went
through the write of STOP, the bus stop wait and then the remaining clauses. -/
theorem serve_error_af_path (hc : HalConf) (sp : Nat → Bool) (fuel : Nat) (d d' : I2CDriver)
    (hsr : d.id_i2c.SR1 < 65536) (haf : d.id_i2c.SR1 &&& I2C_SR1_AF ≠ 0)
    (h : i2c_serve_error_interrupt hc sp fuel d = some d') :
    ∃ pre v c d4 d5 f, d4.log = d.log ++ pre ++ [Event.write .CR1 v c] ∧
      d4.id_i2c.CR1 = v ∧ addFlagsCalls pre = [] ∧ pollCount pre = 0 ∧
      v &&& I2C_CR1_STOP ≠ 0 ∧ wait_stop sp fuel 0 d4 = some d5 ∧
      d' = serve_error_rest hc (d5, f) := by
  have hcond := serve_ack_failure_cond d hsr
  obtain ⟨e1, l1, a1, p1, -⟩ := serve_flag_log I2C_SR1_BERR I2CD_BUS_ERROR (d, I2CD_NO_ERROR)
  obtain ⟨e2, l2, a2, p2, -⟩ := serve_flag_log I2C_SR1_ARLO I2CD_ARBITRATION_LOST
    (serve_flag I2C_SR1_BERR I2CD_BUS_ERROR (d, I2CD_NO_ERROR))
  unfold i2c_serve_error_interrupt serve_ack_failure at h
  simp only [hcond, haf, ne_eq, not_false_eq_true, if_true, Option.map_map,
    Option.map_eq_some'] at h
  generalize serve_flag I2C_SR1_ARLO I2CD_ARBITRATION_LOST
    (serve_flag I2C_SR1_BERR I2CD_BUS_ERROR (d, I2CD_NO_ERROR)) = s2 at h l2
  obtain ⟨d5, hw, rfl⟩ := h
  refine ⟨e1 ++ e2 ++ [Event.write .SR1 (u16 (s2.1.id_i2c.SR1 &&& cnot I2C_SR1_AF))
    s2.1.id_i2c.CR1], u16 (s2.1.id_i2c.CR1 ||| I2C_CR1_STOP), s2.1.id_i2c.CR1,
    wr .CR1 ((wr .SR1 (s2.1.id_i2c.SR1 &&& cnot I2C_SR1_AF) s2.1).id_i2c.CR1 ||| I2C_CR1_STOP)
      (wr .SR1 (s2.1.id_i2c.SR1 &&& cnot I2C_SR1_AF) s2.1),
    d5, s2.2 ||| I2CD_ACK_FAILURE, ?_, rfl, ?_, ?_, stop_bit_written _, hw, rfl⟩
  · show (s2.1.log ++ [_]) ++ [_] = _
    rw [l2, l1]
    simp only [List.append_assoc]
    rfl
  · rw [addFlagsCalls_append, addFlagsCalls_append, a1, a2]; rfl
  · simp only [pollCount, List.filter_append, List.length_append] at p1 p2 ⊢
    rw [p1, p2]; rfl

/-- The flag set reported after an acknowledge failure carries
`I2CD_ACK_FAILURE`. -/
theorem error_flags_ack (sr1 : Nat) (haf : sr1 &&& I2C_SR1_AF ≠ 0) :
    error_flags_of_sr1 sr1 &&& I2CD_ACK_FAILURE ≠ 0 := by
  intro h
  simp only [error_flags_of_sr1, or_and_right, or_eq_zero_iff, haf, ne_eq, not_false_eq_true,
    if_true] at h
  exact absurd h.1.1.1.1.2 (by decide)

/-- C11: whenever the acknowledge failure bit is set on entry, a call of the error
handler that returns has written `CR1` with STOP set, has then polled `CR1`
until a read showed STOP clear, and has called `i2cAddFlagsI` only after that
read, once, with a mask carrying `I2CD_ACK_FAILURE`; on return STOP is clear in
`CR1`.  The handler returns as soon as the hardware clears the STOP bit. -/
theorem c11_stop_before_report (hc : HalConf) (sp : Nat → Bool) (d : I2CDriver)
    (hsr : d.id_i2c.SR1 < 65536) (haf : d.id_i2c.SR1 &&& I2C_SR1_AF ≠ 0) :
    ((∃ n, sp n = false) → ∃ fuel d', i2c_serve_error_interrupt hc sp fuel d = some d') ∧
    ∀ fuel d', i2c_serve_error_interrupt hc sp fuel d = some d' →
      ∃ pre v c polls vlast post,
        d'.log = d.log ++ pre ++ [Event.write .CR1 v c] ++ polls ++ [Event.pollCR1 vlast]
          ++ post ∧
        v &&& I2C_CR1_STOP ≠ 0 ∧
        (∀ e ∈ polls, ∃ w, e = Event.pollCR1 w ∧ w &&& I2C_CR1_STOP ≠ 0) ∧
        vlast &&& I2C_CR1_STOP = 0 ∧
        addFlagsCalls pre = [] ∧
        addFlagsCalls post = [error_flags_of_sr1 d.id_i2c.SR1] ∧
        error_flags_of_sr1 d.id_i2c.SR1 &&& I2CD_ACK_FAILURE ≠ 0 ∧
        d'.id_i2c.CR1 &&& I2C_CR1_STOP = 0 := by
  refine ⟨fun hn => serve_error_returns hc sp d hsr (fun _ => hn), fun fuel d' h => ?_⟩
  obtain ⟨-, -, -, hcalls⟩ := serve_error_spec hc sp fuel d d' hsr h
  obtain ⟨pre, v, c, d4, d5, f, hl4, -, hpre, -, hv, hw, rfl⟩ :=
    serve_error_af_path hc sp fuel d d' hsr haf h
  obtain ⟨polls, vlast, hl5, hpolls, hlast, hcr5⟩ := wait_stop_log sp fuel 0 d4 d5 hw
  obtain ⟨post, hl6, -, hcr6⟩ := serve_error_rest_log hc (d5, f)
  have hack := error_flags_ack d.id_i2c.SR1 haf
  have hne : error_flags_of_sr1 d.id_i2c.SR1 ≠ 0 := by
    intro h0; rw [h0] at hack; exact hack (Nat.zero_and _)
  have hlog : (serve_error_rest hc (d5, f)).log =
      d.log ++ pre ++ [Event.write .CR1 v c] ++ polls ++ [Event.pollCR1 vlast] ++ post := by
    rw [hl6]; show d5.log ++ post = _; rw [hl5, hl4]
  refine ⟨pre, v, c, polls, vlast, post, hlog, hv, hpolls, hlast, hpre, ?_, hack, ?_⟩
  · rw [hlog] at hcalls
    simp only [addFlagsCalls_append, hpre, addFlagsCalls_polls polls hpolls, hne, ne_eq,
      not_false_eq_true, if_true, List.append_nil, List.append_assoc] at hcalls
    have e1 : addFlagsCalls [Event.write .CR1 v c] = [] := rfl
    have e2 : addFlagsCalls [Event.pollCR1 vlast] = [] := rfl
    rw [e1, e2] at hcalls
    simp only [List.nil_append] at hcalls
    exact List.append_cancel_left hcalls
  · rw [hcr6]; show d5.id_i2c.CR1 &&& _ = 0; rw [hcr5]; exact hlast

/-- Witness of C11: `SR1` = 0x2501 on entry (acknowledge failure set), the hardware
clearing STOP at the fourth poll. -/
theorem c11_stop_before_report_witness :
    (∃ fuel d', i2c_serve_error_interrupt hc36 (stopAfter 3) fuel errDriver = some d') ∧
    ∀ fuel d', i2c_serve_error_interrupt hc36 (stopAfter 3) fuel errDriver = some d' →
      d'.id_i2c.CR1 &&& I2C_CR1_STOP = 0 :=
  have h := c11_stop_before_report hc36 (stopAfter 3) errDriver (by decide) (by decide)
  ⟨h.1 ⟨3, by decide⟩, fun fuel d' e => by
    obtain ⟨_, _, _, _, _, _, _, _, _, _, _, _, _, hcr⟩ := h.2 fuel d' e
    exact hcr⟩

/-- While the hardware holds the STOP bit the bus stop wait does not end,
whatever the number of polls allowed. -/
theorem wait_stop_never (sp : Nat → Bool) (hsp : ∀ j, sp j = true) :
    ∀ (fuel k : Nat) (d : I2CDriver), d.id_i2c.CR1 &&& I2C_CR1_STOP ≠ 0 →
      wait_stop sp fuel k d = none := by
  intro fuel
  induction fuel with
  | zero => intro k d _; rfl
  | succ n ih =>
    intro k d hd
    rw [wait_stop]
    simp only [hsp k, readCR1, if_true, hd, ne_eq, not_false_eq_true]
    exact ih _ _ hd

/-- When the hardware clears the STOP bit at poll `k + n` and not before, the
bus stop wait ends after exactly `n + 1` polls and not with fewer. -/
theorem wait_stop_count (sp : Nat → Bool) :
    ∀ (n k : Nat) (d : I2CDriver), (∀ j, j < n → sp (k + j) = true) → sp (k + n) = false →
      d.id_i2c.CR1 &&& I2C_CR1_STOP ≠ 0 →
      (∃ d', wait_stop sp (n + 1) k d = some d' ∧
        pollCount d'.log = pollCount d.log + (n + 1)) ∧
      ∀ fuel, fuel ≤ n → wait_stop sp fuel k d = none := by
  intro n
  induction n with
  | zero =>
    intro k d _ h0 _
    rw [Nat.add_zero] at h0
    refine ⟨?_, fun fuel hf => ?_⟩
    · rw [wait_stop]
      simp only [h0, readCR1_idle, ne_eq, not_true_eq_false, if_false]
      refine ⟨_, rfl, ?_⟩
      simp [pollCount, List.filter_append]
    · rw [Nat.le_zero.mp hf]; rfl
  | succ n ih =>
    intro k d hlt hn hd
    have hk : sp k = true := by simpa using hlt 0 (Nat.succ_pos n)
    have hstep : readCR1 (sp k) d &&& I2C_CR1_STOP ≠ 0 := by
      rw [hk]; exact hd
    obtain ⟨⟨d', hw, hp⟩, hnone⟩ := ih (k + 1)
      { d with id_i2c := { d.id_i2c with CR1 := readCR1 (sp k) d },
               log := d.log ++ [Event.pollCR1 (readCR1 (sp k) d)] }
      (fun j hj => by rw [Nat.add_assoc, Nat.add_comm 1 j]; exact hlt (j + 1) (by omega))
      (by rw [← hn]; congr 1; omega) hstep
    refine ⟨⟨d', ?_, ?_⟩, fun fuel hf => ?_⟩
    · rw [wait_stop]
      simp only [hstep, ne_eq, not_false_eq_true, if_true]
      exact hw
    · rw [hp]
      simp [pollCount, List.filter_append]
      omega
    · cases fuel with
      | zero => rfl
      | succ m =>
        rw [wait_stop]
        simp only [hstep, ne_eq, not_false_eq_true, if_true]
        exact hnone m (by omega)

/-- With an acknowledge failure on entry the handler is the bus stop wait,
entered with STOP set in `CR1`, followed by the remaining clauses. -/
theorem serve_error_af_eq (hc : HalConf) (d : I2CDriver)
    (hsr : d.id_i2c.SR1 < 65536) (haf : d.id_i2c.SR1 &&& I2C_SR1_AF ≠ 0) :
    ∃ d4 f, d4.id_i2c.CR1 &&& I2C_CR1_STOP ≠ 0 ∧ pollCount d4.log = pollCount d.log ∧
      ∀ sp fuel, i2c_serve_error_interrupt hc sp fuel d =
        (wait_stop sp fuel 0 d4).map (fun d5 => serve_error_rest hc (d5, f)) := by
  have hcond := serve_ack_failure_cond d hsr
  obtain ⟨e1, l1, -, p1, -⟩ := serve_flag_log I2C_SR1_BERR I2CD_BUS_ERROR (d, I2CD_NO_ERROR)
  obtain ⟨e2, l2, -, p2, -⟩ := serve_flag_log I2C_SR1_ARLO I2CD_ARBITRATION_LOST
    (serve_flag I2C_SR1_BERR I2CD_BUS_ERROR (d, I2CD_NO_ERROR))
  generalize hs2 : serve_flag I2C_SR1_ARLO I2CD_ARBITRATION_LOST
    (serve_flag I2C_SR1_BERR I2CD_BUS_ERROR (d, I2CD_NO_ERROR)) = s2 at hcond l2
  refine ⟨wr .CR1 ((wr .SR1 (s2.1.id_i2c.SR1 &&& cnot I2C_SR1_AF) s2.1).id_i2c.CR1 |||
      I2C_CR1_STOP) (wr .SR1 (s2.1.id_i2c.SR1 &&& cnot I2C_SR1_AF) s2.1),
    s2.2 ||| I2CD_ACK_FAILURE, stop_bit_written _, ?_, fun sp fuel => ?_⟩
  · show pollCount ((s2.1.log ++ [Event.write _ _ _]) ++ [Event.write _ _ _]) = _
    rw [l2, l1]
    simp only [pollCount, List.filter_append, List.length_append] at p1 p2 ⊢
    rw [p1, p2]; rfl
  · unfold i2c_serve_error_interrupt serve_ack_failure
    simp only [hs2, hcond, haf, ne_eq, not_false_eq_true, if_true, Option.map_map]
    rfl

/-- With an acknowledge failure on entry and a STOP bit the hardware never
clears, the handler does not return, whatever the number of polls allowed. -/
theorem serve_error_spins (hc : HalConf) (sp : Nat → Bool) (d : I2CDriver)
    (hsr : d.id_i2c.SR1 < 65536) (haf : d.id_i2c.SR1 &&& I2C_SR1_AF ≠ 0)
    (hsp : ∀ j, sp j = true) (fuel : Nat) :
    i2c_serve_error_interrupt hc sp fuel d = none := by
  obtain ⟨d4, f, hstop, -, heq⟩ := serve_error_af_eq hc d hsr haf
  rw [heq, wait_stop_never sp hsp fuel 0 d4 hstop]
  rfl

/-- C12, as stated, fails: with `SR1` = 0x2501 on entry (acknowledge failure set)
and a STOP bit that the hardware never clears, no number of polls makes the
handler return: the spin has no maximum and nothing is surfaced. -/
theorem c12_counterexample :
    ¬ ∃ fuel d', i2c_serve_error_interrupt hc36 stopNever fuel errDriver = some d' := by
  rintro ⟨fuel, d', h⟩
  rw [serve_error_spins hc36 stopNever errDriver (by decide) (by decide) (fun _ => rfl) fuel] at h
  cases h

/-- C12, amended: the bus stop spin after an acknowledge failure is bounded by the
hardware only.  When the hardware clears the STOP bit at poll `n` and not
before, the handler returns after exactly `n + 1` polls of `CR1` and not with
fewer, for every `n`; when the hardware never clears the bit the handler never
returns, and no fatal condition is raised. -/
theorem c12_spin_unbounded (hc : HalConf) (sp : Nat → Bool) (d : I2CDriver)
    (hsr : d.id_i2c.SR1 < 65536) (haf : d.id_i2c.SR1 &&& I2C_SR1_AF ≠ 0) :
    (∀ n, (∀ j, j < n → sp j = true) → sp n = false →
      (∃ d', i2c_serve_error_interrupt hc sp (n + 1) d = some d' ∧
        pollCount d'.log = pollCount d.log + (n + 1)) ∧
      ∀ fuel, fuel ≤ n → i2c_serve_error_interrupt hc sp fuel d = none) ∧
    ((∀ j, sp j = true) → ∀ fuel, i2c_serve_error_interrupt hc sp fuel d = none) := by
  refine ⟨fun n hlt hn => ?_, fun hsp fuel => serve_error_spins hc sp d hsr haf hsp fuel⟩
  obtain ⟨d4, f, hstop, hp4, heq⟩ := serve_error_af_eq hc d hsr haf
  obtain ⟨⟨d5, hw, hp5⟩, hnone⟩ := wait_stop_count sp n 0 d4
    (fun j hj => by rw [Nat.zero_add]; exact hlt j hj) (by rw [Nat.zero_add]; exact hn) hstop
  refine ⟨⟨serve_error_rest hc (d5, f), ?_, ?_⟩, fun fuel hf => ?_⟩
  · rw [heq, hw]; rfl
  · obtain ⟨post, hl, hpost, -⟩ := serve_error_rest_log hc (d5, f)
    rw [hl]
    show pollCount (d5.log ++ post) = _
    simp only [pollCount, List.filter_append, List.length_append] at hpost hp5 hp4 ⊢
    omega
  · rw [heq, hnone fuel hf]; rfl

/-- Witness of C12, amended: `SR1` = 0x2501 on entry, the hardware clearing STOP at
the fourth poll: the handler returns after four polls and not with three. -/
theorem c12_spin_unbounded_witness :
    (∃ d', i2c_serve_error_interrupt hc36 (stopAfter 3) 4 errDriver = some d' ∧
      pollCount d'.log = 4) ∧
    i2c_serve_error_interrupt hc36 (stopAfter 3) 3 errDriver = none :=
  have h := (c12_spin_unbounded hc36 (stopAfter 3) errDriver (by decide) (by decide)).1 3
    (by decide) (by decide)
  ⟨h.1, h.2 3 (le_refl 3)⟩

/-! ## LPC214x `serve_interrupt`: the receive service -/

/-- The receive loop guard is true exactly while the FIFO holds a byte. -/
theorem lsr_rbr_full (s : SerialPort) :
    UART_LSR s &&& LSR_RBR_FULL ≠ 0 ↔ s.rxfifo ≠ [] := by
  unfold UART_LSR
  cases h : s.rxfifo with
  | nil =>
    simp only [List.isEmpty_nil, if_true, ne_eq, not_true_eq_false, iff_false, not_not]
    rw [Nat.and_assoc, (by decide : cnot LSR_RBR_FULL &&& LSR_RBR_FULL = 0), Nat.and_zero]
  | cons b t =>
    simp only [List.isEmpty_cons, Bool.false_eq_true, if_false, ne_eq, reduceCtorEq,
      not_false_eq_true, iff_true]
    intro h0
    have : (s.lsr ||| LSR_RBR_FULL) &&& LSR_RBR_FULL
        = (s.lsr &&& LSR_RBR_FULL) ||| LSR_RBR_FULL := by
      rw [Nat.and_comm, Nat.and_or_distrib_left, Nat.and_self, Nat.and_comm]
    rw [this] at h0
    exact absurd ((or_eq_zero_iff _ _).mp h0).2 (by decide)

/-- The receive loop, run for at least as many iterations as the FIFO holds
bytes, empties the FIFO, stores the bytes the input queue has room for, in
order, and raises the overrun flag for each of the others. -/
theorem rx_loop_eq : ∀ (h : List (Fin 256)) (n : Nat) (s : SerialPort),
    s.rxfifo = h → h.length ≤ n →
    rx_loop n s = { s with
      rxfifo := [],
      iqueue := s.iqueue ++ h.take (s.iqsize - s.iqueue.length),
      sd_flags := if s.iqsize - s.iqueue.length < h.length then s.sd_flags ||| SD_OVERRUN_ERROR
        else s.sd_flags,
      log := s.log ++ rx_log (s.iqsize - s.iqueue.length) h } := by
  intro h
  induction h with
  | nil =>
    intro n s hs _
    have hg : ¬ (UART_LSR s &&& LSR_RBR_FULL ≠ 0) := by
      rw [lsr_rbr_full, hs]; exact fun h => h rfl
    cases s
    cases n with
    | zero =>
      simp only at hs
      simp [rx_loop, rx_log, hs]
    | succ m =>
      rw [rx_loop]
      simp only [hg, if_false]
      simp only at hs
      simp [rx_log, hs]
  | cons b t ih =>
    intro n s hs hn
    have hg : UART_LSR s &&& LSR_RBR_FULL ≠ 0 := by
      rw [lsr_rbr_full, hs]; exact List.cons_ne_nil _ _
    cases n with
    | zero => simp at hn
    | succ m =>
      rw [rx_loop]
      simp only [hg, ne_eq, not_false_eq_true, if_true]
      have hm : t.length ≤ m := by simpa using hn
      by_cases hroom : s.iqueue.length < s.iqsize
      · have hput : rx_put s =
            { s with rxfifo := t, iqueue := s.iqueue ++ [b], log := s.log ++ [SdEvent.readRBR b] } := by
          unfold rx_put UART_RBR chIQPutI
          rw [hs]
          simp [hroom, Q_OK]
        rw [hput, ih m _ rfl hm]
        obtain ⟨k, hk⟩ : ∃ k, s.iqsize - s.iqueue.length = k + 1 :=
          ⟨s.iqsize - s.iqueue.length - 1, by omega⟩
        have hk2 : s.iqsize - (s.iqueue.length + 1) = k := by omega
        simp [hk, hk2, rx_log]
      · have hput : rx_put s =
            { s with rxfifo := t, sd_flags := s.sd_flags ||| SD_OVERRUN_ERROR, log := s.log ++ [SdEvent.readRBR b, SdEvent.addFlags SD_OVERRUN_ERROR] } := by
          unfold rx_put UART_RBR chIQPutI sdAddFlagsI
          rw [hs]
          simp [hroom, Q_OK, Q_FULL]
        have hz : s.iqsize - s.iqueue.length = 0 := by omega
        rw [hput, ih m _ rfl hm]
        simp [hz, rx_log, Nat.or_assoc]

theorem rbrReads_rx_log : ∀ (h : List (Fin 256)) (k : Nat), rbrReads (rx_log k h) = h := by
  intro h
  induction h with
  | nil => intro k; cases k <;> rfl
  | cons b t ih =>
    intro k
    cases k with
    | zero => simpa [rx_log, rbrReads] using ih 0
    | succ j => simpa [rx_log, rbrReads] using ih j

theorem sdFlagCalls_rx_log : ∀ (h : List (Fin 256)) (k : Nat),
    sdFlagCalls (rx_log k h) = List.replicate (h.length - k) SD_OVERRUN_ERROR := by
  intro h
  induction h with
  | nil => intro k; cases k <;> simp [rx_log, sdFlagCalls]
  | cons b t ih =>
    intro k
    cases k with
    | zero =>
      have := ih 0
      simp only [Nat.sub_zero] at this
      simp [rx_log, sdFlagCalls, List.replicate_succ]
      simpa [sdFlagCalls] using this
    | succ j =>
      have := ih j
      simp [rx_log, sdFlagCalls]
      simpa [sdFlagCalls] using this

theorem count_ievent_rx_log : ∀ (h : List (Fin 256)) (k : Nat),
    List.count SdEvent.ievent (rx_log k h) = 0 := by
  intro h
  induction h with
  | nil => intro k; cases k <;> rfl
  | cons b t ih =>
    intro k
    cases k with
    | zero => simpa [rx_log] using ih 0
    | succ j => simpa [rx_log] using ih j

/-- The receive service in closed form. -/
theorem rx_service_eq (s : SerialPort) :
    rx_service s = { s with
      rxfifo := [],
      iqueue := s.iqueue ++ s.rxfifo.take (s.iqsize - s.iqueue.length),
      sd_flags := if s.iqsize - s.iqueue.length < s.rxfifo.length
        then s.sd_flags ||| SD_OVERRUN_ERROR else s.sd_flags,
      log := s.log ++ (rx_log (s.iqsize - s.iqueue.length) s.rxfifo ++ [SdEvent.ievent]) } := by
  unfold rx_service
  rw [rx_loop_eq s.rxfifo s.rxfifo.length s rfl (le_refl _)]
  simp [SerialPort.logged]

/-- C14: one RX or timeout service of the LPC214x `serve_interrupt` ends with the
loop guard false, after reading from `UART_RBR` exactly the bytes the hardware
FIFO held, in order; it leaves the FIFO empty and the input queue holding its
former content followed by the first min(|h|, C - |q|) bytes of the FIFO
content h, C being the capacity of the queue.  Capacity 4 and the bytes
[1,2,3,4,5,6] into an empty queue give [1,2,3,4]. -/
theorem c14_rx_drain (p : Nat) (s : SerialPort) :
    serve_cause p IIR_SRC_RX s = rx_service s ∧
    serve_cause p IIR_SRC_TIMEOUT s = rx_service s ∧
    UART_LSR (rx_loop s.rxfifo.length s) &&& LSR_RBR_FULL = 0 ∧
    (∀ n, s.rxfifo.length ≤ n → rx_loop n s = rx_loop s.rxfifo.length s) ∧
    (rx_service s).rxfifo = [] ∧
    (rx_service s).iqueue = s.iqueue ++
      s.rxfifo.take (min s.rxfifo.length (s.iqsize - s.iqueue.length)) ∧
    (∃ ext, (rx_service s).log = s.log ++ ext ∧ rbrReads ext = s.rxfifo) ∧
    (rx_service (mkPort [1, 2, 3, 4, 5, 6] 4 [] [])).iqueue = [1, 2, 3, 4] := by
  have hrx : (IIR_SRC_RX = IIR_SRC_ERROR) = False := by decide
  have hto : (IIR_SRC_TIMEOUT = IIR_SRC_ERROR) = False := by decide
  refine ⟨?_, ?_, ?_, ?_, ?_, ?_, ?_, by decide⟩
  · unfold serve_cause
    simp only [hrx, if_false, or_true, if_true]
  · unfold serve_cause
    simp only [hto, if_false, true_or, if_true]
  · have hg := lsr_rbr_full (rx_loop s.rxfifo.length s)
    rw [rx_loop_eq s.rxfifo s.rxfifo.length s rfl (le_refl _)] at hg ⊢
    exact not_not.mp (fun h => hg.mp h rfl)
  · intro n hn
    rw [rx_loop_eq s.rxfifo n s rfl hn, rx_loop_eq s.rxfifo s.rxfifo.length s rfl (le_refl _)]
  · rw [rx_service_eq]
  · rw [rx_service_eq]
    show s.iqueue ++ _ = _
    congr 1
    rw [List.take_eq_take]
    simp [Nat.min_comm]
  · rw [rx_service_eq]
    refine ⟨_, rfl, ?_⟩
    have h := rbrReads_rx_log s.rxfifo (s.iqsize - s.iqueue.length)
    simp only [rbrReads, List.filterMap_append] at h ⊢
    rw [h]; simp

/-- C15, as stated, fails: with capacity 4, an empty input queue and the bytes
[1,2,3,4,5,6] in the FIFO, one receive service drops two bytes and calls
`sdAddFlagsI(sdp, SD_OVERRUN_ERROR)` twice, not once. -/
theorem c15_counterexample :
    sdFlagCalls (rx_service (mkPort [1, 2, 3, 4, 5, 6] 4 [] [])).log
      = [SD_OVERRUN_ERROR, SD_OVERRUN_ERROR] ∧
    sdFlagCalls (rx_service (mkPort [1, 2, 3, 4, 5, 6] 4 [] [])).log ≠ [SD_OVERRUN_ERROR] := by
  decide

/-- C15, amended: in one receive service the overrun flag is raised once for every
received byte that is dropped because the input queue is full, and not at all
when no byte is dropped: with h the FIFO content, q the queue content and C the
capacity, `sdAddFlagsI(sdp, SD_OVERRUN_ERROR)` is called |h| - (C - |q|) times
and nothing else is flagged; afterwards the flag set carries
`SD_OVERRUN_ERROR` when a byte was dropped and is unchanged otherwise. -/
theorem c15_overrun_per_dropped_byte (s : SerialPort) :
    (∃ ext, (rx_service s).log = s.log ++ ext ∧
      sdFlagCalls ext = List.replicate (s.rxfifo.length - (s.iqsize - s.iqueue.length))
        SD_OVERRUN_ERROR) ∧
    (rx_service s).sd_flags =
      (if s.iqsize - s.iqueue.length < s.rxfifo.length then s.sd_flags ||| SD_OVERRUN_ERROR
        else s.sd_flags) := by
  rw [rx_service_eq]
  refine ⟨⟨_, rfl, ?_⟩, rfl⟩
  have h := sdFlagCalls_rx_log s.rxfifo (s.iqsize - s.iqueue.length)
  simp only [sdFlagCalls, List.filterMap_append] at h ⊢
  rw [h]; simp

/-- C16, as stated, fails: a receive service entered with a non-empty input queue
broadcasts the input event, and so does one that finds the FIFO empty and
leaves the input queue empty. -/
theorem c16_counterexample :
    (mkPort [1] 4 [9] []).iqueue ≠ [] ∧
    List.count SdEvent.ievent (rx_service (mkPort [1] 4 [9] [])).log = 1 ∧
    (rx_service (mkPort [] 4 [] [])).iqueue = [] ∧
    List.count SdEvent.ievent (rx_service (mkPort [] 4 [] [])).log = 1 := by
  decide

/-- C16, amended: every RX or timeout service of the LPC214x `serve_interrupt`
broadcasts the input event exactly once, after the receive loop, whatever the
input queue held before and holds after the service. -/
theorem c16_ievent_every_service (s : SerialPort) :
    ∃ ext, (rx_service s).log = s.log ++ ext ++ [SdEvent.ievent] ∧
      List.count SdEvent.ievent ext = 0 ∧
      List.count SdEvent.ievent (ext ++ [SdEvent.ievent]) = 1 := by
  rw [rx_service_eq]
  refine ⟨rx_log (s.iqsize - s.iqueue.length) s.rxfifo, ?_, count_ievent_rx_log _ _, ?_⟩
  · simp only [List.append_assoc]
  · rw [List.count_append, count_ievent_rx_log]; rfl

/-! ## LPC214x `serve_interrupt`: the transmit service -/

/-- The transmit loop in closed form: entered with the counter at `i` it moves
the first `i` bytes of the output queue to `UART_THR`, or, when the queue holds
fewer, all of them and then clears `IER_THRE` and broadcasts the output
event. -/
theorem tx_preload_eq : ∀ (i : Nat) (s : SerialPort),
    tx_preload i s =
      if s.oqueue.length < i then
        { s with oqueue := [], thr := s.thr ++ s.oqueue.map (fun b => b.val),
                 UART_IER := u32 (s.UART_IER &&& cnot IER_THRE),
                 log := s.log ++ (s.oqueue.map (fun b => SdEvent.writeTHR b.val) ++
                   [SdEvent.writeIER (u32 (s.UART_IER &&& cnot IER_THRE)), SdEvent.oevent]) }
      else
        { s with oqueue := s.oqueue.drop i, thr := s.thr ++ (s.oqueue.take i).map (fun b => b.val),
                 log := s.log ++ (s.oqueue.take i).map (fun b => SdEvent.writeTHR b.val) } := by
  intro i
  induction i with
  | zero =>
    intro s
    cases s
    simp [tx_preload]
  | succ j ih =>
    intro s
    rw [tx_preload]
    cases ho : s.oqueue with
    | nil =>
      cases s
      simp only at ho
      simp [chOQGetI, ho, Q_EMPTY, Q_OK]
    | cons b t =>
      have hnn : ¬ ((b.val : Int) < Q_OK) := by
        unfold Q_OK; omega
      cases s
      simp only at ho
      simp only [chOQGetI, ho, hnn, if_false, Int.toNat_ofNat]
      rw [ih]
      by_cases hlt : t.length < j
      · simp [hlt]
      · simp [hlt]

/-- The `default` clause reads `UART_THR` and `UART_RBR` and throws the values
away: both reads come from the receive buffer, so the two bytes at the head of
the receive FIFO, as far as there are any, are gone, and nothing else changes.
A read that finds the FIFO empty returns zero. -/
theorem default_clear_eq (s : SerialPort) :
    default_clear s =
      { s with rxfifo := s.rxfifo.drop 2,
               log := s.log ++ [SdEvent.readTHR, SdEvent.readRBR (s.rxfifo.headD 0),
                 SdEvent.readRBR (s.rxfifo.tail.headD 0)] } := by
  unfold default_clear UART_RBR SerialPort.logged
  cases s with
  | mk ier lsr rx thr iq cap oq fl lg =>
    cases rx with
    | nil => simp
    | cons a t => cases t <;> simp

theorem take_min_length {α : Type} (p : Nat) (l : List α) :
    l.take (min p l.length) = l.take p := by
  rw [List.take_eq_take]; simp

theorem drop_min_length {α : Type} (p : Nat) (l : List α) :
    l.drop (min p l.length) = l.drop p := by
  by_cases h : p ≤ l.length
  · rw [Nat.min_eq_left h]
  · have h2 : l.length ≤ p := by omega
    rw [Nat.min_eq_right h2, List.drop_length, List.drop_eq_nil_of_le h2]

/-- The transmit clause of the switch, with `UART_FIFO_PRELOAD` positive. -/
theorem serve_cause_tx (p : Nat) (hp : 0 < p) (s : SerialPort) :
    serve_cause p IIR_SRC_TX s = default_clear (tx_preload p s) := by
  have h1 : (IIR_SRC_TX = IIR_SRC_ERROR) = False := by decide
  have h2 : (IIR_SRC_TX = IIR_SRC_TIMEOUT ∨ IIR_SRC_TX = IIR_SRC_RX) = False := by decide
  unfold serve_cause tx_service
  simp only [h1, h2, if_false, if_true, gt_iff_lt, hp]

/-- What one transmit service does to the transmit register and the output
queue. -/
theorem serve_cause_tx_stream (p : Nat) (hp : 0 < p) (s : SerialPort) :
    (serve_cause p IIR_SRC_TX s).thr = s.thr ++ (s.oqueue.take p).map (fun b => b.val) ∧
    (serve_cause p IIR_SRC_TX s).oqueue = s.oqueue.drop p := by
  rw [serve_cause_tx p hp, default_clear_eq, tx_preload_eq]
  by_cases hlt : s.oqueue.length < p
  · have hle : s.oqueue.length ≤ p := by omega
    simp only [hlt, if_true]
    rw [List.take_of_length_le hle, List.drop_eq_nil_of_le hle]
    exact ⟨rfl, rfl⟩
  · simp only [hlt, if_false]
    exact ⟨trivial, trivial⟩

/-- Successive transmit services move the output queue to the transmit register
`p` bytes at a time. -/
theorem serve_cause_tx_iterate (p : Nat) (hp : 0 < p) (s : SerialPort) :
    ∀ k, ((serve_cause p IIR_SRC_TX)^[k] s).thr
        = s.thr ++ (s.oqueue.take (k * p)).map (fun b => b.val) ∧
      ((serve_cause p IIR_SRC_TX)^[k] s).oqueue = s.oqueue.drop (k * p) := by
  intro k
  induction k with
  | zero => simp
  | succ n ih =>
    rw [Function.iterate_succ_apply']
    obtain ⟨h1, h2⟩ := serve_cause_tx_stream p hp ((serve_cause p IIR_SRC_TX)^[n] s)
    rw [h1, h2, ih.1, ih.2]
    constructor
    · rw [List.append_assoc, ← List.map_append, Nat.succ_mul, List.take_add]
    · rw [List.drop_drop, Nat.succ_mul, Nat.add_comm]

/-- After `UART_IER &= ~IER_THRE` the transmit interrupt source is disabled. -/
theorem ier_thre_cleared (x : Nat) : u32 (x &&& cnot IER_THRE) &&& IER_THRE = 0 := by
  have h : u32 (x &&& cnot IER_THRE) = (x &&& cnot IER_THRE) &&& 0xFFFFFFFF := by
    rw [(by decide : (0xFFFFFFFF : Nat) = 2 ^ 32 - 1), Nat.and_pow_two_sub_one_eq_mod]; rfl
  rw [h, Nat.and_assoc, Nat.and_assoc,
    (by decide : cnot IER_THRE &&& (0xFFFFFFFF &&& IER_THRE) = 0), Nat.and_zero]

theorem thrWrites_append (a b : List SdEvent) :
    thrWrites (a ++ b) = thrWrites a ++ thrWrites b := by
  simp only [thrWrites, List.filterMap_append]

theorem thrWrites_map (l : List (Fin 256)) :
    thrWrites (l.map (fun b => SdEvent.writeTHR b.val)) = l.map (fun b => b.val) := by
  induction l with
  | nil => rfl
  | cons a t ih => simpa [thrWrites] using ih

theorem count_oevent_map (l : List (Fin 256)) :
    List.count SdEvent.oevent (l.map (fun b => SdEvent.writeTHR b.val)) = 0 := by
  induction l with
  | nil => rfl
  | cons a t ih => simpa using ih

/-- C17: with `UART_FIFO_PRELOAD` = P > 0, one TX service of the LPC214x
`serve_interrupt` writes to `UART_THR` exactly the first min(P, |o|) bytes of
the output queue content o, in order, and leaves the others queued; it clears
`IER_THRE` and broadcasts the output event, once, exactly when the queue is
found empty during the pass (|o| < P).  Over successive services the queued
bytes appear at the transmit register as the same bytes in the same order. -/
theorem c17_tx_stream (p : Nat) (hp : 0 < p) (s : SerialPort) :
    (serve_cause p IIR_SRC_TX s).thr =
      s.thr ++ (s.oqueue.take (min p s.oqueue.length)).map (fun b => b.val) ∧
    (serve_cause p IIR_SRC_TX s).oqueue = s.oqueue.drop (min p s.oqueue.length) ∧
    (∃ ext, (serve_cause p IIR_SRC_TX s).log = s.log ++ ext ∧
      thrWrites ext = (s.oqueue.take (min p s.oqueue.length)).map (fun b => b.val) ∧
      List.count SdEvent.oevent ext = (if s.oqueue.length < p then 1 else 0)) ∧
    (s.oqueue.length < p →
      (serve_cause p IIR_SRC_TX s).UART_IER = u32 (s.UART_IER &&& cnot IER_THRE) ∧
      (serve_cause p IIR_SRC_TX s).UART_IER &&& IER_THRE = 0) ∧
    (p ≤ s.oqueue.length → (serve_cause p IIR_SRC_TX s).UART_IER = s.UART_IER) ∧
    (∀ k, s.oqueue.length ≤ k * p →
      ((serve_cause p IIR_SRC_TX)^[k] s).thr = s.thr ++ s.oqueue.map (fun b => b.val) ∧
      ((serve_cause p IIR_SRC_TX)^[k] s).oqueue = []) := by
  obtain ⟨h1, h2⟩ := serve_cause_tx_stream p hp s
  refine ⟨by rw [take_min_length]; exact h1, by rw [drop_min_length]; exact h2, ?_, ?_, ?_, ?_⟩
  · rw [serve_cause_tx p hp, default_clear_eq, tx_preload_eq, take_min_length]
    by_cases hlt : s.oqueue.length < p
    · have hle : s.oqueue.length ≤ p := by omega
      simp only [hlt, if_true]
      refine ⟨_, List.append_assoc _ _ _, ?_, ?_⟩
      · rw [List.take_of_length_le hle, thrWrites_append, thrWrites_append, thrWrites_map]
        show _ ++ [] ++ [] = _
        rw [List.append_nil, List.append_nil]
      · rw [List.count_append, List.count_append, count_oevent_map]
        rfl
    · simp only [hlt, if_false]
      refine ⟨_, List.append_assoc _ _ _, ?_, ?_⟩
      · rw [thrWrites_append, thrWrites_map]
        show _ ++ [] = _
        rw [List.append_nil]
      · rw [List.count_append, count_oevent_map]
        rfl
  · intro hlt
    have e : (serve_cause p IIR_SRC_TX s).UART_IER = u32 (s.UART_IER &&& cnot IER_THRE) := by
      rw [serve_cause_tx p hp, default_clear_eq, tx_preload_eq]
      simp only [hlt, if_true]
    exact ⟨e, by rw [e]; exact ier_thre_cleared _⟩
  · intro hle
    have hlt : ¬ s.oqueue.length < p := by omega
    rw [serve_cause_tx p hp, default_clear_eq, tx_preload_eq]
    simp only [hlt, if_false]
  · intro k hk
    obtain ⟨a, b⟩ := serve_cause_tx_iterate p hp s k
    rw [a, b, List.take_of_length_le hk, List.drop_eq_nil_of_le hk]
    exact ⟨rfl, rfl⟩

/-- Witness of C17: `UART_FIFO_PRELOAD` = 4 and the output queue [1,2,3,4,5,6]: the
first service writes [1,2,3,4] and keeps [5,6], two services write the six
bytes in order. -/
theorem c17_tx_stream_witness :
    (serve_cause 4 IIR_SRC_TX (mkPort [] 4 [] [1, 2, 3, 4, 5, 6])).thr = [1, 2, 3, 4] ∧
    (serve_cause 4 IIR_SRC_TX (mkPort [] 4 [] [1, 2, 3, 4, 5, 6])).oqueue = [5, 6] ∧
    ((serve_cause 4 IIR_SRC_TX)^[2] (mkPort [] 4 [] [1, 2, 3, 4, 5, 6])).thr
      = [1, 2, 3, 4, 5, 6] :=
  have h := c17_tx_stream 4 (by decide) (mkPort [] 4 [] [1, 2, 3, 4, 5, 6])
  ⟨h.1.trans (by decide), h.2.1.trans (by decide), (h.2.2.2.2.2 2 (by decide)).1.trans (by decide)⟩

/-! ## LPC214x `serve_interrupt`: the loop -/

/-- A run of `serve_interrupt` over reads none of which shows `IIR_SRC_NONE`
serves them all, in order, and is still in the loop. -/
theorem serve_interrupt_pending (p : Nat) : ∀ (iirs : List Nat) (s : SerialPort),
    (∀ x ∈ iirs, x &&& IIR_SRC_MASK ≠ IIR_SRC_NONE) →
    serve_interrupt p iirs s = (iirs.foldl (serve_step p) s, false) := by
  intro iirs
  induction iirs with
  | nil => intro s _; rfl
  | cons v rest ih =>
    intro s h
    have hv : ¬ v &&& IIR_SRC_MASK = IIR_SRC_NONE := h v (List.mem_cons_self _ _)
    rw [serve_interrupt]
    simp only [hv, if_false, List.foldl_cons]
    exact ih _ (fun x hx => h x (List.mem_cons_of_mem _ hx))

/-- A run of `serve_interrupt` returns at the first read that shows
`IIR_SRC_NONE`, after having served the reads before it, in order. -/
theorem serve_interrupt_returns (p : Nat) : ∀ (pre : List Nat) (v : Nat) (post : List Nat)
    (s : SerialPort), (∀ x ∈ pre, x &&& IIR_SRC_MASK ≠ IIR_SRC_NONE) →
    v &&& IIR_SRC_MASK = IIR_SRC_NONE →
    serve_interrupt p (pre ++ v :: post) s =
      ((pre.foldl (serve_step p) s).logged (SdEvent.readIIR v), true) := by
  intro pre
  induction pre with
  | nil =>
    intro v post s _ hv
    rw [List.nil_append, serve_interrupt]
    simp only [hv, if_true, List.foldl_nil]
  | cons a rest ih =>
    intro v post s h hv
    have ha : ¬ a &&& IIR_SRC_MASK = IIR_SRC_NONE := h a (List.mem_cons_self _ _)
    rw [List.cons_append, serve_interrupt]
    simp only [ha, if_false, List.foldl_cons]
    exact ih v post _ (fun x hx => h x (List.mem_cons_of_mem _ hx)) hv

/-- Every list of reads either shows no `IIR_SRC_NONE` or splits at the first
read that does. -/
theorem split_at_first_none : ∀ (iirs : List Nat),
    (∀ x ∈ iirs, x &&& IIR_SRC_MASK ≠ IIR_SRC_NONE) ∨
    ∃ pre v post, iirs = pre ++ v :: post ∧
      (∀ x ∈ pre, x &&& IIR_SRC_MASK ≠ IIR_SRC_NONE) ∧ v &&& IIR_SRC_MASK = IIR_SRC_NONE := by
  intro iirs
  induction iirs with
  | nil => exact Or.inl (fun x hx => absurd hx (List.not_mem_nil x))
  | cons a rest ih =>
    by_cases ha : a &&& IIR_SRC_MASK = IIR_SRC_NONE
    · exact Or.inr ⟨[], a, rest, rfl, fun x hx => absurd hx (List.not_mem_nil x), ha⟩
    · rcases ih with h | ⟨pre, v, post, e, hp, hv⟩
      · left
        intro x hx
        rcases List.mem_cons.mp hx with rfl | hx
        · exact ha
        · exact h x hx
      · right
        refine ⟨a :: pre, v, post, by rw [e]; rfl, ?_, hv⟩
        intro x hx
        rcases List.mem_cons.mp hx with rfl | hx
        · exact ha
        · exact hp x hx

/-- Both the RX and the timeout clause of `serve_interrupt` are the receive
service. -/
theorem serve_cause_rx (p : Nat) (s : SerialPort) :
    serve_cause p IIR_SRC_RX s = rx_service s ∧
    serve_cause p IIR_SRC_TIMEOUT s = rx_service s := by
  have hrx : (IIR_SRC_RX = IIR_SRC_ERROR) = False := by decide
  have hto : (IIR_SRC_TIMEOUT = IIR_SRC_ERROR) = False := by decide
  constructor
  · unfold serve_cause
    simp only [hrx, if_false, or_true, if_true]
  · unfold serve_cause
    simp only [hto, if_false, true_or, if_true]

/-- C13: the LPC214x `serve_interrupt` returns exactly when a read of `UART_IIR`
shows `IIR_SRC_NONE`, and then immediately after the first such read; every
read before it is served by its clause (error by `set_error`, RX and timeout
by the receive service, TX by the transmit service) before the register is
read again; as long as no read shows `IIR_SRC_NONE` the function stays in its
loop. -/
theorem c13_returns_only_after_none (p : Nat) (iirs : List Nat) (s : SerialPort) :
    ((serve_interrupt p iirs s).2 = true ↔ ∃ v ∈ iirs, v &&& IIR_SRC_MASK = IIR_SRC_NONE) ∧
    (∀ pre v post, iirs = pre ++ v :: post →
      (∀ x ∈ pre, x &&& IIR_SRC_MASK ≠ IIR_SRC_NONE) → v &&& IIR_SRC_MASK = IIR_SRC_NONE →
      serve_interrupt p iirs s =
        ((pre.foldl (serve_step p) s).logged (SdEvent.readIIR v), true)) ∧
    ((∀ x ∈ iirs, x &&& IIR_SRC_MASK ≠ IIR_SRC_NONE) →
      serve_interrupt p iirs s = (iirs.foldl (serve_step p) s, false)) ∧
    (∀ (t : SerialPort) (v : Nat),
      (v &&& IIR_SRC_MASK = IIR_SRC_ERROR → serve_step p t v =
        set_error (UART_LSR (t.logged (SdEvent.readIIR v))) (t.logged (SdEvent.readIIR v))) ∧
      (v &&& IIR_SRC_MASK = IIR_SRC_RX ∨ v &&& IIR_SRC_MASK = IIR_SRC_TIMEOUT →
        serve_step p t v = rx_service (t.logged (SdEvent.readIIR v))) ∧
      (v &&& IIR_SRC_MASK = IIR_SRC_TX → serve_step p t v =
        default_clear (tx_service p (t.logged (SdEvent.readIIR v))))) := by
  refine ⟨?_, ?_, serve_interrupt_pending p iirs s, ?_⟩
  · constructor
    · intro h
      rcases split_at_first_none iirs with hn | ⟨pre, v, post, e, -, hv⟩
      · rw [serve_interrupt_pending p iirs s hn] at h
        cases h
      · exact ⟨v, by rw [e]; simp, hv⟩
    · rintro ⟨v, hv, hnone⟩
      rcases split_at_first_none iirs with hn | ⟨pre, w, post, e, hp, hw⟩
      · exact absurd hnone (hn v hv)
      · rw [e, serve_interrupt_returns p pre w post s hp hw]
  · intro pre v post e hp hv
    rw [e]
    exact serve_interrupt_returns p pre v post s hp hv
  · intro t v
    refine ⟨fun h => ?_, fun h => ?_, fun h => ?_⟩
    · unfold serve_step serve_cause
      simp only [h, if_true]
    · unfold serve_step
      rcases h with h | h
      · rw [h]; exact (serve_cause_rx p _).1
      · rw [h]; exact (serve_cause_rx p _).2
    · unfold serve_step serve_cause
      rw [h]
      simp only [(by decide : (IIR_SRC_TX = IIR_SRC_ERROR) = False),
        (by decide : (IIR_SRC_TX = IIR_SRC_TIMEOUT ∨ IIR_SRC_TX = IIR_SRC_RX) = False),
        if_false, if_true]

/-! ## LPC214x `serve_interrupt`: what becomes of the received bytes -/

theorem rbrReads_append (a b : List SdEvent) : rbrReads (a ++ b) = rbrReads a ++ rbrReads b := by
  unfold rbrReads
  exact List.filterMap_append _ _ _

/-- A step that takes nothing from the receive FIFO, leaves the input queue alone
and keeps the overrun flag accounts for the received bytes. -/
theorem accounted_of_same (s r : SerialPort) (ext : List SdEvent)
    (hfifo : r.rxfifo = s.rxfifo) (hq : r.iqueue = s.iqueue) (hsz : r.iqsize = s.iqsize)
    (hlog : r.log = s.log ++ ext) (hreads : rbrReads ext = [])
    (hf : s.sd_flags &&& SD_OVERRUN_ERROR ≠ 0 → r.sd_flags &&& SD_OVERRUN_ERROR ≠ 0) :
    Accounted s r := by
  refine ⟨[], ext, ?_, hlog, hreads, hsz, ?_, ?_, hf⟩
  · rw [hfifo]; rfl
  · rw [hq]; simp
  · intro h; simp at h

theorem accounted_trans (s m r : SerialPort) (h1 : Accounted s m) (h2 : Accounted m r) :
    Accounted s r := by
  obtain ⟨c1, e1, hf1, hl1, hr1, hs1, hq1, ho1, hm1⟩ := h1
  obtain ⟨c2, e2, hf2, hl2, hr2, hs2, hq2, ho2, hm2⟩ := h2
  refine ⟨c1 ++ c2, e1 ++ e2, ?_, ?_, ?_, ?_, ?_, ?_, fun h => hm2 (hm1 h)⟩
  · rw [hf1, hf2, List.append_assoc]
  · rw [hl2, hl1, List.append_assoc]
  · rw [rbrReads_append, hr1, hr2]
  · rw [hs2, hs1]
  · rw [hq2, hq1, hs1, List.take_append_eq_append_take, List.append_assoc, List.length_append,
      List.length_take]
    congr 2
    congr 1
    omega
  · intro h
    rw [List.length_append] at h
    by_cases hc : s.iqsize - s.iqueue.length < c1.length
    · exact hm2 (ho1 hc)
    · apply ho2
      rw [hq1, hs1, List.length_append, List.length_take]
      omega

theorem ovr_kept (f m : Nat) (h : f &&& SD_OVERRUN_ERROR ≠ 0) :
    (f ||| m) &&& SD_OVERRUN_ERROR ≠ 0 := by
  intro h0
  rw [Nat.and_comm, Nat.and_or_distrib_left] at h0
  rw [Nat.and_comm] at h
  exact h ((or_eq_zero_iff _ _).mp h0).1

theorem ovr_set (f : Nat) : (f ||| SD_OVERRUN_ERROR) &&& SD_OVERRUN_ERROR ≠ 0 := by
  intro h0
  rw [Nat.and_comm, Nat.and_or_distrib_left] at h0
  have h := ((or_eq_zero_iff _ _).mp h0).2
  revert h
  decide

theorem accounted_logged (s : SerialPort) (v : Nat) :
    Accounted s (s.logged (SdEvent.readIIR v)) :=
  accounted_of_same s _ [SdEvent.readIIR v] rfl rfl rfl rfl rfl (fun h => h)

theorem accounted_set_error (err : Nat) (s : SerialPort) : Accounted s (set_error err s) := by
  unfold set_error sdAddFlagsI
  exact accounted_of_same s _ _ rfl rfl rfl rfl rfl (fun h => ovr_kept _ _ h)

theorem accounted_rx_service (s : SerialPort) : Accounted s (rx_service s) := by
  rw [rx_service_eq]
  refine ⟨s.rxfifo, _, ?_, rfl, ?_, rfl, rfl, ?_, ?_⟩
  · simp
  · rw [rbrReads_append, rbrReads_rx_log]; simp [rbrReads]
  · intro h
    simp only [h, if_true]
    exact ovr_set _
  · intro h
    show (if _ then _ else _) &&& SD_OVERRUN_ERROR ≠ 0
    split
    · exact ovr_set _
    · exact h

/-- The sources whose clause in `serve_interrupt` deals with received
bytes or reports a line error. -/
theorem accounted_step (p : Nat) (s : SerialPort) (v : Nat)
    (h : v &&& IIR_SRC_MASK = IIR_SRC_ERROR ∨ v &&& IIR_SRC_MASK = IIR_SRC_RX ∨
      v &&& IIR_SRC_MASK = IIR_SRC_TIMEOUT) :
    Accounted s (serve_step p s v) := by
  apply accounted_trans s _ _ (accounted_logged s v)
  unfold serve_step
  rcases h with h | h | h
  · unfold serve_cause
    simp only [h, if_true]
    exact accounted_set_error _ _
  · rw [h, (serve_cause_rx p _).1]; exact accounted_rx_service _
  · rw [h, (serve_cause_rx p _).2]; exact accounted_rx_service _

theorem accounted_run (p : Nat) : ∀ (iirs : List Nat) (s : SerialPort),
    (∀ v ∈ iirs, v &&& IIR_SRC_MASK = IIR_SRC_NONE ∨ v &&& IIR_SRC_MASK = IIR_SRC_ERROR ∨
      v &&& IIR_SRC_MASK = IIR_SRC_RX ∨ v &&& IIR_SRC_MASK = IIR_SRC_TIMEOUT) →
    Accounted s (serve_interrupt p iirs s).1 := by
  intro iirs
  induction iirs with
  | nil =>
    intro s _
    exact accounted_of_same s _ [] rfl rfl rfl (List.append_nil _).symm rfl (fun h => h)
  | cons v rest ih =>
    intro s h
    rw [serve_interrupt]
    by_cases hv : v &&& IIR_SRC_MASK = IIR_SRC_NONE
    · simp only [hv, if_true]
      exact accounted_logged s v
    · simp only [hv, if_false]
      have hstep : Accounted s (serve_step p s v) := by
        apply accounted_step
        rcases h v (List.mem_cons_self _ _) with h1 | h1
        · exact absurd h1 hv
        · exact h1
      exact accounted_trans s _ _ hstep (ih _ (fun x hx => h x (List.mem_cons_of_mem _ hx)))

/-- The clause of an unrecognised source is the `default` clause. -/
theorem serve_cause_default (p src : Nat) (s : SerialPort) (h1 : src ≠ IIR_SRC_ERROR)
    (h2 : src ≠ IIR_SRC_TIMEOUT) (h3 : src ≠ IIR_SRC_RX) (h4 : src ≠ IIR_SRC_TX) :
    serve_cause p src s = default_clear s := by
  unfold serve_cause
  simp only [h1, h2, h3, h4, if_false, or_self]

theorem sdFlagCalls_append (a b : List SdEvent) :
    sdFlagCalls (a ++ b) = sdFlagCalls a ++ sdFlagCalls b := by
  unfold sdFlagCalls
  exact List.filterMap_append _ _ _

theorem rbrReads_map_writeTHR (l : List (Fin 256)) :
    rbrReads (l.map (fun b => SdEvent.writeTHR b.val)) = [] := by
  induction l with
  | nil => rfl
  | cons a t ih => simp [rbrReads]

theorem sdFlagCalls_map_writeTHR (l : List (Fin 256)) :
    sdFlagCalls (l.map (fun b => SdEvent.writeTHR b.val)) = [] := by
  induction l with
  | nil => rfl
  | cons a t ih => simp [sdFlagCalls]

/-- The transmit clause of the switch runs into the `default` clause, for
every value of `UART_FIFO_PRELOAD`. -/
theorem serve_cause_tx_falls (p : Nat) (s : SerialPort) :
    serve_cause p IIR_SRC_TX s = default_clear (tx_service p s) := by
  have h1 : (IIR_SRC_TX = IIR_SRC_ERROR) = False := by decide
  have h2 : (IIR_SRC_TX = IIR_SRC_TIMEOUT ∨ IIR_SRC_TX = IIR_SRC_RX) = False := by decide
  unfold serve_cause
  simp only [h1, h2, if_false, if_true]

/-- The transmit block itself leaves the receive side alone: it takes nothing
from the receive FIFO, stores nothing in the input queue and raises no flag. -/
theorem tx_service_frame (p : Nat) (s : SerialPort) :
    (tx_service p s).rxfifo = s.rxfifo ∧ (tx_service p s).iqueue = s.iqueue ∧
    (tx_service p s).sd_flags = s.sd_flags ∧ (tx_service p s).iqsize = s.iqsize ∧
    ∃ ext, (tx_service p s).log = s.log ++ ext ∧ rbrReads ext = [] ∧ sdFlagCalls ext = [] := by
  by_cases hp : p > 0
  · unfold tx_service
    simp only [hp, if_true]
    rw [tx_preload_eq]
    by_cases hlt : s.oqueue.length < p
    · rw [if_pos hlt]
      refine ⟨rfl, rfl, rfl, rfl, _, rfl, ?_, ?_⟩
      · rw [rbrReads_append, rbrReads_map_writeTHR]; rfl
      · rw [sdFlagCalls_append, sdFlagCalls_map_writeTHR]; rfl
    · rw [if_neg hlt]
      exact ⟨rfl, rfl, rfl, rfl, _, rfl, rbrReads_map_writeTHR _, sdFlagCalls_map_writeTHR _⟩
  · unfold tx_service sdRequestDataI chOQGetI SerialPort.logged
    simp only [hp, if_false]
    cases ho : s.oqueue with
    | nil =>
      have hq : Q_EMPTY < Q_OK := by decide
      simp only [hq, if_true, List.append_assoc]
      exact ⟨trivial, trivial, trivial, trivial, _, rfl, rfl, rfl⟩
    | cons b t =>
      have hnn : ¬ ((b.val : Int) < Q_OK) := by unfold Q_OK; omega
      simp only [hnn, if_false]
      exact ⟨trivial, trivial, trivial, trivial, _, rfl, rfl, rfl⟩

/-- C18: the transmit clause of the LPC214x `serve_interrupt` has no `break`
after its block and runs into the `default` clause, whose two reads both come
from the receive buffer.  So every TX service takes the two bytes at the head
of the receive FIFO, as far as there are any, and throws them away: nothing is
stored in the input queue and no flag is raised.  With a byte in the FIFO and
room in the queue the received bytes are then not accounted for. -/
theorem c18_tx_service_discards (p : Nat) (s : SerialPort) :
    serve_cause p IIR_SRC_TX s = default_clear (tx_service p s) ∧
    (serve_cause p IIR_SRC_TX s).rxfifo = s.rxfifo.drop 2 ∧
    (serve_cause p IIR_SRC_TX s).iqueue = s.iqueue ∧
    (serve_cause p IIR_SRC_TX s).sd_flags = s.sd_flags ∧
    (∃ ext, (serve_cause p IIR_SRC_TX s).log = s.log ++ ext ∧
      rbrReads ext = [s.rxfifo.headD 0, s.rxfifo.tail.headD 0] ∧ sdFlagCalls ext = []) ∧
    (s.rxfifo ≠ [] → s.iqueue.length < s.iqsize →
      ¬ Accounted s (serve_cause p IIR_SRC_TX s)) := by
  obtain ⟨hrx, hiq, hfl, -, ext, hlog, hreads, hcalls⟩ := tx_service_frame p s
  have hfall := serve_cause_tx_falls p s
  have hr : (serve_cause p IIR_SRC_TX s).rxfifo = s.rxfifo.drop 2 := by
    rw [hfall, default_clear_eq, ← hrx]
  have hq : (serve_cause p IIR_SRC_TX s).iqueue = s.iqueue := by
    rw [hfall, default_clear_eq, ← hiq]
  refine ⟨hfall, hr, hq, ?_, ?_, ?_⟩
  · rw [hfall, default_clear_eq, ← hfl]
  · refine ⟨ext ++ [SdEvent.readTHR, SdEvent.readRBR (s.rxfifo.headD 0),
      SdEvent.readRBR (s.rxfifo.tail.headD 0)], ?_, ?_, ?_⟩
    · rw [hfall, default_clear_eq]
      show (tx_service p s).log ++ _ = _
      rw [hlog, hrx, List.append_assoc]
    · rw [rbrReads_append, hreads]; rfl
    · rw [sdFlagCalls_append, hcalls]; rfl
  · rintro hne hroom ⟨c, e, hf, -, -, -, hiq', -, -⟩
    rw [hr] at hf
    rw [hq] at hiq'
    have hlen := congrArg List.length hf
    have hlen' := congrArg List.length hiq'
    rw [List.length_append, List.length_drop] at hlen
    rw [List.length_append, List.length_take] at hlen'
    have hpos : 0 < s.rxfifo.length := List.length_pos.mpr hne
    omega

/-- Witness of C18: `UART_IIR` reads 0x02 (TX) and then 0x01 (none), with the
bytes 0x41 and 0x42 in the receive FIFO, an empty input queue of capacity 4
and 0x55 in the output queue.  The run returns with 0x55 transmitted, the
receive FIFO empty, the input queue still empty and no flag raised. -/
theorem c18_tx_service_discards_witness :
    (serve_cause 4 IIR_SRC_TX (mkPort [0x41, 0x42] 4 [] [0x55])).rxfifo = [] ∧
    (serve_cause 4 IIR_SRC_TX (mkPort [0x41, 0x42] 4 [] [0x55])).iqueue = [] ∧
    ¬ Accounted (mkPort [0x41, 0x42] 4 [] [0x55])
      (serve_cause 4 IIR_SRC_TX (mkPort [0x41, 0x42] 4 [] [0x55])) ∧
    (serve_interrupt 4 [0x02, 0x01] (mkPort [0x41, 0x42] 4 [] [0x55])).2 = true ∧
    (serve_interrupt 4 [0x02, 0x01] (mkPort [0x41, 0x42] 4 [] [0x55])).1.thr = [0x55] ∧
    rbrReads (serve_interrupt 4 [0x02, 0x01] (mkPort [0x41, 0x42] 4 [] [0x55])).1.log
      = [0x41, 0x42] ∧
    (serve_interrupt 4 [0x02, 0x01] (mkPort [0x41, 0x42] 4 [] [0x55])).1.rxfifo = [] ∧
    (serve_interrupt 4 [0x02, 0x01] (mkPort [0x41, 0x42] 4 [] [0x55])).1.iqueue = [] ∧
    (serve_interrupt 4 [0x02, 0x01] (mkPort [0x41, 0x42] 4 [] [0x55])).1.sd_flags = 0 ∧
    sdFlagCalls (serve_interrupt 4 [0x02, 0x01] (mkPort [0x41, 0x42] 4 [] [0x55])).1.log = [] :=
  have h := c18_tx_service_discards 4 (mkPort [0x41, 0x42] 4 [] [0x55])
  ⟨h.2.1, h.2.2.1, h.2.2.2.2.2 (by decide) (by decide), by decide, by decide, by decide,
    by decide, by decide, by decide, by decide⟩

/-! ## `i2c_lld_start` -/

theorem wr_ext (r : Reg) (v : Nat) (d : I2CDriver) :
    (wr r v d).log = d.log ++ [Event.write r (u16 v) d.id_i2c.CR1] ∧
    (wr r v d).id_state = d.id_state := ⟨rfl, rfl⟩

theorem ext_refl (d : I2CDriver) : ∃ ext, d.log = d.log ++ ext :=
  ⟨[], (List.append_nil _).symm⟩

theorem ext_wr (l : List Event) (d' : I2CDriver) (r : Reg) (v : Nat)
    (h : ∃ ext, d'.log = l ++ ext) : ∃ ext, (wr r v d').log = l ++ ext := by
  obtain ⟨e, he⟩ := h
  exact ⟨e ++ [Event.write r (u16 v) d'.id_i2c.CR1], by
    rw [(wr_ext r v d').1, he, List.append_assoc]⟩

theorem ext_prologue (hc : HalConf) (d : I2CDriver) :
    ∃ ext, (set_clock_prologue hc d).log = d.log ++ ext := by
  unfold set_clock_prologue
  exact ext_wr _ _ _ _ (ext_wr _ _ _ _ (ext_refl d))

/-- The clock setup only appends to the log and leaves the driver state
alone. -/
theorem set_clock_ext (hc : HalConf) (d : I2CDriver) :
    (∃ ext, (i2c_lld_set_clock hc d).drv.log = d.log ++ ext) ∧
    (i2c_lld_set_clock hc d).drv.id_state = d.id_state := by
  rcases set_clock_cases hc d with h | h | h | h | ⟨t, h⟩ | ⟨t, c, h⟩ | h
  · rw [h.2]; exact ⟨ext_refl d, rfl⟩
  · rw [h.2]; exact ⟨ext_refl d, rfl⟩
  · rw [h.2]; exact ⟨ext_prologue hc d, rfl⟩
  · rw [h.2]; exact ⟨ext_prologue hc d, rfl⟩
  · rw [h.2]; exact ⟨ext_wr _ _ _ _ (ext_prologue hc d), rfl⟩
  · rw [h.2]
    unfold set_clock_epilogue
    exact ⟨ext_wr _ _ _ _ (ext_wr _ _ _ _ (ext_wr _ _ _ _ (ext_prologue hc d))), rfl⟩
  · rw [h.2]
    unfold set_clock_epilogue
    exact ⟨ext_wr _ _ _ _ (ext_wr _ _ _ _ (ext_prologue hc d)), rfl⟩

/-- What `start_configure` does to the system. -/
theorem start_configure_spec (hc : HalConf) (y : I2CSystem) :
    (start_configure hc y).out =
      (match (i2c_lld_set_clock hc (wr .CR1 0 (wr .CR1 I2C_CR1_SWRST y.drv))).out with
        | .returned => StartOutcome.returned
        | .halted f => StartOutcome.halted (.set_clock f)) ∧
    (start_configure hc y).sys.rx_owner = y.rx_owner ∧
    (start_configure hc y).sys.tx_owner = y.tx_owner ∧
    (start_configure hc y).sys.clock_on = y.clock_on ∧
    (start_configure hc y).sys.ev_vector = y.ev_vector ∧
    (start_configure hc y).sys.er_vector = y.er_vector ∧
    (start_configure hc y).sys.op_mode = y.op_mode ∧
    (start_configure hc y).sys.syslog = y.syslog ++
      [SysEvent.dmaSetPeripheral .dmarx, SysEvent.dmaSetPeripheral .dmatx] ∧
    (start_configure hc y).sys.rx_par = .I2C_DR ∧
    (start_configure hc y).sys.tx_par = .I2C_DR ∧
    (start_configure hc y).sys.dmamode =
      y.dmamode ||| (STM32_DMA_CR_PSIZE_BYTE ||| STM32_DMA_CR_MSIZE_BYTE) ∧
    (∃ ext, (start_configure hc y).sys.drv.log = y.drv.log ++
      [Event.write .CR1 I2C_CR1_SWRST y.drv.id_i2c.CR1, Event.write .CR1 0 I2C_CR1_SWRST]
      ++ ext) ∧
    (start_configure hc y).sys.drv.id_state = y.drv.id_state := by
  obtain ⟨⟨ext, hlog⟩, hst⟩ := set_clock_ext hc (wr .CR1 0 (wr .CR1 I2C_CR1_SWRST y.drv))
  have hpre : (wr .CR1 0 (wr .CR1 I2C_CR1_SWRST y.drv)).log = y.drv.log ++
      [Event.write .CR1 I2C_CR1_SWRST y.drv.id_i2c.CR1, Event.write .CR1 0 I2C_CR1_SWRST] := by
    simp only [wr, List.append_assoc, I2C_TypeDef.store]
    rfl
  unfold start_configure
  cases hout : (i2c_lld_set_clock hc (wr .CR1 0 (wr .CR1 I2C_CR1_SWRST y.drv))).out with
  | returned =>
    simp only [dmaStreamSetPeripheral, hout]
    refine ⟨trivial, trivial, trivial, trivial, trivial, trivial, trivial,
      List.append_assoc _ _ _, trivial, trivial, trivial, ?_, hst⟩
    unfold i2c_lld_set_opmode
    exact ext_wr _ _ _ _ (ext_wr _ _ _ _ ⟨ext, by rw [hlog, hpre]⟩)
  | halted f =>
    simp only [dmaStreamSetPeripheral, hout]
    exact ⟨trivial, trivial, trivial, trivial, trivial, trivial, trivial,
      List.append_assoc _ _ _, trivial, trivial, trivial, ⟨ext, by rw [hlog, hpre]⟩, hst⟩

/-- In state `I2C_STOP` with the stream `dmarx` taken, `i2c_lld_start` halts at
assertion #3. -/
theorem start_rx_taken (hc : HalConf) (prio : Nat) (y : I2CSystem)
    (h : y.drv.id_state = .I2C_STOP) (hrx : y.rx_owner ≠ .free) :
    i2c_lld_start hc prio y =
      ⟨{ y with dmamode := STM32_DMA_CR_DMEIE ||| STM32_DMA_CR_TEIE,
                syslog := y.syslog ++ [SysEvent.dmaAllocate .dmarx true] },
        .halted .assert3⟩ := by
  unfold i2c_lld_start start_acquire dmaStreamAllocate
  simp only [h, hrx, if_true, if_false]

/-- In state `I2C_STOP` with the stream `dmarx` free and the stream `dmatx`
taken, `i2c_lld_start` halts at assertion #4 holding `dmarx`. -/
theorem start_tx_taken (hc : HalConf) (prio : Nat) (y : I2CSystem)
    (h : y.drv.id_state = .I2C_STOP) (hrx : y.rx_owner = .free) (htx : y.tx_owner ≠ .free) :
    i2c_lld_start hc prio y =
      ⟨{ y with dmamode := STM32_DMA_CR_DMEIE ||| STM32_DMA_CR_TEIE,
                rx_owner := .driver,
                syslog := y.syslog ++
                  [SysEvent.dmaAllocate .dmarx false, SysEvent.dmaAllocate .dmatx true] },
        .halted .assert4⟩ := by
  unfold i2c_lld_start start_acquire dmaStreamAllocate
  simp only [h, hrx, htx, if_true, if_false, List.append_assoc, Bool.false_eq_true]
  rfl

/-- In state `I2C_STOP` with both streams free, `i2c_lld_start` takes both,
opens the clock gate, enables both vectors and goes on to its second half. -/
theorem start_both_free (hc : HalConf) (prio : Nat) (y : I2CSystem)
    (h : y.drv.id_state = .I2C_STOP) (hrx : y.rx_owner = .free) (htx : y.tx_owner = .free) :
    i2c_lld_start hc prio y =
      start_configure hc { y with
        dmamode := (STM32_DMA_CR_DMEIE ||| STM32_DMA_CR_TEIE) |||
          (STM32_DMA_CR_CHSEL 7 ||| STM32_DMA_CR_PL prio),
        rx_owner := .driver, tx_owner := .driver,
        clock_on := true, ev_vector := true, er_vector := true,
        syslog := y.syslog ++ [SysEvent.dmaAllocate .dmarx false,
          SysEvent.dmaAllocate .dmatx false, SysEvent.rccEnableI2C2,
          SysEvent.nvicEnable .I2C2_EV_IRQn, SysEvent.nvicEnable .I2C2_ER_IRQn] } := by
  unfold i2c_lld_start start_acquire dmaStreamAllocate rccEnableI2C2 NVICEnableVector
  simp only [h, hrx, htx, if_true, List.append_assoc, Bool.false_eq_true, if_false]
  rfl

/-- The outcome of `start_configure` is never one of the two stream
assertions. -/
theorem start_configure_out (hc : HalConf) (y : I2CSystem) :
    (start_configure hc y).out ≠ .halted .assert3 ∧
    (start_configure hc y).out ≠ .halted .assert4 ∧
    ((i2c_lld_set_clock hc (wr .CR1 0 (wr .CR1 I2C_CR1_SWRST y.drv))).out = .returned →
      (start_configure hc y).out = .returned) ∧
    (∀ f, (i2c_lld_set_clock hc (wr .CR1 0 (wr .CR1 I2C_CR1_SWRST y.drv))).out = .halted f →
      (start_configure hc y).out = .halted (.set_clock f)) := by
  have h := (start_configure_spec hc y).1
  cases hout : (i2c_lld_set_clock hc (wr .CR1 0 (wr .CR1 I2C_CR1_SWRST y.drv))).out with
  | returned =>
    rw [hout] at h
    refine ⟨?_, ?_, ?_, ?_⟩
    · rw [h]; intro e; cases e
    · rw [h]; intro e; cases e
    · intro _; exact h
    · intro f hf; cases hf
  | halted g =>
    rw [hout] at h
    refine ⟨?_, ?_, ?_, ?_⟩
    · rw [h]; intro e; cases e
    · rw [h]; intro e; cases e
    · intro hf; cases hf
    · intro f hf
      cases hf
      exact h

/-- C20, counterexample: started from `I2C_STOP` with the stream `dmarx` free and
the stream `dmatx` held by another driver, `i2c_lld_start` halts at its
assertion #4 and the stream `dmarx`, free before the call, is left allocated
to the driver. -/
theorem c20_counterexample :
    (stoppedSys .free .other).drv.id_state = .I2C_STOP ∧
    (stoppedSys .free .other).rx_owner = .free ∧
    (i2c_lld_start hc36 2 (stoppedSys .free .other)).out = .halted .assert4 ∧
    (i2c_lld_start hc36 2 (stoppedSys .free .other)).sys.rx_owner = .driver := by
  decide

/-- C20, amended: `i2c_lld_start` called in state `I2C_STOP` takes the stream
`dmarx` and then the stream `dmatx`, each only if it is free.  If `dmarx` is
taken it halts at assertion #3 with nothing changed but `dmamode`.  If `dmarx`
is free and `dmatx` is taken it halts at assertion #4: `dmarx` stays allocated
to the driver, and nothing else has changed but `dmamode`: the clock gate is
not opened, no vector of I2C2 is enabled, no I2C register is written and no
peripheral address is set.  If both are free, both are taken, the clock gate
is opened and both vectors are enabled before any register is written. -/
theorem c20_stream_acquisition (hc : HalConf) (prio : Nat) (y : I2CSystem)
    (h : y.drv.id_state = .I2C_STOP) :
    (y.rx_owner ≠ .free →
      i2c_lld_start hc prio y =
        ⟨{ y with dmamode := STM32_DMA_CR_DMEIE ||| STM32_DMA_CR_TEIE,
                  syslog := y.syslog ++ [SysEvent.dmaAllocate .dmarx true] },
          .halted .assert3⟩) ∧
    (y.rx_owner = .free → y.tx_owner ≠ .free →
      i2c_lld_start hc prio y =
        ⟨{ y with dmamode := STM32_DMA_CR_DMEIE ||| STM32_DMA_CR_TEIE,
                  rx_owner := .driver,
                  syslog := y.syslog ++
                    [SysEvent.dmaAllocate .dmarx false, SysEvent.dmaAllocate .dmatx true] },
          .halted .assert4⟩) ∧
    (y.rx_owner = .free → y.tx_owner = .free →
      (i2c_lld_start hc prio y).out ≠ .halted .assert3 ∧
      (i2c_lld_start hc prio y).out ≠ .halted .assert4 ∧
      (i2c_lld_start hc prio y).sys.rx_owner = .driver ∧
      (i2c_lld_start hc prio y).sys.tx_owner = .driver ∧
      (i2c_lld_start hc prio y).sys.clock_on = true ∧
      (i2c_lld_start hc prio y).sys.ev_vector = true ∧
      (i2c_lld_start hc prio y).sys.er_vector = true ∧
      (i2c_lld_start hc prio y).sys.syslog = y.syslog ++
        [SysEvent.dmaAllocate .dmarx false, SysEvent.dmaAllocate .dmatx false,
         SysEvent.rccEnableI2C2, SysEvent.nvicEnable .I2C2_EV_IRQn,
         SysEvent.nvicEnable .I2C2_ER_IRQn, SysEvent.dmaSetPeripheral .dmarx,
         SysEvent.dmaSetPeripheral .dmatx]) := by
  refine ⟨start_rx_taken hc prio y h, start_tx_taken hc prio y h, ?_⟩
  intro hrx htx
  rw [start_both_free hc prio y h hrx htx]
  obtain ⟨-, h2, h3, h4, h5, h6, -, h8, -⟩ := start_configure_spec hc { y with
        dmamode := (STM32_DMA_CR_DMEIE ||| STM32_DMA_CR_TEIE) |||
          (STM32_DMA_CR_CHSEL 7 ||| STM32_DMA_CR_PL prio),
        rx_owner := .driver, tx_owner := .driver,
        clock_on := true, ev_vector := true, er_vector := true,
        syslog := y.syslog ++ [SysEvent.dmaAllocate .dmarx false,
          SysEvent.dmaAllocate .dmatx false, SysEvent.rccEnableI2C2,
          SysEvent.nvicEnable .I2C2_EV_IRQn, SysEvent.nvicEnable .I2C2_ER_IRQn] }
  obtain ⟨o1, o2, -⟩ := start_configure_out hc { y with
        dmamode := (STM32_DMA_CR_DMEIE ||| STM32_DMA_CR_TEIE) |||
          (STM32_DMA_CR_CHSEL 7 ||| STM32_DMA_CR_PL prio),
        rx_owner := .driver, tx_owner := .driver,
        clock_on := true, ev_vector := true, er_vector := true,
        syslog := y.syslog ++ [SysEvent.dmaAllocate .dmarx false,
          SysEvent.dmaAllocate .dmatx false, SysEvent.rccEnableI2C2,
          SysEvent.nvicEnable .I2C2_EV_IRQn, SysEvent.nvicEnable .I2C2_ER_IRQn] }
  refine ⟨o1, o2, h2, h3, h4, h5, h6, ?_⟩
  rw [h8]
  simp only [List.append_assoc, List.cons_append, List.nil_append]

theorem c20_stream_acquisition_witness :
    (stoppedSys .free .other).drv.id_state = .I2C_STOP ∧
    (stoppedSys .free .other).rx_owner = .free ∧
    (stoppedSys .free .other).tx_owner ≠ .free ∧
    i2c_lld_start hc36 2 (stoppedSys .free .other) =
      ⟨{ stoppedSys .free .other with
          dmamode := STM32_DMA_CR_DMEIE ||| STM32_DMA_CR_TEIE,
          rx_owner := .driver,
          syslog := (stoppedSys .free .other).syslog ++
            [SysEvent.dmaAllocate .dmarx false, SysEvent.dmaAllocate .dmatx true] },
        .halted .assert4⟩ :=
  ⟨by decide, by decide, by decide,
    (c20_stream_acquisition hc36 2 (stoppedSys .free .other) (by decide)).2.1
      (by decide) (by decide)⟩

/-! ## `i2c_lld_stop` -/

/-- In state `I2C_READY` the function `i2c_lld_stop` disables the event vector,
then the error vector, then closes the clock gate, and sets the state. -/
theorem stop_ready (y : I2CSystem) (h : y.drv.id_state = .I2C_READY) :
    i2c_lld_stop y =
      { y with drv := { y.drv with id_state := .I2C_STOP },
               clock_on := false, ev_vector := false, er_vector := false,
               syslog := y.syslog ++ [SysEvent.nvicDisable .I2C2_EV_IRQn,
                 SysEvent.nvicDisable .I2C2_ER_IRQn, SysEvent.rccDisableI2C2] } := by
  unfold i2c_lld_stop
  simp only [h, if_true, NVICDisableVector, rccDisableI2C2, List.append_assoc]
  rfl

/-- Outside `I2C_READY` the function `i2c_lld_stop` only sets the state. -/
theorem stop_not_ready (y : I2CSystem) (h : y.drv.id_state ≠ .I2C_READY) :
    i2c_lld_stop y = { y with drv := { y.drv with id_state := .I2C_STOP } } := by
  unfold i2c_lld_stop
  simp only [h, if_false]

theorem stop_state (y : I2CSystem) : (i2c_lld_stop y).drv.id_state = .I2C_STOP := rfl

/-- C21: `i2c_lld_stop` is idempotent: for every driver and hardware state two
consecutive calls leave the state, the log of hardware operations included,
that one call leaves; a call made with `id_state` = `I2C_STOP` changes nothing
at all, so it performs no vector, clock or register operation, and the state
after any call is `I2C_STOP`. -/
theorem c21_stop_idempotent (y : I2CSystem) :
    i2c_lld_stop (i2c_lld_stop y) = i2c_lld_stop y ∧
    (y.drv.id_state = .I2C_STOP → i2c_lld_stop y = y) ∧
    (i2c_lld_stop (i2c_lld_stop y)).syslog = (i2c_lld_stop y).syslog ∧
    (i2c_lld_stop (i2c_lld_stop y)).drv.log = (i2c_lld_stop y).drv.log ∧
    (i2c_lld_stop y).drv.id_state = .I2C_STOP := by
  have hstop : ∀ z : I2CSystem, z.drv.id_state = .I2C_STOP → i2c_lld_stop z = z := by
    intro z hz
    rw [stop_not_ready z (by rw [hz]; decide)]
    cases z with
    | mk drv op_mode dmamode rx_owner tx_owner rx_par tx_par clock_on ev_vector er_vector syslog =>
      cases drv with
      | mk id_state id_config id_i2c errors log =>
        simp only at hz
        subst hz
        rfl
  have h2 : i2c_lld_stop (i2c_lld_stop y) = i2c_lld_stop y := hstop _ (stop_state y)
  exact ⟨h2, hstop y, by rw [h2], by rw [h2], stop_state y⟩

/-- C22: `i2c_lld_stop` called in state `I2C_READY` disables the event vector and
the error vector and then gates the clock, and does nothing else: no call of
the DMA helper driver is made, so both DMA streams stay with the owner they
had.  A driver that owned its receive stream still owns it after the stop,
and the next `i2c_lld_start` halts at its assertion #3, stream already
allocated. -/
theorem c22_stop_keeps_streams (y : I2CSystem) (h : y.drv.id_state = .I2C_READY) :
    (i2c_lld_stop y).syslog = y.syslog ++ [SysEvent.nvicDisable .I2C2_EV_IRQn,
      SysEvent.nvicDisable .I2C2_ER_IRQn, SysEvent.rccDisableI2C2] ∧
    dmaCalls (i2c_lld_stop y).syslog = dmaCalls y.syslog ∧
    (i2c_lld_stop y).rx_owner = y.rx_owner ∧
    (i2c_lld_stop y).tx_owner = y.tx_owner ∧
    (i2c_lld_stop y).clock_on = false ∧
    (i2c_lld_stop y).ev_vector = false ∧
    (i2c_lld_stop y).er_vector = false ∧
    (i2c_lld_stop y).drv.id_state = .I2C_STOP ∧
    (y.rx_owner ≠ .free → ∀ hc prio,
      (i2c_lld_start hc prio (i2c_lld_stop y)).out = .halted .assert3) := by
  refine ⟨?_, ?_, ?_, ?_, ?_, ?_, ?_, stop_state y, ?_⟩
  · rw [stop_ready y h]
  · rw [stop_ready y h]
    simp [dmaCalls, List.filter_append]
  · rw [stop_ready y h]
  · rw [stop_ready y h]
  · rw [stop_ready y h]
  · rw [stop_ready y h]
  · rw [stop_ready y h]
  · intro hrx hc prio
    have hown : (i2c_lld_stop y).rx_owner ≠ .free := by rw [stop_ready y h]; exact hrx
    rw [start_rx_taken hc prio (i2c_lld_stop y) (stop_state y) hown]

theorem c22_stop_keeps_streams_witness :
    startedSys.drv.id_state = .I2C_READY ∧
    startedSys.rx_owner = .driver ∧ startedSys.tx_owner = .driver ∧
    (i2c_lld_stop startedSys).rx_owner = .driver ∧
    (i2c_lld_stop startedSys).tx_owner = .driver ∧
    (i2c_lld_stop startedSys).syslog = startedSys.syslog ++
      [SysEvent.nvicDisable .I2C2_EV_IRQn, SysEvent.nvicDisable .I2C2_ER_IRQn,
       SysEvent.rccDisableI2C2] ∧
    (i2c_lld_start hc36 2 (i2c_lld_stop startedSys)).out = .halted .assert3 := by
  obtain ⟨h1, -, h3, h4, -, -, -, -, h9⟩ := c22_stop_keeps_streams startedSys (by decide)
  exact ⟨by decide, by decide, by decide, by rw [h3]; decide, by rw [h4]; decide, h1,
    h9 (by decide) hc36 2⟩

/-! ## `i2c_lld_set_clock` above the fast band -/

/-- For a speed above 400 kHz that the argument check accepts, with the
peripheral clock in range, `i2c_lld_set_clock` takes neither branch and
returns after writing `CR2`, `CR1`, `CCR` = 0 and `CR1`. -/
theorem set_clock_high_path (hc : HalConf) (d : I2CDriver)
    (h1 : 400000 < d.id_config.clock_speed) (h2 : d.id_config.clock_speed ≤ 4000000)
    (hf1 : 2 ≤ u16 (hc.STM32_PCLK1 / 1000000))
    (hf2 : u16 (hc.STM32_PCLK1 / 1000000) ≤ maxFreq hc) :
    i2c_lld_set_clock hc d =
      ⟨set_clock_epilogue d (set_clock_prologue hc d) 0, .returned⟩ := by
  have h3 : ¬ d.id_config.clock_speed ≤ 100000 := by omega
  have h4 : ¬ d.id_config.clock_speed ≤ 400000 := by omega
  have h5 : d.id_config.clock_speed > 0 := by omega
  have h6 : I2C_CCR_CCR ≤ I2C_CCR_CCR := le_refl _
  rw [i2c_lld_set_clock]
  simp only [set_clock_finish, h3, h4, h5, h2, hf1, hf2, h6, ge_iff_le, and_self,
    not_true_eq_false, if_true, if_false]
  rfl

theorem wr_log_ext (l ext : List Event) (d' : I2CDriver) (r : Reg) (v : Nat)
    (h : d'.log = l ++ ext) :
    (wr r v d').log = l ++ (ext ++ [Event.write r (u16 v) d'.id_i2c.CR1]) := by
  rw [(wr_ext r v d').1, h, List.append_assoc]

/-- The log of a call that wrote `TRISE`. -/
theorem epilogue_trise_log (hc : HalConf) (d : I2CDriver) (t c : Nat) :
    ∃ ext, (set_clock_epilogue d (wr .TRISE t (set_clock_prologue hc d)) c).log = d.log ++ ext ∧
      (Reg.TRISE, u16 t) ∈ regWrites ext := by
  unfold set_clock_epilogue set_clock_prologue
  have h0 : d.log = d.log ++ [] := (List.append_nil _).symm
  have h1 := wr_log_ext _ _ _ .CR2
    (u16 (u16 (d.id_i2c.CR2 &&& u16 (cnot I2C_CR2_FREQ)) ||| u16 (hc.STM32_PCLK1 / 1000000))) h0
  have h2 := wr_log_ext _ _ _ .CR1 ((wr .CR2
    (u16 (u16 (d.id_i2c.CR2 &&& u16 (cnot I2C_CR2_FREQ)) ||| u16 (hc.STM32_PCLK1 / 1000000)))
    d).id_i2c.CR1 &&& u16 (cnot I2C_CR1_PE)) h1
  have h3 := wr_log_ext _ _ _ .TRISE t h2
  have h4 := wr_log_ext _ _ _ .CCR c h3
  refine ⟨_, wr_log_ext _ _ _ .CR1 _ h4, ?_⟩
  simp [regWrites]

/-- The log of a call that took neither branch. -/
theorem epilogue_high_log (hc : HalConf) (d : I2CDriver) :
    ∃ ext, (set_clock_epilogue d (set_clock_prologue hc d) 0).log = d.log ++ ext ∧
      (regWrites ext).map Prod.fst = [.CR2, .CR1, .CCR, .CR1] ∧
      (Reg.CCR, 0) ∈ regWrites ext := by
  unfold set_clock_epilogue set_clock_prologue
  have h0 : d.log = d.log ++ [] := (List.append_nil _).symm
  have h1 := wr_log_ext _ _ _ .CR2
    (u16 (u16 (d.id_i2c.CR2 &&& u16 (cnot I2C_CR2_FREQ)) ||| u16 (hc.STM32_PCLK1 / 1000000))) h0
  have h2 := wr_log_ext _ _ _ .CR1 ((wr .CR2
    (u16 (u16 (d.id_i2c.CR2 &&& u16 (cnot I2C_CR2_FREQ)) ||| u16 (hc.STM32_PCLK1 / 1000000)))
    d).id_i2c.CR1 &&& u16 (cnot I2C_CR1_PE)) h1
  have h3 := wr_log_ext _ _ _ .CCR 0 h2
  refine ⟨_, wr_log_ext _ _ _ .CR1 _ h3, ?_, ?_⟩
  · simp [regWrites]
  · simp [regWrites, u16]

/-- On the two bands that `i2c_lld_set_clock` handles, a call that returns has
written a valid divider and has written `TRISE`: with F/S clear (speed up to
100 kHz) the divider field is at least 4, with F/S set (speed above 100 kHz, up
to 400 kHz) it is at least 1. -/
theorem set_clock_bands_valid (hc : HalConf) (d : I2CDriver)
    (h : d.id_config.clock_speed ≤ 400000)
    (hret : (i2c_lld_set_clock hc d).out = .returned) :
    ((i2c_lld_set_clock hc d).drv.id_i2c.CCR &&& I2C_CCR_FS = 0 →
      4 ≤ (i2c_lld_set_clock hc d).drv.id_i2c.CCR &&& I2C_CCR_CCR) ∧
    ((i2c_lld_set_clock hc d).drv.id_i2c.CCR &&& I2C_CCR_FS ≠ 0 →
      1 ≤ (i2c_lld_set_clock hc d).drv.id_i2c.CCR &&& I2C_CCR_CCR) ∧
    (i2c_lld_set_clock hc d).drv.id_i2c.CCR ≠ 0 ∧
    ∃ ext v, (i2c_lld_set_clock hc d).drv.log = d.log ++ ext ∧
      (Reg.TRISE, v) ∈ regWrites ext := by
  have hfs : I2C_CCR_FS ≠ 0 := by decide
  have hval : ((i2c_lld_set_clock hc d).drv.id_i2c.CCR &&& I2C_CCR_FS = 0 →
      4 ≤ (i2c_lld_set_clock hc d).drv.id_i2c.CCR &&& I2C_CCR_CCR) ∧
    ((i2c_lld_set_clock hc d).drv.id_i2c.CCR &&& I2C_CCR_FS ≠ 0 →
      1 ≤ (i2c_lld_set_clock hc d).drv.id_i2c.CCR &&& I2C_CCR_CCR) ∧
    (i2c_lld_set_clock hc d).drv.id_i2c.CCR ≠ 0 := by
    by_cases hstd : d.id_config.clock_speed ≤ 100000
    · obtain ⟨-, hle, hccr, -⟩ := set_clock_returned_std hc d hstd hret
      rw [hccr, and_ccr_of_le hle]
      have h4 : 4 ≤ max 4 (u16 (hc.STM32_PCLK1 / (d.id_config.clock_speed.toNat * 2))) :=
        le_max_left _ _
      exact ⟨fun _ => h4, fun _ => by omega, by omega⟩
    · have h1 : 1 ≤ max 1 (u16 (hc.STM32_PCLK1 / (d.id_config.clock_speed.toNat * 3))) :=
        le_max_left _ _
      have h1' : 1 ≤ max 1 (u16 (hc.STM32_PCLK1 / (d.id_config.clock_speed.toNat * 25))) :=
        le_max_left _ _
      obtain ⟨hc2 | hc169, -⟩ := set_clock_returned_fast hc d (by omega) h hret
      · obtain ⟨-, hle, hccr⟩ := hc2
        rw [hccr, fs_or_field hle, fs_or_fs hle]
        refine ⟨fun e => absurd e hfs, fun _ => h1, ?_⟩
        intro e
        have := fs_or_fs hle
        rw [e] at this
        exact hfs this.symm
      · obtain ⟨-, hle, hccr⟩ := hc169
        rw [hccr, duty_or_field hle, duty_or_fs hle]
        refine ⟨fun e => absurd e hfs, fun _ => h1', ?_⟩
        intro e
        have := duty_or_fs hle
        rw [e] at this
        exact hfs this.symm
  refine ⟨hval.1, hval.2.1, hval.2.2, ?_⟩
  rcases set_clock_cases hc d with c | c | c | c | ⟨t, c⟩ | ⟨t, r, c⟩ | c
  · rw [c.1] at hret; cases hret
  · rw [c.1] at hret; cases hret
  · rw [c.1] at hret; cases hret
  · rw [c.1] at hret; cases hret
  · rw [c.1] at hret; cases hret
  · obtain ⟨ext, hl, hm⟩ := epilogue_trise_log hc d t r
    exact ⟨ext, u16 t, by rw [c.2]; exact hl, hm⟩
  · exfalso
    apply hval.2.2
    rw [c.2]
    rfl

/-- C23: a speed above the fast band that the argument check of
`i2c_lld_set_clock` accepts (400000 < `clock_speed` <= 4000000), with the
peripheral clock in range, makes the function complete without a failed
assertion after writing `CCR` = 0: the divider field is 0 with F/S clear, and
`TRISE` is not written in the call. -/
theorem c23_accepted_speed_ccr_zero (hc : HalConf) (d : I2CDriver)
    (h1 : 400000 < d.id_config.clock_speed) (h2 : d.id_config.clock_speed ≤ 4000000)
    (hf1 : 2 ≤ u16 (hc.STM32_PCLK1 / 1000000))
    (hf2 : u16 (hc.STM32_PCLK1 / 1000000) ≤ maxFreq hc) :
    (i2c_lld_set_clock hc d).out = .returned ∧
    (i2c_lld_set_clock hc d).drv.id_i2c.CCR = 0 ∧
    (i2c_lld_set_clock hc d).drv.id_i2c.CCR &&& I2C_CCR_FS = 0 ∧
    (i2c_lld_set_clock hc d).drv.id_i2c.CCR &&& I2C_CCR_CCR = 0 ∧
    (i2c_lld_set_clock hc d).drv.id_i2c.TRISE = d.id_i2c.TRISE ∧
    ∃ ext, (i2c_lld_set_clock hc d).drv.log = d.log ++ ext ∧
      (regWrites ext).map Prod.fst = [.CR2, .CR1, .CCR, .CR1] ∧
      (Reg.CCR, 0) ∈ regWrites ext := by
  have hp := set_clock_high_path hc d h1 h2 hf1 hf2
  have hret : (i2c_lld_set_clock hc d).out = .returned := by rw [hp]
  obtain ⟨hccr, htrise⟩ := set_clock_returned_high hc d h1 hret
  refine ⟨hret, hccr, by rw [hccr]; rfl, by rw [hccr]; rfl, htrise, ?_⟩
  obtain ⟨ext, hl, hw⟩ := epilogue_high_log hc d
  exact ⟨ext, by rw [hp]; exact hl, hw⟩

theorem c23_accepted_speed_ccr_zero_witness :
    highSpeedDriver.id_config.clock_speed = 1000000 ∧
    highSpeedDriver.id_i2c.CCR = 180 ∧
    (i2c_lld_set_clock hc36 highSpeedDriver).out = .returned ∧
    (i2c_lld_set_clock hc36 highSpeedDriver).drv.id_i2c.CCR = 0 ∧
    (i2c_lld_set_clock hc36 highSpeedDriver).drv.id_i2c.TRISE = 37 :=
  have h := c23_accepted_speed_ccr_zero hc36 highSpeedDriver (by decide) (by decide)
    (by decide) (by decide)
  ⟨by decide, by decide, h.1, h.2.1, h.2.2.2.2.1⟩

/-! ## Kinetis `configure_uart` -/

theorem testBit_mask5 (i : Nat) : Nat.testBit 0x1F i = decide (i < 5) :=
  Nat.testBit_two_pow_sub_one 5 i

theorem testBit_high3 (i : Nat) : Nat.testBit 0xE0 i = (decide (5 ≤ i) && decide (i < 8)) := by
  by_cases h : i < 8
  · interval_cases i <;> rfl
  · have hlt : 0xE0 < 2 ^ i :=
      lt_of_lt_of_le (by decide : 0xE0 < 2 ^ 8) (Nat.pow_le_pow_right (by decide) (by omega))
    rw [Nat.testBit_lt_two_pow hlt]
    simp [h]

theorem testBit_cnot5 (i : Nat) (h : i < 8) : Nat.testBit (cnot 0x1F) i = decide (5 ≤ i) := by
  interval_cases i <;> rfl

/-- Putting the low five bits of `x` into the low field of an 8 bit register
that holds `b`: the field reads back `x % 32` and the three bits above it are
those of `b`. -/
theorem insert_field5 (x b : Nat) :
    u8 ((u8 x &&& 0x1F) ||| (b &&& cnot 0x1F)) &&& 0x1F = x % 32 ∧
    u8 ((u8 x &&& 0x1F) ||| (b &&& cnot 0x1F)) &&& 0xE0 = b &&& 0xE0 := by
  have e8 : ∀ v, u8 v = v % 2 ^ 8 := fun _ => rfl
  constructor
  · apply Nat.eq_of_testBit_eq
    intro i
    rw [(by norm_num : (32 : Nat) = 2 ^ 5)]
    simp only [e8, Nat.testBit_and, Nat.testBit_or, Nat.testBit_mod_two_pow, testBit_mask5]
    by_cases h5 : i < 5
    · have h8 : i < 8 := by omega
      have hn : ¬ 5 ≤ i := by omega
      simp [h5, h8, testBit_cnot5 i h8, hn]
    · simp [h5]
  · apply Nat.eq_of_testBit_eq
    intro i
    simp only [e8, Nat.testBit_and, Nat.testBit_or, Nat.testBit_mod_two_pow, testBit_mask5,
      testBit_high3]
    by_cases h8 : i < 8
    · by_cases h5 : 5 ≤ i
      · have hn : ¬ i < 5 := by omega
        simp [h5, h8, testBit_cnot5 i h8, hn]
      · simp [h5]
    · simp [h8]

/-- The registers `configure_uart` leaves, field by field. -/
theorem configure_uart_eq (sysclk sc_speed : Nat) (uart : UART_TypeDef) (hs : 0 < sc_speed) :
    ∃ u', configure_uart sysclk sc_speed uart = some u' ∧
      u'.BDH = u8 ((u8 ((u32 (sysclk * 2 + 1) / sc_speed) >>> 13) &&& 0x1F) |||
        (uart.BDH &&& cnot 0x1F)) ∧
      u'.BDL = u8 ((u32 (sysclk * 2 + 1) / sc_speed) >>> 5) ∧
      u'.C4 = u8 ((u8 (u32 (sysclk * 2 + 1) / sc_speed) &&& 0x1F) |||
        (uart.C4 &&& cnot 0x1F)) ∧
      u'.C1 = 0 ∧
      u'.C2 = u8 (u8 (uart.C2 &&& cnot (UARTx_C2_RE ||| UARTx_C2_TE)) |||
        (UARTx_C2_RE ||| UARTx_C2_RIE ||| UARTx_C2_TE)) ∧
      u'.C3 = UARTx_C3_ORIE ||| UARTx_C3_NEIE ||| UARTx_C3_FEIE ||| UARTx_C3_PEIE := by
  have h0 : ¬ sc_speed = 0 := by omega
  unfold configure_uart
  simp only [h0, if_false]
  exact ⟨_, rfl, rfl, rfl, rfl, rfl, rfl, rfl⟩

/-- C24: Kinetis `configure_uart` programs the baud divisor without loss: for
every `sc_speed` > 0 with d = (2 * `KINETIS_SYSCLK_FREQUENCY` + 1) / `sc_speed`
below 2^18 (the numerator fitting the 32 bit arithmetic), the call completes
and the 13 bit SBR made of the field of `BDH` and of `BDL`, with the 5 bit BRFA
of `C4`, satisfies 32 * SBR + BRFA = d; the bits of `BDH` and of `C4` above
the fields are those from before the call. -/
theorem c24_baud_divisor (sysclk sc_speed : Nat) (uart : UART_TypeDef)
    (hclk : 2 * sysclk + 1 < 2 ^ 32) (hs : 0 < sc_speed)
    (hd : (2 * sysclk + 1) / sc_speed < 2 ^ 18) :
    ∃ u', configure_uart sysclk sc_speed uart = some u' ∧
      32 * SBR_value u' + BRFA_value u' = (2 * sysclk + 1) / sc_speed ∧
      SBR_value u' = (2 * sysclk + 1) / sc_speed / 32 ∧
      BRFA_value u' = (2 * sysclk + 1) / sc_speed % 32 ∧
      u'.BDL < 256 ∧
      u'.BDH &&& u8 (cnot UARTx_BDH_SBR_MASK) = uart.BDH &&& u8 (cnot UARTx_BDH_SBR_MASK) ∧
      u'.C4 &&& u8 (cnot UARTx_C4_BRFA_MASK) = uart.C4 &&& u8 (cnot UARTx_C4_BRFA_MASK) := by
  obtain ⟨u', hu, hBDH, hBDL, hC4, -⟩ := configure_uart_eq sysclk sc_speed uart hs
  have hq : u32 (sysclk * 2 + 1) / sc_speed = (2 * sysclk + 1) / sc_speed := by
    rw [Nat.mul_comm sysclk 2]
    unfold u32
    rw [Nat.mod_eq_of_lt (by simpa using hclk)]
  rw [hq] at hBDH hBDL hC4
  generalize (2 * sysclk + 1) / sc_speed = d at hd hBDH hBDL hC4 ⊢
  have hm : UARTx_BDH_SBR_MASK = 0x1F := rfl
  have hm' : UARTx_C4_BRFA_MASK = 0x1F := rfl
  have he : u8 (cnot 0x1F) = 0xE0 := by decide
  have f1 := insert_field5 (d >>> 13) uart.BDH
  have f2 := insert_field5 d uart.C4
  have hsbr : SBR_value u' = d / 32 := by
    unfold SBR_value
    rw [hm, hBDH, f1.1, hBDL, Nat.shiftRight_eq_div_pow, Nat.shiftRight_eq_div_pow]
    unfold u8
    norm_num at hd ⊢
    omega
  have hbrfa : BRFA_value u' = d % 32 := by
    unfold BRFA_value
    rw [hm', hC4, f2.1]
  refine ⟨u', hu, ?_, hsbr, hbrfa, ?_, ?_, ?_⟩
  · rw [hsbr, hbrfa]; omega
  · rw [hBDL]; exact Nat.mod_lt _ (by decide)
  · rw [hm, he, hBDH, f1.2]
  · rw [hm', he, hC4, f2.2]

theorem c24_baud_divisor_witness :
    configure_uart 48000000 38400 uartSample =
      some { BDH := 0xC0, BDL := 78, C1 := 0, C2 := 0x2C, C3 := 0x0F, C4 := 0xE4 } ∧
    ∃ u', configure_uart 48000000 38400 uartSample = some u' ∧
      32 * SBR_value u' + BRFA_value u' = 2500 := by
  obtain ⟨u', h1, h2, -⟩ := c24_baud_divisor 48000000 38400 uartSample (by decide) (by decide)
    (by decide)
  exact ⟨by decide, u', h1, h2⟩

end ChibiOS
